import Mathlib

set_option maxHeartbeats 1000000
set_option maxRecDepth 100000

namespace ScruffRx

/-- Number of grid columns (GameConfig.FIELD_WIDTH). -/
def FIELD_WIDTH : Int := 8

/-- Number of grid rows (GameConfig.FIELD_HEIGHT). -/
def FIELD_HEIGHT : Int := 16

/-- Orientation of a capsule (the CapsuleOrientation union type of GameConfig). -/
inductive Orientation where
  | horizontal
  | vertical
deriving DecidableEq, Repr

/-- Logical state of a Pathogen entity: color index and stored grid position. -/
structure PathogenEnt where
  colorIndex : Nat
  gridCol : Int
  gridRow : Int
deriving DecidableEq, Repr

/-- Logical state of a CapsuleHalf entity: color index, optional id of the
parent Capsule (none when detached), and stored grid position. -/
structure HalfEnt where
  colorIndex : Nat
  parentCapsule : Option Nat
  gridCol : Int
  gridRow : Int
deriving DecidableEq, Repr

/-- A game piece occupying a grid cell: either a Pathogen or a CapsuleHalf. -/
inductive Entity where
  | pathogen (p : PathogenEnt)
  | half (h : HalfEnt)
deriving DecidableEq, Repr

/-- Color index of an entity (the colorIndex field shared by both kinds). -/
def Entity.colorIndex : Entity → Nat
  | .pathogen p => p.colorIndex
  | .half h => h.colorIndex

/-- Stored column of an entity. -/
def Entity.gridCol : Entity → Int
  | .pathogen p => p.gridCol
  | .half h => h.gridCol

/-- Stored row of an entity. -/
def Entity.gridRow : Entity → Int
  | .pathogen p => p.gridRow
  | .half h => h.gridRow

/-- Logical state of a Capsule aggregate: ids of its two halves, orientation,
which half is the base (half1IsFirst), and the base grid position. -/
structure CapsuleEnt where
  half1 : Nat
  half2 : Nat
  orientation : Orientation
  half1IsFirst : Bool
  gridCol : Int
  gridRow : Int
deriving DecidableEq, Repr

/-- Whole game state: the 2D cell array (cell to entity id), the entity store,
and the capsule store.  Object references of the source become ids. -/
structure GameState where
  cells : Int → Int → Option Nat
  ents : Nat → Option Entity
  caps : Nat → Option CapsuleEnt

/-- GameGrid.isValid: bounds predicate on grid coordinates. -/
def GameGrid.isValid (col row : Int) : Bool :=
  decide (0 ≤ col) && decide (col < FIELD_WIDTH) &&
  decide (0 ≤ row) && decide (row < FIELD_HEIGHT)

/-- GameGrid.get: content of a cell; out of bounds yields none. -/
def GameGrid.get (s : GameState) (col row : Int) : Option Nat :=
  if GameGrid.isValid col row then s.cells col row else none

/-- Rewrite the stored position of an entity (the coordinate update GameGrid.set
performs on the written piece). -/
def entSetPos (e : Entity) (col row : Int) : Entity :=
  match e with
  | .pathogen p => .pathogen { p with gridCol := col, gridRow := row }
  | .half h => .half { h with gridCol := col, gridRow := row }

/-- Update the entity store entry of one id with new coordinates. -/
def setEntPos (s : GameState) (id : Nat) (col row : Int) : GameState :=
  { s with ents := fun i => if i = id then (s.ents i).map (fun e => entSetPos e col row)
                            else s.ents i }

/-- GameGrid.set: writes a cell and, when the content is a piece, also rewrites
that piece's stored coordinates; returns false without change when out of bounds. -/
def GameGrid.set (s : GameState) (col row : Int) (content : Option Nat) :
    Bool × GameState :=
  if GameGrid.isValid col row then
    let s1 : GameState :=
      { s with cells := fun c r => if c = col ∧ r = row then content else s.cells c r }
    match content with
    | some id => (true, setEntPos s1 id col row)
    | none => (true, s1)
  else (false, s)

/-- GameGrid.remove: reads a cell and, if occupied, writes none there;
returns the previous content. -/
def GameGrid.remove (s : GameState) (col row : Int) : Option Nat × GameState :=
  match GameGrid.get s col row with
  | some id => (some id, (GameGrid.set s col row none).2)
  | none => (none, s)

/-- GameGrid.isOccupied. -/
def GameGrid.isOccupied (s : GameState) (col row : Int) : Bool :=
  (GameGrid.get s col row).isSome

/-- GameGrid.isEmpty. -/
def GameGrid.isEmpty (s : GameState) (col row : Int) : Bool :=
  (GameGrid.get s col row).isNone

/-- Color of the piece at a cell, if any (entity lookup composed with the grid). -/
def colorAt (s : GameState) (col row : Int) : Option Nat :=
  match GameGrid.get s col row with
  | some id => (s.ents id).map Entity.colorIndex
  | none => none

/-- Stored position of an entity id (0,0 fallback for a missing id, which a
well-formed state never dereferences). -/
def entPos (s : GameState) (id : Nat) : Int × Int :=
  match s.ents id with
  | some e => (e.gridCol, e.gridRow)
  | none => (0, 0)

/- Capsule controller.  The Capsule object of the source carries its two halves,
an orientation, the half1IsFirst flag and the base grid position; during play
the halves are not stored in the grid, and collision checks go through a
caller-supplied occupancy predicate. -/

/-- State of a falling Capsule: positions of both halves, orientation, the
half1IsFirst flag, and the base grid position of the first half. -/
structure CapsuleState where
  half1Col : Int
  half1Row : Int
  half2Col : Int
  half2Row : Int
  orientation : Orientation
  half1IsFirst : Bool
  gridCol : Int
  gridRow : Int
deriving DecidableEq, Repr

/-- Capsule.updateHalfPositions: derives both halves' grid positions from the
base position, orientation and half1IsFirst flag. -/
def Capsule.updateHalfPositions (cs : CapsuleState) : CapsuleState :=
  if cs.half1IsFirst then
    match cs.orientation with
    | .horizontal =>
      { cs with half1Col := cs.gridCol, half1Row := cs.gridRow,
                half2Col := cs.gridCol + 1, half2Row := cs.gridRow }
    | .vertical =>
      { cs with half1Col := cs.gridCol, half1Row := cs.gridRow,
                half2Col := cs.gridCol, half2Row := cs.gridRow + 1 }
  else
    match cs.orientation with
    | .horizontal =>
      { cs with half2Col := cs.gridCol, half2Row := cs.gridRow,
                half1Col := cs.gridCol + 1, half1Row := cs.gridRow }
    | .vertical =>
      { cs with half2Col := cs.gridCol, half2Row := cs.gridRow,
                half1Col := cs.gridCol, half1Row := cs.gridRow + 1 }

/-- Capsule.setGridPosition: moves the base and re-derives the halves. -/
def Capsule.setGridPosition (cs : CapsuleState) (col row : Int) : CapsuleState :=
  Capsule.updateHalfPositions { cs with gridCol := col, gridRow := row }

/-- Capsule.rotate: 90-degree clockwise rotation with boundary and occupancy
checks on the two candidate cells; a failed check is a no-op returning false. -/
def Capsule.rotate (cs : CapsuleState) (occ : Int → Int → Bool) : Bool × CapsuleState :=
  let cand : Int × Int × Int × Int × Orientation × Bool :=
    match cs.orientation, cs.half1IsFirst with
    | .horizontal, true => (cs.gridCol, cs.gridRow, cs.gridCol, cs.gridRow + 1, .vertical, true)
    | .horizontal, false => (cs.gridCol, cs.gridRow + 1, cs.gridCol, cs.gridRow, .vertical, false)
    | .vertical, true => (cs.gridCol + 1, cs.gridRow, cs.gridCol, cs.gridRow, .horizontal, false)
    | .vertical, false => (cs.gridCol, cs.gridRow, cs.gridCol + 1, cs.gridRow, .horizontal, true)
  match cand with
  | (n1c, n1r, n2c, n2r, nOr, nFirst) =>
    if !(GameGrid.isValid n1c n1r) || !(GameGrid.isValid n2c n2r) then (false, cs)
    else if occ n1c n1r || occ n2c n2r then (false, cs)
    else
      let cs1 : CapsuleState := { cs with orientation := nOr, half1IsFirst := nFirst }
      let cs2 : CapsuleState :=
        if nFirst then { cs1 with gridCol := n1c, gridRow := n1r }
        else { cs1 with gridCol := n2c, gridRow := n2r }
      (true, Capsule.updateHalfPositions cs2)

/-- Capsule.canMoveLeft. -/
def Capsule.canMoveLeft (cs : CapsuleState) (occ : Int → Int → Bool) : Bool :=
  let leftmostCol := min cs.half1Col cs.half2Col
  if leftmostCol ≤ 0 then false
  else
    match cs.orientation with
    | .horizontal => !(occ (leftmostCol - 1) cs.gridRow)
    | .vertical => !(occ (cs.gridCol - 1) cs.gridRow) && !(occ (cs.gridCol - 1) (cs.gridRow + 1))

/-- Capsule.canMoveRight. -/
def Capsule.canMoveRight (cs : CapsuleState) (occ : Int → Int → Bool) : Bool :=
  let rightmostCol := max cs.half1Col cs.half2Col
  if rightmostCol ≥ FIELD_WIDTH - 1 then false
  else
    match cs.orientation with
    | .horizontal => !(occ (rightmostCol + 1) cs.gridRow)
    | .vertical => !(occ (cs.gridCol + 1) cs.gridRow) && !(occ (cs.gridCol + 1) (cs.gridRow + 1))

/-- Capsule.canMoveDown. -/
def Capsule.canMoveDown (cs : CapsuleState) (occ : Int → Int → Bool) : Bool :=
  let bottomIsHalf1 : Bool :=
    match cs.orientation with
    | .horizontal => true
    | .vertical => !cs.half1IsFirst
  let bhCol := if bottomIsHalf1 then cs.half1Col else cs.half2Col
  let bhRow := if bottomIsHalf1 then cs.half1Row else cs.half2Row
  if bhRow ≥ FIELD_HEIGHT - 1 then false
  else
    match cs.orientation with
    | .horizontal => !(occ cs.half1Col (cs.half1Row + 1)) && !(occ cs.half2Col (cs.half2Row + 1))
    | .vertical => !(occ bhCol (bhRow + 1))

/-- Capsule.tryMoveLeft. -/
def Capsule.tryMoveLeft (cs : CapsuleState) (occ : Int → Int → Bool) : Bool × CapsuleState :=
  if Capsule.canMoveLeft cs occ then
    (true, Capsule.setGridPosition cs (cs.gridCol - 1) cs.gridRow)
  else (false, cs)

/-- Capsule.tryMoveRight. -/
def Capsule.tryMoveRight (cs : CapsuleState) (occ : Int → Int → Bool) : Bool × CapsuleState :=
  if Capsule.canMoveRight cs occ then
    (true, Capsule.setGridPosition cs (cs.gridCol + 1) cs.gridRow)
  else (false, cs)

/-- Capsule.tryMoveDown. -/
def Capsule.tryMoveDown (cs : CapsuleState) (occ : Int → Int → Bool) : Bool × CapsuleState :=
  if Capsule.canMoveDown cs occ then
    (true, Capsule.setGridPosition cs cs.gridCol (cs.gridRow + 1))
  else (false, cs)

/-- Capsule constructor state: base at the origin, half1 designated first,
then the halves derived from the requested orientation. -/
def mkCapsule (o : Orientation) : CapsuleState :=
  Capsule.updateHalfPositions
    { half1Col := 0, half1Row := 0, half2Col := 0, half2Row := 0,
      orientation := o, half1IsFirst := true, gridCol := 0, gridRow := 0 }

/-- Spec-side adjacency invariant on a capsule: the two halves occupy cells
exactly one apart in the direction matching the orientation. -/
def halvesAdjacent (cs : CapsuleState) : Bool :=
  match cs.orientation with
  | .horizontal =>
    decide (cs.half1Row = cs.half2Row) &&
    (decide (cs.half2Col = cs.half1Col + 1) || decide (cs.half1Col = cs.half2Col + 1))
  | .vertical =>
    decide (cs.half1Col = cs.half2Col) &&
    (decide (cs.half2Row = cs.half1Row + 1) || decide (cs.half1Row = cs.half2Row + 1))

/-- Positions of the halves are exactly the ones derived from the base position,
orientation and first-half flag (the state every mutation path re-establishes
through updateHalfPositions). -/
def derivedPositions (cs : CapsuleState) : Bool :=
  decide (cs = Capsule.updateHalfPositions cs)

/-- One player action on a falling capsule. -/
inductive CapsuleAction where
  | moveLeft
  | moveRight
  | moveDown
  | rotateCW
deriving DecidableEq, Repr

/-- Apply one action with its occupancy predicate, keeping the resulting state
whether or not the action succeeded. -/
def applyAction (a : CapsuleAction) (occ : Int → Int → Bool) (cs : CapsuleState) :
    CapsuleState :=
  match a with
  | .moveLeft => (Capsule.tryMoveLeft cs occ).2
  | .moveRight => (Capsule.tryMoveRight cs occ).2
  | .moveDown => (Capsule.tryMoveDown cs occ).2
  | .rotateCW => (Capsule.rotate cs occ).2

/-- Apply a sequence of actions, each with its own occupancy predicate. -/
def applyActions (l : List (CapsuleAction × (Int → Int → Bool))) (cs : CapsuleState) :
    CapsuleState :=
  l.foldl (fun c p => applyAction p.1 p.2 c) cs

/-- An occupancy predicate reporting every cell free (an empty playing field). -/
def occAlwaysFree : Int → Int → Bool := fun _ _ => false

/-- A vertical capsule with half1 designated first, base cell (3,5):
half1 on top at (3,5), half2 below at (3,6). -/
def cs0v : CapsuleState :=
  { half1Col := 3, half1Row := 5, half2Col := 3, half2Row := 6,
    orientation := .vertical, half1IsFirst := true, gridCol := 3, gridRow := 5 }

/-- A completely empty game state. -/
def emptyState : GameState :=
  { cells := fun _ _ => none, ents := fun _ => none, caps := fun _ => none }

/-- A state with a single pathogen, id 0, at cell (2,3). -/
def demoState : GameState :=
  { cells := fun c r => if c = 2 ∧ r = 3 then some 0 else none,
    ents := fun i => if i = 0 then
        some (.pathogen { colorIndex := 0, gridCol := 2, gridRow := 3 }) else none,
    caps := fun _ => none }

/- Match detection (MatchSystem.findMatches and getLinearMatch). -/

/-- Row-major list of all grid cells (row outer, column inner), the scan order
of the findMatches loops. -/
def cellList : List (Int × Int) :=
  (List.range 16).flatMap (fun r => (List.range 8).map (fun c => ((c : Int), (r : Int))))

/-- Fuel-indexed body of the getLinearMatch while loop: starting at a cell,
extend in direction (dx,dy) while the cells are in bounds and hold a piece of
the target color.  The fuel 24 used by getLinearMatch exceeds any in-bounds
walk in the two directions the scanner uses, so the loop always stops on its
own condition first. -/
def getLinearMatchAux (s : GameState) (targetColor : Nat) (dx dy : Int) :
    Nat → Int → Int → List (Int × Int)
  | 0, _, _ => []
  | fuel + 1, col, row =>
    if GameGrid.isValid col row then
      match colorAt s col row with
      | some c =>
        if c = targetColor then
          (col, row) :: getLinearMatchAux s targetColor dx dy fuel (col + dx) (row + dy)
        else []
      | none => []
    else []

/-- MatchSystem.getLinearMatch: the contiguous line of same-colored pieces
from a start cell in one direction. -/
def getLinearMatch (s : GameState) (startCol startRow dx dy : Int) (targetColor : Nat) :
    List (Int × Int) :=
  getLinearMatchAux s targetColor dx dy 24 startCol startRow

/-- Add the cells of one qualifying line to the accumulated matched list,
skipping cells already present (the string-set semantics of findMatches). -/
def addMatched (acc : List (Int × Int)) (line : List (Int × Int)) : List (Int × Int) :=
  line.foldl (fun a p => if p ∈ a then a else a ++ [p]) acc

/-- The findMatches scan body for one cell: when the cell holds a piece,
collect its rightward and downward lines whenever their length is at least 4. -/
def scanCell (s : GameState) (acc : List (Int × Int)) (p : Int × Int) : List (Int × Int) :=
  match colorAt s p.1 p.2 with
  | none => acc
  | some tc =>
    let hline := getLinearMatch s p.1 p.2 1 0 tc
    let acc1 := if 4 ≤ hline.length then addMatched acc hline else acc
    let vline := getLinearMatch s p.1 p.2 0 1 tc
    if 4 ≤ vline.length then addMatched acc1 vline else acc1

/-- MatchSystem.findMatches: the cells of every qualifying line, each once, in
first-found order; an empty list means no matches. -/
def findMatches (s : GameState) : List (Int × Int) :=
  cellList.foldl (scanCell s) []

/-- The scan at cell p contributes cell q: the line rightward or downward from
p has length at least 4 and contains q. -/
def hitsFrom (s : GameState) (p q : Int × Int) : Prop :=
  ∃ tc, colorAt s p.1 p.2 = some tc ∧
    ((4 ≤ (getLinearMatch s p.1 p.2 1 0 tc).length ∧ q ∈ getLinearMatch s p.1 p.2 1 0 tc) ∨
     (4 ≤ (getLinearMatch s p.1 p.2 0 1 tc).length ∧ q ∈ getLinearMatch s p.1 p.2 0 1 tc))

/-- All cells in columns a..b of row r hold a piece of color tc. -/
def hSeg (s : GameState) (tc : Nat) (r a b : Int) : Prop :=
  ∀ i : Int, a ≤ i → i ≤ b → colorAt s i r = some tc

/-- All cells in rows a..b of column c hold a piece of color tc. -/
def vSeg (s : GameState) (tc : Nat) (c a b : Int) : Prop :=
  ∀ i : Int, a ≤ i → i ≤ b → colorAt s c i = some tc

/-- Modelled from the spec side, for comparison with findMatches: the cell
lies on a straight horizontal or vertical run of four or more same-colored
pieces, i.e. some window of four consecutive cells containing it carries its
color throughout. -/
def onStraightRun (s : GameState) (c r : Int) : Bool :=
  match colorAt s c r with
  | none => false
  | some col =>
    ((List.range 4).any fun j =>
      (List.range 4).all fun i =>
        decide (colorAt s (c - (j : Int) + (i : Int)) r = some col)) ||
    ((List.range 4).any fun j =>
      (List.range 4).all fun i =>
        decide (colorAt s c (r - (j : Int) + (i : Int)) = some col))

/-- A state of pathogens of one color at the listed cells (id of each piece is
its index in the list). -/
def pathState (ps : List (Int × Int)) : GameState :=
  { cells := fun c r => ps.findIdx? (fun p => p = (c, r)),
    ents := fun i => (ps.get? i).map (fun p => Entity.pathogen ⟨0, p.1, p.2⟩),
    caps := fun _ => none }

/- Clearing (MatchSystem.clearMatches and separateCapsule). -/

/-- Insert a capsule id into the separation set (set-with-insertion-order
semantics of capsulesToSeparate). -/
def addCapToSep (l : List Nat) (k : Nat) : List Nat :=
  if k ∈ l then l else l ++ [k]

/-- One step of the clearMatches loop: for the matched cell, record the parent
capsule of a still-linked half for later separation, remove the piece from the
grid, and count it. -/
def clearCell (acc : GameState × Nat × List Nat) (p : Int × Int) :
    GameState × Nat × List Nat :=
  match GameGrid.get acc.1 p.1 p.2 with
  | none => acc
  | some id =>
    let sep : List Nat :=
      match acc.1.ents id with
      | some (.half h) =>
        match h.parentCapsule with
        | some k => addCapToSep acc.2.2 k
        | none => acc.2.2
      | _ => acc.2.2
    ((GameGrid.remove acc.1 p.1 p.2).2, acc.2.1 + 1, sep)

/-- Clear the link of a half entity (the convertToSingle effect). -/
def setParentNone (s : GameState) (id : Nat) : GameState :=
  { s with ents := fun i =>
      if i = id then
        match s.ents i with
        | some (.half h) => some (.half { h with parentCapsule := none })
        | e => e
      else s.ents i }

/-- MatchSystem.separateCapsule via Capsule.separateHalves: both halves lose
their parent link and the capsule aggregate is destroyed. -/
def separateCapsule (s : GameState) (k : Nat) : GameState :=
  match s.caps k with
  | none => s
  | some cap =>
    let s1 := setParentNone s cap.half1
    let s2 := setParentNone s1 cap.half2
    { s2 with caps := fun i => if i = k then none else s2.caps i }

/-- MatchSystem.clearMatches (grid effect): remove every matched cell, then
separate every capsule that lost a half; returns the cleared count. -/
def clearMatches (s : GameState) (cells : List (Int × Int)) : GameState × Nat :=
  let r := cells.foldl clearCell (s, 0, [])
  (r.2.2.foldl separateCapsule r.1, r.2.1)

/- Gravity (MatchSystem.applyGravity). -/

/-- View of a stored capsule as a controller state (half coordinates read from
the entity store). -/
def capStateOf (s : GameState) (cap : CapsuleEnt) : CapsuleState :=
  { half1Col := (entPos s cap.half1).1, half1Row := (entPos s cap.half1).2,
    half2Col := (entPos s cap.half2).1, half2Row := (entPos s cap.half2).2,
    orientation := cap.orientation, half1IsFirst := cap.half1IsFirst,
    gridCol := cap.gridCol, gridRow := cap.gridRow }

/-- The customIsOccupiedCheck of applyGravity: a cell holding one of the
capsule's own halves does not count as a collision. -/
def customOcc (s : GameState) (cap : CapsuleEnt) (checkCol checkRow : Int) : Bool :=
  match GameGrid.get s checkCol checkRow with
  | some id =>
    match s.ents id with
    | some (.half _) =>
      if id = cap.half1 ∨ id = cap.half2 then false
      else GameGrid.isOccupied s checkCol checkRow
    | _ => GameGrid.isOccupied s checkCol checkRow
  | none => GameGrid.isOccupied s checkCol checkRow

/-- Write a moved capsule controller state back into the stores: the halves'
coordinates and the capsule record. -/
def writeBackCapsule (s : GameState) (k : Nat) (cap : CapsuleEnt) (cs : CapsuleState) :
    GameState :=
  let s1 := setEntPos s cap.half1 cs.half1Col cs.half1Row
  let s2 := setEntPos s1 cap.half2 cs.half2Col cs.half2Row
  { s2 with caps := fun i =>
      if i = k then
        some { cap with orientation := cs.orientation, half1IsFirst := cs.half1IsFirst,
                        gridCol := cs.gridCol, gridRow := cs.gridRow }
      else s2.caps i }

/-- Rows strictly below r, ascending, up to the bottom row (the checkRow loop
range of the detached-half drop computation). -/
def rowsBelow (r : Int) : List Int :=
  (List.range (FIELD_HEIGHT - (r + 1)).toNat).map (fun n : Nat => r + 1 + (n : Int))

/-- Count the leading empty cells of a column along a row list. -/
def dropDistAux (s : GameState) (c : Int) : List Int → Nat
  | [] => 0
  | row :: rest => if GameGrid.isEmpty s c row then 1 + dropDistAux s c rest else 0

/-- Maximal run of empty cells directly below (c,r) in column c. -/
def dropDist (s : GameState) (c r : Int) : Nat :=
  dropDistAux s c (rowsBelow r)

/-- Scan order of applyGravity: columns left to right, rows from the
second-to-last upward. -/
def gravityOrder : List (Int × Int) :=
  (List.range 8).flatMap (fun c => ((List.range 15).reverse).map (fun r => ((c : Int), (r : Int))))

/-- One scan step of applyGravity at a cell, threading the state, the dropped
count and the set of already-processed capsules. -/
def gravityStep (acc : GameState × Nat × List Nat) (p : Int × Int) :
    GameState × Nat × List Nat :=
  match GameGrid.get acc.1 p.1 p.2 with
  | none => acc
  | some id =>
    match acc.1.ents id with
    | some (.half h) =>
      match h.parentCapsule with
      | some k =>
        if k ∈ acc.2.2 then acc
        else
          match acc.1.caps k with
          | none => (acc.1, acc.2.1, k :: acc.2.2)
          | some cap =>
            if Capsule.canMoveDown (capStateOf acc.1 cap) (customOcc acc.1 cap) then
              let old1 := entPos acc.1 cap.half1
              let old2 := entPos acc.1 cap.half2
              let cs1 := (Capsule.tryMoveDown (capStateOf acc.1 cap) (customOcc acc.1 cap)).2
              let s1 := writeBackCapsule acc.1 k cap cs1
              let s2 := (GameGrid.remove s1 old1.1 old1.2).2
              let s3 := (GameGrid.remove s2 old2.1 old2.2).2
              let s4 := (GameGrid.set s3 (entPos s3 cap.half1).1 (entPos s3 cap.half1).2
                          (some cap.half1)).2
              let s5 := (GameGrid.set s4 (entPos s4 cap.half2).1 (entPos s4 cap.half2).2
                          (some cap.half2)).2
              (s5, acc.2.1 + 2, k :: acc.2.2)
            else (acc.1, acc.2.1, k :: acc.2.2)
      | none =>
        let d := dropDist acc.1 p.1 p.2
        if 0 < d then
          let s1 := (GameGrid.remove acc.1 p.1 p.2).2
          let s2 := (GameGrid.set s1 p.1 (p.2 + (d : Int)) (some id)).2
          (s2, acc.2.1 + 1, acc.2.2)
        else acc
    | _ => acc

/-- MatchSystem.applyGravity: fold the scan step over the whole grid; returns
the new state and the number of dropped pieces. -/
def applyGravity (s : GameState) : GameState × Nat :=
  let r := gravityOrder.foldl gravityStep (s, 0, [])
  (r.1, r.2.1)

/-- Number of occupied cells of the grid (the piece population). -/
def pieceCount (s : GameState) : Nat :=
  cellList.countP (fun p => (GameGrid.get s p.1 p.2).isSome)

/-- The processMatches chain loop with explicit fuel: find matches; if none,
stop with totals 0; otherwise clear, apply gravity, and recurse, accumulating
the cleared count and the chain count.  The fuel pieceCount + 1 used by
processMatches is proven sufficient on well-formed states, where every
iteration strictly shrinks the piece population. -/
def processMatchesAux : Nat → GameState → GameState × Nat × Nat
  | 0, s => (s, 0, 0)
  | fuel + 1, s =>
    let m := findMatches s
    if m.isEmpty then (s, 0, 0)
    else
      let c := clearMatches s m
      let g := applyGravity c.1
      let rec1 := processMatchesAux fuel g.1
      (rec1.1, c.2 + rec1.2.1, rec1.2.2 + 1)

/-- MatchSystem.processMatches (resolve): run the detect-clear-gravity loop to
quiescence; returns the final state, total cleared pieces, and chain count. -/
def processMatches (s : GameState) : GameState × Nat × Nat :=
  processMatchesAux (pieceCount s + 1) s

/- Well-formedness of a game state: every gridded piece stores its own cell as
its coordinates, and every still-linked gridded half belongs to a registered
capsule whose two distinct halves are both gridded at their stored positions,
consistent with the capsule base position, orientation and first-half flag. -/

/-- Geometric consistency of a capsule record with its two half entities. -/
def capGeomB (cap : CapsuleEnt) (h1 h2 : HalfEnt) : Bool :=
  if cap.half1IsFirst then
    decide (h1.gridCol = cap.gridCol) && decide (h1.gridRow = cap.gridRow) &&
    (match cap.orientation with
     | .horizontal => decide (h2.gridCol = cap.gridCol + 1) && decide (h2.gridRow = cap.gridRow)
     | .vertical => decide (h2.gridCol = cap.gridCol) && decide (h2.gridRow = cap.gridRow + 1))
  else
    decide (h2.gridCol = cap.gridCol) && decide (h2.gridRow = cap.gridRow) &&
    (match cap.orientation with
     | .horizontal => decide (h1.gridCol = cap.gridCol + 1) && decide (h1.gridRow = cap.gridRow)
     | .vertical => decide (h1.gridCol = cap.gridCol) && decide (h1.gridRow = cap.gridRow + 1))

/-- Consistency of the capsule registered under k as seen from a gridded half
with id and pointing to k. -/
def capOK (s : GameState) (k : Nat) (id : Nat) : Bool :=
  match s.caps k with
  | none => false
  | some cap =>
    (decide (id = cap.half1) || decide (id = cap.half2)) &&
    decide (cap.half1 ≠ cap.half2) &&
    (match s.ents cap.half1, s.ents cap.half2 with
     | some (.half h1), some (.half h2) =>
       decide (h1.parentCapsule = some k) && decide (h2.parentCapsule = some k) &&
       decide (GameGrid.get s h1.gridCol h1.gridRow = some cap.half1) &&
       decide (GameGrid.get s h2.gridCol h2.gridRow = some cap.half2) &&
       capGeomB cap h1 h2
     | _, _ => false)

/-- Consistency of one grid cell: an empty cell is fine; an occupied cell must
hold an existing entity whose stored coordinates are this cell, and a linked
half must have a consistent capsule. -/
def cellOK (s : GameState) (p : Int × Int) : Bool :=
  match GameGrid.get s p.1 p.2 with
  | none => true
  | some id =>
    match s.ents id with
    | none => false
    | some (.pathogen pe) => decide (pe.gridCol = p.1) && decide (pe.gridRow = p.2)
    | some (.half h) =>
      decide (h.gridCol = p.1) && decide (h.gridRow = p.2) &&
      (match h.parentCapsule with
       | none => true
       | some k => capOK s k id)

/-- Well-formed game state. -/
def WF (s : GameState) : Bool :=
  cellList.all (cellOK s)

/-- Spec-side form of the position/content invariant of C4: every grid cell
referencing a piece is exactly that piece's stored position.  A dangling id is
ignored here (it stands for no piece). -/
def posInv (s : GameState) : Bool :=
  cellList.all fun p =>
    match GameGrid.get s p.1 p.2 with
    | none => true
    | some id =>
      match s.ents id with
      | none => true
      | some e => decide (e.gridCol = p.1) && decide (e.gridRow = p.2)

/- Interface lemmas for the well-formedness predicate. -/

/-- The record of facts packed into capOK. -/
structure CapFacts (s : GameState) (k : Nat) (cap : CapsuleEnt) (h1 h2 : HalfEnt) : Prop where
  caps_eq : s.caps k = some cap
  hne : cap.half1 ≠ cap.half2
  ents1 : s.ents cap.half1 = some (.half h1)
  ents2 : s.ents cap.half2 = some (.half h2)
  par1 : h1.parentCapsule = some k
  par2 : h2.parentCapsule = some k
  grid1 : GameGrid.get s h1.gridCol h1.gridRow = some cap.half1
  grid2 : GameGrid.get s h2.gridCol h2.gridRow = some cap.half2
  geom : capGeomB cap h1 h2 = true

/- Lemmas about the cell-removal loop of clearMatches. -/

/-- Relation between the original state and the evolving state of the clear
loop: entity and capsule stores are untouched, and every cell is either
unchanged or already cleared with the parent capsule of a cleared linked half
already recorded in the separation list. -/
def ClearRel (s t : GameState) (sep : List Nat) : Prop :=
  t.ents = s.ents ∧ t.caps = s.caps ∧
  ∀ c r, GameGrid.get t c r = GameGrid.get s c r ∨
    (GameGrid.get t c r = none ∧
      ∀ id hh k, GameGrid.get s c r = some id → s.ents id = some (.half hh) →
        hh.parentCapsule = some k → k ∈ sep)

/-- Every recorded capsule id is witnessed by a consistent capsule in the
original state. -/
def SepOK (s : GameState) (sep : List Nat) : Prop :=
  ∀ k ∈ sep, ∃ id, capOK s k id = true

/-- The grid-and-store effect of moving a whole capsule in applyGravity: write
back the moved controller state, remove the halves' old cells, set their new
cells (reading the updated stored positions, exactly as the source does). -/
def capsuleShiftState (t : GameState) (k : Nat) (cap : CapsuleEnt) (cs1 : CapsuleState) :
    GameState :=
  let s1 := writeBackCapsule t k cap cs1
  let s2 := (GameGrid.remove s1 (entPos t cap.half1).1 (entPos t cap.half1).2).2
  let s3 := (GameGrid.remove s2 (entPos t cap.half2).1 (entPos t cap.half2).2).2
  let s4 := (GameGrid.set s3 (entPos s3 cap.half1).1 (entPos s3 cap.half1).2
    (some cap.half1)).2
  (GameGrid.set s4 (entPos s4 cap.half2).1 (entPos s4 cap.half2).2 (some cap.half2)).2

structure ShiftHyps (t : GameState) (cap : CapsuleEnt) (h1 h2 : HalfEnt)
    (cs1 : CapsuleState) : Prop where
  hc1 : cs1.half1Col = h1.gridCol
  hr1 : cs1.half1Row = h1.gridRow + 1
  hc2 : cs1.half2Col = h2.gridCol
  hr2 : cs1.half2Row = h2.gridRow + 1
  hval1 : GameGrid.isValid h1.gridCol (h1.gridRow + 1) = true
  hval2 : GameGrid.isValid h2.gridCol (h2.gridRow + 1) = true
  hnew1 : GameGrid.get t h1.gridCol (h1.gridRow + 1) = none ∨
    (h1.gridCol = h2.gridCol ∧ h1.gridRow + 1 = h2.gridRow)
  hnew2 : GameGrid.get t h2.gridCol (h2.gridRow + 1) = none ∨
    (h2.gridCol = h1.gridCol ∧ h2.gridRow + 1 = h1.gridRow)
  hold_ne : ¬(h1.gridCol = h2.gridCol ∧ h1.gridRow = h2.gridRow)
  hgeom2 : capGeomB
    { cap with
      orientation := cs1.orientation
      half1IsFirst := cs1.half1IsFirst
      gridCol := cs1.gridCol
      gridRow := cs1.gridRow }
    { h1 with
      gridCol := cs1.half1Col
      gridRow := cs1.half1Row }
    { h2 with
      gridCol := cs1.half2Col
      gridRow := cs1.half2Row } = true

/-- A state with one whole vertical capsule: halves id 0 (first, base) at (3,5)
and id 1 at (3,6), registered as capsule 0, with free cells below. -/
def capState2 : GameState :=
  { cells := fun c r =>
      if c = 3 ∧ r = 5 then some 0 else if c = 3 ∧ r = 6 then some 1 else none,
    ents := fun i =>
      if i = 0 then
        some (.half { colorIndex := 0, parentCapsule := some 0, gridCol := 3, gridRow := 5 })
      else if i = 1 then
        some (.half { colorIndex := 1, parentCapsule := some 0, gridCol := 3, gridRow := 6 })
      else none,
    caps := fun k =>
      if k = 0 then
        some { half1 := 0, half2 := 1, orientation := .vertical, half1IsFirst := true,
               gridCol := 3, gridRow := 5 }
      else none }

/- Basic lemmas about the grid primitives. -/

theorem isValid_iff (col row : Int) :
    GameGrid.isValid col row = true ↔
      0 ≤ col ∧ col < FIELD_WIDTH ∧ 0 ≤ row ∧ row < FIELD_HEIGHT := by
  simp [GameGrid.isValid, and_assoc]

theorem get_none_of_invalid (s : GameState) (col row : Int)
    (h : GameGrid.isValid col row = false) : GameGrid.get s col row = none := by
  simp [GameGrid.get, h]

theorem isValid_of_get_some {s : GameState} {col row : Int} {id : Nat}
    (h : GameGrid.get s col row = some id) : GameGrid.isValid col row = true := by
  by_cases hv : GameGrid.isValid col row
  · exact hv
  · simp [GameGrid.get, hv] at h

theorem set_invalid (s : GameState) (col row : Int) (v : Option Nat)
    (h : GameGrid.isValid col row = false) : GameGrid.set s col row v = (false, s) := by
  simp [GameGrid.set, h]

theorem get_set (s : GameState) {col row : Int} (v : Option Nat)
    (h : GameGrid.isValid col row = true) (c r : Int) :
    GameGrid.get (GameGrid.set s col row v).2 c r =
      if c = col ∧ r = row then v else GameGrid.get s c r := by
  by_cases hcr : c = col ∧ r = row
  · obtain ⟨rfl, rfl⟩ := hcr
    cases v <;> simp [GameGrid.set, GameGrid.get, setEntPos, h]
  · cases v <;> simp [GameGrid.set, GameGrid.get, setEntPos, h, hcr]

theorem ents_set_none (s : GameState) (col row : Int) :
    (GameGrid.set s col row none).2.ents = s.ents := by
  by_cases h : GameGrid.isValid col row <;> simp [GameGrid.set, h]

theorem ents_set_some (s : GameState) {col row : Int} (id : Nat)
    (h : GameGrid.isValid col row = true) (i : Nat) :
    (GameGrid.set s col row (some id)).2.ents i =
      if i = id then (s.ents i).map (fun e => entSetPos e col row) else s.ents i := by
  simp [GameGrid.set, setEntPos, h]

theorem caps_set (s : GameState) (col row : Int) (v : Option Nat) :
    (GameGrid.set s col row v).2.caps = s.caps := by
  by_cases h : GameGrid.isValid col row
  · cases v <;> simp [GameGrid.set, setEntPos, h]
  · simp [GameGrid.set, h]

theorem get_remove (s : GameState) (col row : Int) (c r : Int) :
    GameGrid.get (GameGrid.remove s col row).2 c r =
      if c = col ∧ r = row then none else GameGrid.get s c r := by
  rcases hg : GameGrid.get s col row with _ | id
  · by_cases hcr : c = col ∧ r = row
    · obtain ⟨rfl, rfl⟩ := hcr
      simp [GameGrid.remove, hg]
    · simp [GameGrid.remove, hg, hcr]
  · have hv := isValid_of_get_some hg
    simp only [GameGrid.remove, hg]
    exact get_set s none hv c r

theorem ents_remove (s : GameState) (col row : Int) :
    (GameGrid.remove s col row).2.ents = s.ents := by
  rcases hg : GameGrid.get s col row with _ | id
  · simp [GameGrid.remove, hg]
  · simp [GameGrid.remove, hg, ents_set_none]

theorem caps_remove (s : GameState) (col row : Int) :
    (GameGrid.remove s col row).2.caps = s.caps := by
  rcases hg : GameGrid.get s col row with _ | id
  · simp [GameGrid.remove, hg]
  · simp [GameGrid.remove, hg, caps_set]

theorem fst_remove (s : GameState) (col row : Int) :
    (GameGrid.remove s col row).1 = GameGrid.get s col row := by
  rcases hg : GameGrid.get s col row with _ | id <;> simp [GameGrid.remove, hg]

theorem halvesAdjacent_updateHalfPositions (cs : CapsuleState) :
    halvesAdjacent (Capsule.updateHalfPositions cs) = true := by
  cases hf : cs.half1IsFirst <;> cases ho : cs.orientation <;>
    simp [Capsule.updateHalfPositions, halvesAdjacent, hf, ho]

theorem halvesAdjacent_applyAction (a : CapsuleAction) (occ : Int → Int → Bool)
    (cs : CapsuleState) (h : halvesAdjacent cs = true) :
    halvesAdjacent (applyAction a occ cs) = true := by
  cases a
  · by_cases hc : Capsule.canMoveLeft cs occ = true
    · simp [applyAction, Capsule.tryMoveLeft, Capsule.setGridPosition, hc,
        halvesAdjacent_updateHalfPositions]
    · simp only [Bool.not_eq_true] at hc
      simp [applyAction, Capsule.tryMoveLeft, hc, h]
  · by_cases hc : Capsule.canMoveRight cs occ = true
    · simp [applyAction, Capsule.tryMoveRight, Capsule.setGridPosition, hc,
        halvesAdjacent_updateHalfPositions]
    · simp only [Bool.not_eq_true] at hc
      simp [applyAction, Capsule.tryMoveRight, hc, h]
  · by_cases hc : Capsule.canMoveDown cs occ = true
    · simp [applyAction, Capsule.tryMoveDown, Capsule.setGridPosition, hc,
        halvesAdjacent_updateHalfPositions]
    · simp only [Bool.not_eq_true] at hc
      simp [applyAction, Capsule.tryMoveDown, hc, h]
  · cases ho : cs.orientation <;> cases hf : cs.half1IsFirst <;>
      simp only [applyAction, Capsule.rotate, ho, hf] <;>
      split <;>
      (try split) <;>
      simp [h, halvesAdjacent_updateHalfPositions]

/-- C6 counterexample: rotating the vertical capsule cs0v on an empty field
succeeds, but the half that was on top (half1, at the base cell (3,5)) does not
end up at the left cell (3,5) and is not designated first; so the claimed
mirror rule (top half goes left and becomes first) is false on the code. -/
theorem rotate_vertical_counterexample :
    (Capsule.rotate cs0v occAlwaysFree).1 = true ∧
    ¬((Capsule.rotate cs0v occAlwaysFree).2.half1Col = 3 ∧
      (Capsule.rotate cs0v occAlwaysFree).2.half1Row = 5 ∧
      (Capsule.rotate cs0v occAlwaysFree).2.half1IsFirst = true) := by
  decide

/-- C6 (amended): for every vertical capsule with derived half positions on
which rotation succeeds, the half that was on top moves to the right cell
(base column + 1), the half that was on the bottom moves to the base cell and
is designated first, and the orientation becomes horizontal. -/
theorem rotate_vertical_top_goes_right :
    ∀ (cs : CapsuleState) (occ : Int → Int → Bool),
      cs.orientation = .vertical →
      derivedPositions cs = true →
      (Capsule.rotate cs occ).1 = true →
      (Capsule.rotate cs occ).2.orientation = .horizontal ∧
      (cs.half1IsFirst = true →
        (Capsule.rotate cs occ).2.half1Col = cs.gridCol + 1 ∧
        (Capsule.rotate cs occ).2.half1Row = cs.gridRow ∧
        (Capsule.rotate cs occ).2.half2Col = cs.gridCol ∧
        (Capsule.rotate cs occ).2.half2Row = cs.gridRow ∧
        (Capsule.rotate cs occ).2.half1IsFirst = false) ∧
      (cs.half1IsFirst = false →
        (Capsule.rotate cs occ).2.half2Col = cs.gridCol + 1 ∧
        (Capsule.rotate cs occ).2.half2Row = cs.gridRow ∧
        (Capsule.rotate cs occ).2.half1Col = cs.gridCol ∧
        (Capsule.rotate cs occ).2.half1Row = cs.gridRow ∧
        (Capsule.rotate cs occ).2.half1IsFirst = true) := by
  intro cs occ ho _hd hr
  cases hf : cs.half1IsFirst <;>
    simp only [Capsule.rotate, ho, hf] at hr ⊢ <;>
    split at hr <;> (try split at hr) <;>
    simp_all [Capsule.updateHalfPositions]

/-- Witness for the amended C6 theorem at the concrete capsule cs0v. -/
theorem rotate_vertical_top_goes_right_witness :
    (Capsule.rotate cs0v occAlwaysFree).2.orientation = .horizontal ∧
    (cs0v.half1IsFirst = true →
      (Capsule.rotate cs0v occAlwaysFree).2.half1Col = cs0v.gridCol + 1 ∧
      (Capsule.rotate cs0v occAlwaysFree).2.half1Row = cs0v.gridRow ∧
      (Capsule.rotate cs0v occAlwaysFree).2.half2Col = cs0v.gridCol ∧
      (Capsule.rotate cs0v occAlwaysFree).2.half2Row = cs0v.gridRow ∧
      (Capsule.rotate cs0v occAlwaysFree).2.half1IsFirst = false) ∧
    (cs0v.half1IsFirst = false →
      (Capsule.rotate cs0v occAlwaysFree).2.half2Col = cs0v.gridCol + 1 ∧
      (Capsule.rotate cs0v occAlwaysFree).2.half2Row = cs0v.gridRow ∧
      (Capsule.rotate cs0v occAlwaysFree).2.half1Col = cs0v.gridCol ∧
      (Capsule.rotate cs0v occAlwaysFree).2.half1Row = cs0v.gridRow ∧
      (Capsule.rotate cs0v occAlwaysFree).2.half1IsFirst = true) :=
  rotate_vertical_top_goes_right cs0v occAlwaysFree (by decide) (by decide) (by decide)

/-- C7: the two halves of a capsule are always exactly one cell apart in the
direction matching the orientation: at construction, and after every sequence
of try-move and rotation calls from any state satisfying the invariant. -/
theorem capsule_halves_always_adjacent :
    (∀ o : Orientation, halvesAdjacent (mkCapsule o) = true) ∧
    (∀ (l : List (CapsuleAction × (Int → Int → Bool))) (cs : CapsuleState),
      halvesAdjacent cs = true → halvesAdjacent (applyActions l cs) = true) := by
  constructor
  · intro o
    exact halvesAdjacent_updateHalfPositions _
  · intro l
    induction l with
    | nil => intro cs h; exact h
    | cons a t ih =>
      intro cs h
      exact ih _ (halvesAdjacent_applyAction a.1 a.2 cs h)

/-- Witness for C7: a concrete action sequence on a concrete capsule. -/
theorem capsule_halves_always_adjacent_witness :
    halvesAdjacent (applyActions
      [(.rotateCW, occAlwaysFree), (.moveRight, occAlwaysFree), (.moveDown, occAlwaysFree)]
      (mkCapsule .horizontal)) = true :=
  capsule_halves_always_adjacent.2 _ (mkCapsule .horizontal) (by decide)

/-- C8: whenever a lateral or downward move or a rotation returns false, the
capsule state is completely unchanged (orientation, first-half flag, base
position, and both halves' positions). -/
theorem failed_move_or_rotation_is_noop :
    ∀ (cs : CapsuleState) (occ : Int → Int → Bool),
      ((Capsule.tryMoveLeft cs occ).1 = false → (Capsule.tryMoveLeft cs occ).2 = cs) ∧
      ((Capsule.tryMoveRight cs occ).1 = false → (Capsule.tryMoveRight cs occ).2 = cs) ∧
      ((Capsule.tryMoveDown cs occ).1 = false → (Capsule.tryMoveDown cs occ).2 = cs) ∧
      ((Capsule.rotate cs occ).1 = false → (Capsule.rotate cs occ).2 = cs) := by
  intro cs occ
  refine ⟨?_, ?_, ?_, ?_⟩
  · by_cases hc : Capsule.canMoveLeft cs occ = true <;> simp [Capsule.tryMoveLeft, hc]
  · by_cases hc : Capsule.canMoveRight cs occ = true <;> simp [Capsule.tryMoveRight, hc]
  · by_cases hc : Capsule.canMoveDown cs occ = true <;> simp [Capsule.tryMoveDown, hc]
  · cases ho : cs.orientation <;> cases hf : cs.half1IsFirst <;>
      simp only [Capsule.rotate, ho, hf] <;>
      split <;> (try split) <;> simp

/-- Witness for C8: the capsule at the left wall cannot move left and keeps
its state. -/
theorem failed_move_or_rotation_is_noop_witness :
    (Capsule.tryMoveLeft (mkCapsule .horizontal) occAlwaysFree).1 = false ∧
    (Capsule.tryMoveLeft (mkCapsule .horizontal) occAlwaysFree).2 = mkCapsule .horizontal :=
  ⟨by decide, (failed_move_or_rotation_is_noop (mkCapsule .horizontal) occAlwaysFree).1 (by decide)⟩

/-- C9: for every out-of-bounds coordinate pair, grid access is total: get
returns none and set returns false and leaves the state unchanged. -/
theorem out_of_bounds_access_is_total :
    ∀ (s : GameState) (col row : Int) (v : Option Nat),
      GameGrid.isValid col row = false →
      GameGrid.get s col row = none ∧
      (GameGrid.set s col row v).1 = false ∧
      (GameGrid.set s col row v).2 = s := by
  intro s col row v h
  refine ⟨get_none_of_invalid s col row h, ?_, ?_⟩ <;> simp [set_invalid s col row v h]

/-- Witness for C9 at the concrete out-of-bounds coordinate (-1, 0). -/
theorem out_of_bounds_access_is_total_witness :
    GameGrid.get emptyState (-1) 0 = none ∧
    (GameGrid.set emptyState (-1) 0 (some 0)).1 = false ∧
    (GameGrid.set emptyState (-1) 0 (some 0)).2 = emptyState :=
  out_of_bounds_access_is_total emptyState (-1) 0 (some 0) (by decide)

/-- C10: removing an occupied cell returns exactly the piece that was there,
empties that cell, leaves the entity store (and so the piece's stored
coordinates) untouched, and changes no other cell. -/
theorem remove_preserves_piece_coords :
    ∀ (s : GameState) (col row : Int) (id : Nat),
      GameGrid.get s col row = some id →
      (GameGrid.remove s col row).1 = some id ∧
      GameGrid.get (GameGrid.remove s col row).2 col row = none ∧
      (GameGrid.remove s col row).2.ents = s.ents ∧
      (∀ c r : Int, ¬(c = col ∧ r = row) →
        GameGrid.get (GameGrid.remove s col row).2 c r = GameGrid.get s c r) := by
  intro s col row id h
  refine ⟨by rw [fst_remove, h], by simp [get_remove], ents_remove s col row, ?_⟩
  intro c r hne
  simp [get_remove, hne]

/-- Witness for C10 at the concrete occupied cell (2,3) of demoState. -/
theorem remove_preserves_piece_coords_witness :
    (GameGrid.remove demoState 2 3).1 = some 0 ∧
    GameGrid.get (GameGrid.remove demoState 2 3).2 2 3 = none ∧
    (GameGrid.remove demoState 2 3).2.ents = demoState.ents ∧
    (∀ c r : Int, ¬(c = 2 ∧ r = 3) →
      GameGrid.get (GameGrid.remove demoState 2 3).2 c r = GameGrid.get demoState c r) :=
  remove_preserves_piece_coords demoState 2 3 0 (by decide)

theorem mem_cellList (p : Int × Int) :
    p ∈ cellList ↔ 0 ≤ p.1 ∧ p.1 < 8 ∧ 0 ≤ p.2 ∧ p.2 < 16 := by
  obtain ⟨a, b⟩ := p
  simp only [cellList, List.mem_flatMap, List.mem_map, List.mem_range, Prod.mk.injEq]
  constructor
  · rintro ⟨r, hr, c, hc, h2⟩
    simp at hc
    obtain ⟨n, hn, rfl⟩ := hc
    omega
  · rintro ⟨h1, h2, h3, h4⟩
    refine ⟨b.toNat, by omega, a, ?_, by omega, by omega⟩
    simp
    exact ⟨a.toNat, by omega, by omega⟩

theorem isValid_iff_mem_cellList (p : Int × Int) :
    GameGrid.isValid p.1 p.2 = true ↔ p ∈ cellList := by
  rw [mem_cellList, isValid_iff]
  simp [FIELD_WIDTH, FIELD_HEIGHT]

theorem colorAt_none_of_invalid (s : GameState) {col row : Int}
    (h : GameGrid.isValid col row = false) : colorAt s col row = none := by
  simp [colorAt, get_none_of_invalid s col row h]

theorem valid_of_colorAt_some {s : GameState} {col row : Int} {c : Nat}
    (h : colorAt s col row = some c) : GameGrid.isValid col row = true := by
  by_cases hv : GameGrid.isValid col row
  · exact hv
  · rw [colorAt_none_of_invalid s (Bool.not_eq_true _ ▸ hv)] at h
    exact absurd h (by simp)

theorem get_isSome_of_colorAt_some {s : GameState} {col row : Int} {c : Nat}
    (h : colorAt s col row = some c) : ∃ id, GameGrid.get s col row = some id := by
  unfold colorAt at h
  rcases hg : GameGrid.get s col row with _ | id
  · rw [hg] at h; exact absurd h (by simp)
  · exact ⟨id, rfl⟩

theorem mem_addMatched (q : Int × Int) :
    ∀ (line acc : List (Int × Int)), q ∈ addMatched acc line ↔ q ∈ acc ∨ q ∈ line := by
  intro line
  induction line with
  | nil => intro acc; simp [addMatched]
  | cons p t ih =>
    intro acc
    have hstep : addMatched acc (p :: t) = addMatched (if p ∈ acc then acc else acc ++ [p]) t := by
      simp [addMatched]
    rw [hstep, ih]
    by_cases hp : p ∈ acc <;> by_cases hq : q = p <;>
      simp [hp, hq, List.mem_append] <;> tauto

theorem mem_scanCell (s : GameState) (acc : List (Int × Int)) (p q : Int × Int) :
    q ∈ scanCell s acc p ↔ q ∈ acc ∨ hitsFrom s p q := by
  rcases hc : colorAt s p.1 p.2 with _ | tc
  · simp [scanCell, hitsFrom, hc]
  · simp only [scanCell, hc, hitsFrom, Option.some.injEq]
    by_cases h4 : 4 ≤ (getLinearMatch s p.1 p.2 1 0 tc).length <;>
      by_cases v4 : 4 ≤ (getLinearMatch s p.1 p.2 0 1 tc).length <;>
      simp [h4, v4, mem_addMatched] <;>
      tauto

theorem mem_foldl_scanCell (s : GameState) (q : Int × Int) :
    ∀ (l : List (Int × Int)) (acc : List (Int × Int)),
      q ∈ l.foldl (scanCell s) acc ↔ q ∈ acc ∨ ∃ p ∈ l, hitsFrom s p q := by
  intro l
  induction l with
  | nil => intro acc; simp
  | cons p t ih =>
    intro acc
    rw [List.foldl_cons, ih, mem_scanCell]
    simp only [List.exists_mem_cons_iff]
    tauto

theorem mem_findMatches (s : GameState) (q : Int × Int) :
    q ∈ findMatches s ↔ ∃ p ∈ cellList, hitsFrom s p q := by
  rw [findMatches, mem_foldl_scanCell]
  simp

theorem mem_lineH (s : GameState) (tc : Nat) (r : Int) :
    ∀ (fuel : Nat) (c : Int), 8 - c ≤ (fuel : Int) →
      ∀ q : Int × Int,
        (q ∈ getLinearMatchAux s tc 1 0 fuel c r ↔
          q.2 = r ∧ c ≤ q.1 ∧ hSeg s tc r c q.1) := by
  intro fuel
  induction fuel with
  | zero =>
    intro c hc q
    have hcv : GameGrid.isValid c r = false := by
      cases hb : GameGrid.isValid c r
      · rfl
      · rw [isValid_iff] at hb
        simp [FIELD_WIDTH, FIELD_HEIGHT] at hb
        omega
    constructor
    · intro h
      simp [getLinearMatchAux] at h
    · rintro ⟨h1, h2, h3⟩
      have := h3 c le_rfl h2
      rw [colorAt_none_of_invalid s hcv] at this
      exact absurd this (by simp)
  | succ fuel ih =>
    intro c hc q
    by_cases hv : GameGrid.isValid c r = true
    · rcases hcol : colorAt s c r with _ | c0
      · constructor
        · intro h
          simp [getLinearMatchAux, hv, hcol] at h
        · rintro ⟨h1, h2, h3⟩
          have := h3 c le_rfl h2
          rw [hcol] at this
          exact absurd this (by simp)
      · by_cases heq : c0 = tc
        · subst heq
          have hstep : getLinearMatchAux s c0 1 0 (fuel + 1) c r =
              (c, r) :: getLinearMatchAux s c0 1 0 fuel (c + 1) r := by
            simp [getLinearMatchAux, hv, hcol]
          rw [hstep, List.mem_cons, ih (c + 1) (by omega) q]
          constructor
          · rintro (rfl | ⟨h1, h2, h3⟩)
            · exact ⟨rfl, le_rfl, fun i hi1 hi2 => by
                have : i = c := le_antisymm hi2 hi1
                rw [this]; exact hcol⟩
            · refine ⟨h1, by omega, fun i hi1 hi2 => ?_⟩
              rcases eq_or_lt_of_le hi1 with rfl | hlt
              · exact hcol
              · exact h3 i (by omega) hi2
          · rintro ⟨h1, h2, h3⟩
            rcases eq_or_lt_of_le h2 with heqc | hlt
            · left
              obtain ⟨x, y⟩ := q
              simp only [Prod.mk.injEq]
              constructor
              · omega
              · exact h1
            · right
              exact ⟨h1, by omega, fun i hi1 hi2 => h3 i (by omega) hi2⟩
        · constructor
          · intro h
            simp [getLinearMatchAux, hv, hcol, heq] at h
          · rintro ⟨h1, h2, h3⟩
            have := h3 c le_rfl h2
            rw [hcol] at this
            exact absurd (Option.some.inj this) heq
    · have hcv : GameGrid.isValid c r = false := by
        cases hb : GameGrid.isValid c r
        · rfl
        · exact absurd hb hv
      constructor
      · intro h
        simp [getLinearMatchAux, hcv] at h
      · rintro ⟨h1, h2, h3⟩
        have := h3 c le_rfl h2
        rw [colorAt_none_of_invalid s hcv] at this
        exact absurd this (by simp)

theorem length_lineH (s : GameState) (tc : Nat) (r : Int) :
    ∀ (fuel : Nat) (c : Int), 8 - c ≤ (fuel : Int) →
      ∀ n : Nat, (n ≤ (getLinearMatchAux s tc 1 0 fuel c r).length ↔
        hSeg s tc r c (c + (n : Int) - 1)) := by
  intro fuel
  induction fuel with
  | zero =>
    intro c hc n
    have hcv : GameGrid.isValid c r = false := by
      cases hb : GameGrid.isValid c r
      · rfl
      · rw [isValid_iff] at hb
        simp [FIELD_WIDTH, FIELD_HEIGHT] at hb
        omega
    cases n with
    | zero =>
      simp [getLinearMatchAux]
      intro i hi1 hi2
      omega
    | succ m =>
      simp only [getLinearMatchAux, List.length_nil]
      constructor
      · intro h
        exact absurd h (by omega)
      · intro h3
        have := h3 c le_rfl (by push_cast; omega)
        rw [colorAt_none_of_invalid s hcv] at this
        exact absurd this (by simp)
  | succ fuel ih =>
    intro c hc n
    by_cases hv : GameGrid.isValid c r = true
    · rcases hcol : colorAt s c r with _ | c0
      · cases n with
        | zero =>
          simp [getLinearMatchAux, hv, hcol]
          intro i hi1 hi2
          omega
        | succ m =>
          constructor
          · intro h
            simp [getLinearMatchAux, hv, hcol] at h
          · intro h3
            have := h3 c le_rfl (by push_cast; omega)
            rw [hcol] at this
            exact absurd this (by simp)
      · by_cases heq : c0 = tc
        · subst heq
          have hstep : getLinearMatchAux s c0 1 0 (fuel + 1) c r =
              (c, r) :: getLinearMatchAux s c0 1 0 fuel (c + 1) r := by
            simp [getLinearMatchAux, hv, hcol]
          rw [hstep]
          cases n with
          | zero =>
            simp
            intro i hi1 hi2
            omega
          | succ m =>
            have hcast : c + ((m + 1 : Nat) : Int) - 1 = (c + 1) + (m : Int) - 1 := by
              push_cast; ring
            rw [List.length_cons, Nat.succ_le_succ_iff, ih (c + 1) (by omega) m, hcast]
            constructor
            · intro h3
              intro i hi1 hi2
              rcases eq_or_lt_of_le hi1 with rfl | hlt
              · exact hcol
              · exact h3 i (by omega) hi2
            · intro h3
              intro i hi1 hi2
              exact h3 i (by omega) hi2
        · cases n with
          | zero =>
            simp [getLinearMatchAux, hv, hcol, heq]
            intro i hi1 hi2
            omega
          | succ m =>
            constructor
            · intro h
              simp [getLinearMatchAux, hv, hcol, heq] at h
            · intro h3
              have := h3 c le_rfl (by push_cast; omega)
              rw [hcol] at this
              exact absurd (Option.some.inj this) heq
    · have hcv : GameGrid.isValid c r = false := by
        cases hb : GameGrid.isValid c r
        · rfl
        · exact absurd hb hv
      cases n with
      | zero =>
        simp [getLinearMatchAux, hcv]
        intro i hi1 hi2
        omega
      | succ m =>
        constructor
        · intro h
          simp [getLinearMatchAux, hcv] at h
        · intro h3
          have := h3 c le_rfl (by push_cast; omega)
          rw [colorAt_none_of_invalid s hcv] at this
          exact absurd this (by simp)

theorem mem_lineV (s : GameState) (tc : Nat) (c : Int) :
    ∀ (fuel : Nat) (r : Int), 16 - r ≤ (fuel : Int) →
      ∀ q : Int × Int,
        (q ∈ getLinearMatchAux s tc 0 1 fuel c r ↔
          q.1 = c ∧ r ≤ q.2 ∧ vSeg s tc c r q.2) := by
  intro fuel
  induction fuel with
  | zero =>
    intro r hr q
    have hcv : GameGrid.isValid c r = false := by
      cases hb : GameGrid.isValid c r
      · rfl
      · rw [isValid_iff] at hb
        simp [FIELD_WIDTH, FIELD_HEIGHT] at hb
        omega
    constructor
    · intro h
      simp [getLinearMatchAux] at h
    · rintro ⟨h1, h2, h3⟩
      have := h3 r le_rfl h2
      rw [colorAt_none_of_invalid s hcv] at this
      exact absurd this (by simp)
  | succ fuel ih =>
    intro r hr q
    by_cases hv : GameGrid.isValid c r = true
    · rcases hcol : colorAt s c r with _ | c0
      · constructor
        · intro h
          simp [getLinearMatchAux, hv, hcol] at h
        · rintro ⟨h1, h2, h3⟩
          have := h3 r le_rfl h2
          rw [hcol] at this
          exact absurd this (by simp)
      · by_cases heq : c0 = tc
        · subst heq
          have hstep : getLinearMatchAux s c0 0 1 (fuel + 1) c r =
              (c, r) :: getLinearMatchAux s c0 0 1 fuel c (r + 1) := by
            simp [getLinearMatchAux, hv, hcol]
          rw [hstep, List.mem_cons, ih (r + 1) (by omega) q]
          constructor
          · rintro (rfl | ⟨h1, h2, h3⟩)
            · exact ⟨rfl, le_rfl, fun i hi1 hi2 => by
                have : i = r := le_antisymm hi2 hi1
                rw [this]; exact hcol⟩
            · refine ⟨h1, by omega, fun i hi1 hi2 => ?_⟩
              rcases eq_or_lt_of_le hi1 with rfl | hlt
              · exact hcol
              · exact h3 i (by omega) hi2
          · rintro ⟨h1, h2, h3⟩
            rcases eq_or_lt_of_le h2 with heqc | hlt
            · left
              obtain ⟨x, y⟩ := q
              simp only [Prod.mk.injEq]
              constructor
              · exact h1
              · omega
            · right
              exact ⟨h1, by omega, fun i hi1 hi2 => h3 i (by omega) hi2⟩
        · constructor
          · intro h
            simp [getLinearMatchAux, hv, hcol, heq] at h
          · rintro ⟨h1, h2, h3⟩
            have := h3 r le_rfl h2
            rw [hcol] at this
            exact absurd (Option.some.inj this) heq
    · have hcv : GameGrid.isValid c r = false := by
        cases hb : GameGrid.isValid c r
        · rfl
        · exact absurd hb hv
      constructor
      · intro h
        simp [getLinearMatchAux, hcv] at h
      · rintro ⟨h1, h2, h3⟩
        have := h3 r le_rfl h2
        rw [colorAt_none_of_invalid s hcv] at this
        exact absurd this (by simp)

theorem length_lineV (s : GameState) (tc : Nat) (c : Int) :
    ∀ (fuel : Nat) (r : Int), 16 - r ≤ (fuel : Int) →
      ∀ n : Nat, (n ≤ (getLinearMatchAux s tc 0 1 fuel c r).length ↔
        vSeg s tc c r (r + (n : Int) - 1)) := by
  intro fuel
  induction fuel with
  | zero =>
    intro r hr n
    have hcv : GameGrid.isValid c r = false := by
      cases hb : GameGrid.isValid c r
      · rfl
      · rw [isValid_iff] at hb
        simp [FIELD_WIDTH, FIELD_HEIGHT] at hb
        omega
    cases n with
    | zero =>
      simp [getLinearMatchAux]
      intro i hi1 hi2
      omega
    | succ m =>
      simp only [getLinearMatchAux, List.length_nil]
      constructor
      · intro h
        exact absurd h (by omega)
      · intro h3
        have := h3 r le_rfl (by push_cast; omega)
        rw [colorAt_none_of_invalid s hcv] at this
        exact absurd this (by simp)
  | succ fuel ih =>
    intro r hr n
    by_cases hv : GameGrid.isValid c r = true
    · rcases hcol : colorAt s c r with _ | c0
      · cases n with
        | zero =>
          simp [getLinearMatchAux, hv, hcol]
          intro i hi1 hi2
          omega
        | succ m =>
          constructor
          · intro h
            simp [getLinearMatchAux, hv, hcol] at h
          · intro h3
            have := h3 r le_rfl (by push_cast; omega)
            rw [hcol] at this
            exact absurd this (by simp)
      · by_cases heq : c0 = tc
        · subst heq
          have hstep : getLinearMatchAux s c0 0 1 (fuel + 1) c r =
              (c, r) :: getLinearMatchAux s c0 0 1 fuel c (r + 1) := by
            simp [getLinearMatchAux, hv, hcol]
          rw [hstep]
          cases n with
          | zero =>
            simp
            intro i hi1 hi2
            omega
          | succ m =>
            have hcast : r + ((m + 1 : Nat) : Int) - 1 = (r + 1) + (m : Int) - 1 := by
              push_cast; ring
            rw [List.length_cons, Nat.succ_le_succ_iff, ih (r + 1) (by omega) m, hcast]
            constructor
            · intro h3
              intro i hi1 hi2
              rcases eq_or_lt_of_le hi1 with rfl | hlt
              · exact hcol
              · exact h3 i (by omega) hi2
            · intro h3
              intro i hi1 hi2
              exact h3 i (by omega) hi2
        · cases n with
          | zero =>
            simp [getLinearMatchAux, hv, hcol, heq]
            intro i hi1 hi2
            omega
          | succ m =>
            constructor
            · intro h
              simp [getLinearMatchAux, hv, hcol, heq] at h
            · intro h3
              have := h3 r le_rfl (by push_cast; omega)
              rw [hcol] at this
              exact absurd (Option.some.inj this) heq
    · have hcv : GameGrid.isValid c r = false := by
        cases hb : GameGrid.isValid c r
        · rfl
        · exact absurd hb hv
      cases n with
      | zero =>
        simp [getLinearMatchAux, hcv]
        intro i hi1 hi2
        omega
      | succ m =>
        constructor
        · intro h
          simp [getLinearMatchAux, hcv] at h
        · intro h3
          have := h3 r le_rfl (by push_cast; omega)
          rw [colorAt_none_of_invalid s hcv] at this
          exact absurd this (by simp)

theorem hits_of_hSeg {s : GameState} {col : Nat} {a r : Int} {q : Int × Int}
    (hwin : ∀ i : Int, 0 ≤ i → i ≤ 3 → colorAt s (a + i) r = some col)
    (hq2 : q.2 = r) (hqa : a ≤ q.1) (hq3 : q.1 ≤ a + 3) :
    hitsFrom s (a, r) q := by
  have haq : colorAt s a r = some col := by simpa using hwin 0 le_rfl (by norm_num)
  have hav : GameGrid.isValid a r = true := valid_of_colorAt_some haq
  have hab := (isValid_iff a r).1 hav
  simp only [FIELD_WIDTH, FIELD_HEIGHT] at hab
  have hfuel : (8 : Int) - a ≤ ((24 : Nat) : Int) := by omega
  refine ⟨col, haq, Or.inl ⟨?_, ?_⟩⟩
  · apply (length_lineH s col r 24 a hfuel 4).2
    have hc4 : a + ((4 : Nat) : Int) - 1 = a + 3 := by push_cast; ring
    rw [hc4]
    intro i hi1 hi2
    have hw := hwin (i - a) (by omega) (by omega)
    have hca : a + (i - a) = i := by ring
    rwa [hca] at hw
  · apply (mem_lineH s col r 24 a hfuel q).2
    refine ⟨hq2, hqa, ?_⟩
    intro i hi1 hi2
    have hw := hwin (i - a) (by omega) (by omega)
    have hca : a + (i - a) = i := by ring
    rwa [hca] at hw

theorem hits_of_vSeg {s : GameState} {col : Nat} {a c : Int} {q : Int × Int}
    (hwin : ∀ i : Int, 0 ≤ i → i ≤ 3 → colorAt s c (a + i) = some col)
    (hq1 : q.1 = c) (hqa : a ≤ q.2) (hq3 : q.2 ≤ a + 3) :
    hitsFrom s (c, a) q := by
  have haq : colorAt s c a = some col := by simpa using hwin 0 le_rfl (by norm_num)
  have hav : GameGrid.isValid c a = true := valid_of_colorAt_some haq
  have hab := (isValid_iff c a).1 hav
  simp only [FIELD_WIDTH, FIELD_HEIGHT] at hab
  have hfuel : (16 : Int) - a ≤ ((24 : Nat) : Int) := by omega
  refine ⟨col, haq, Or.inr ⟨?_, ?_⟩⟩
  · apply (length_lineV s col c 24 a hfuel 4).2
    have hc4 : a + ((4 : Nat) : Int) - 1 = a + 3 := by push_cast; ring
    rw [hc4]
    intro i hi1 hi2
    have hw := hwin (i - a) (by omega) (by omega)
    have hca : a + (i - a) = i := by ring
    rwa [hca] at hw
  · apply (mem_lineV s col c 24 a hfuel q).2
    refine ⟨hq1, hqa, ?_⟩
    intro i hi1 hi2
    have hw := hwin (i - a) (by omega) (by omega)
    have hca : a + (i - a) = i := by ring
    rwa [hca] at hw

theorem findMatches_iff_onStraightRun (s : GameState) (q : Int × Int) :
    q ∈ findMatches s ↔ onStraightRun s q.1 q.2 = true := by
  rw [mem_findMatches]
  constructor
  · rintro ⟨p, hp, tc, hcol, hcase⟩
    have hpb := (mem_cellList p).1 hp
    rcases hcase with ⟨hlen, hq⟩ | ⟨hlen, hq⟩
    · have hfuel : (8 : Int) - p.1 ≤ ((24 : Nat) : Int) := by omega
      have hq' := (mem_lineH s tc p.2 24 p.1 hfuel q).1 hq
      obtain ⟨hq2, hle, hseg⟩ := hq'
      have hseg4 : hSeg s tc p.2 p.1 (p.1 + 3) := by
        have h4 := (length_lineH s tc p.2 24 p.1 hfuel 4).1 hlen
        have hc4 : p.1 + ((4 : Nat) : Int) - 1 = p.1 + 3 := by push_cast; ring
        rwa [hc4] at h4
      have hqcol : colorAt s q.1 q.2 = some tc := by
        rw [hq2]
        exact hseg q.1 hle le_rfl
      simp only [onStraightRun, hqcol, Bool.or_eq_true]
      left
      rw [List.any_eq_true]
      by_cases hnear : q.1 ≤ p.1 + 3
      · refine ⟨(q.1 - p.1).toNat, by rw [List.mem_range]; omega, ?_⟩
        rw [List.all_eq_true]
        intro i hi
        rw [List.mem_range] at hi
        rw [decide_eq_true_iff]
        have hcell : q.1 - ((q.1 - p.1).toNat : Int) + (i : Int) = p.1 + i := by omega
        rw [hcell, hq2]
        exact hseg4 (p.1 + i) (by omega) (by omega)
      · refine ⟨3, by simp, ?_⟩
        rw [List.all_eq_true]
        intro i hi
        rw [List.mem_range] at hi
        rw [decide_eq_true_iff]
        have hcell : q.1 - ((3 : Nat) : Int) + (i : Int) = q.1 - 3 + i := by push_cast; ring
        rw [hcell, hq2]
        exact hseg (q.1 - 3 + i) (by omega) (by omega)
    · have hfuel : (16 : Int) - p.2 ≤ ((24 : Nat) : Int) := by omega
      have hq' := (mem_lineV s tc p.1 24 p.2 hfuel q).1 hq
      obtain ⟨hq1, hle, hseg⟩ := hq'
      have hseg4 : vSeg s tc p.1 p.2 (p.2 + 3) := by
        have h4 := (length_lineV s tc p.1 24 p.2 hfuel 4).1 hlen
        have hc4 : p.2 + ((4 : Nat) : Int) - 1 = p.2 + 3 := by push_cast; ring
        rwa [hc4] at h4
      have hqcol : colorAt s q.1 q.2 = some tc := by
        rw [hq1]
        exact hseg q.2 hle le_rfl
      simp only [onStraightRun, hqcol, Bool.or_eq_true]
      right
      rw [List.any_eq_true]
      by_cases hnear : q.2 ≤ p.2 + 3
      · refine ⟨(q.2 - p.2).toNat, by rw [List.mem_range]; omega, ?_⟩
        rw [List.all_eq_true]
        intro i hi
        rw [List.mem_range] at hi
        rw [decide_eq_true_iff]
        have hcell : q.2 - ((q.2 - p.2).toNat : Int) + (i : Int) = p.2 + i := by omega
        rw [hcell, hq1]
        exact hseg4 (p.2 + i) (by omega) (by omega)
      · refine ⟨3, by simp, ?_⟩
        rw [List.all_eq_true]
        intro i hi
        rw [List.mem_range] at hi
        rw [decide_eq_true_iff]
        have hcell : q.2 - ((3 : Nat) : Int) + (i : Int) = q.2 - 3 + i := by push_cast; ring
        rw [hcell, hq1]
        exact hseg (q.2 - 3 + i) (by omega) (by omega)
  · intro hrun
    rcases hqcol : colorAt s q.1 q.2 with _ | col
    · simp only [onStraightRun, hqcol] at hrun
      exact absurd hrun (by simp)
    simp only [onStraightRun, hqcol, Bool.or_eq_true] at hrun
    rcases hrun with hH | hV
    · rw [List.any_eq_true] at hH
      obtain ⟨j, hj, hall⟩ := hH
      rw [List.mem_range] at hj
      rw [List.all_eq_true] at hall
      have hwin : ∀ i : Int, 0 ≤ i → i ≤ 3 →
          colorAt s (q.1 - (j : Int) + i) q.2 = some col := by
        intro i h0 h3
        have hi := hall i.toNat (by rw [List.mem_range]; omega)
        rw [decide_eq_true_iff] at hi
        have hcast : q.1 - (j : Int) + ((i.toNat : Nat) : Int) = q.1 - (j : Int) + i := by
          omega
        rwa [hcast] at hi
      have hhits : hitsFrom s (q.1 - (j : Int), q.2) q :=
        hits_of_hSeg hwin rfl (by omega) (by omega)
      have haq : colorAt s (q.1 - (j : Int)) q.2 = some col := by
        simpa using hwin 0 le_rfl (by norm_num)
      refine ⟨(q.1 - (j : Int), q.2), ?_, hhits⟩
      rw [mem_cellList]
      have hav := (isValid_iff _ _).1 (valid_of_colorAt_some haq)
      simp only [FIELD_WIDTH, FIELD_HEIGHT] at hav
      exact ⟨hav.1, hav.2.1, hav.2.2.1, hav.2.2.2⟩
    · rw [List.any_eq_true] at hV
      obtain ⟨j, hj, hall⟩ := hV
      rw [List.mem_range] at hj
      rw [List.all_eq_true] at hall
      have hwin : ∀ i : Int, 0 ≤ i → i ≤ 3 →
          colorAt s q.1 (q.2 - (j : Int) + i) = some col := by
        intro i h0 h3
        have hi := hall i.toNat (by rw [List.mem_range]; omega)
        rw [decide_eq_true_iff] at hi
        have hcast : q.2 - (j : Int) + ((i.toNat : Nat) : Int) = q.2 - (j : Int) + i := by
          omega
        rwa [hcast] at hi
      have hhits : hitsFrom s (q.1, q.2 - (j : Int)) q :=
        hits_of_vSeg hwin rfl (by omega) (by omega)
      have haq : colorAt s q.1 (q.2 - (j : Int)) = some col := by
        simpa using hwin 0 le_rfl (by norm_num)
      refine ⟨(q.1, q.2 - (j : Int)), ?_, hhits⟩
      rw [mem_cellList]
      have hav := (isValid_iff _ _).1 (valid_of_colorAt_some haq)
      simp only [FIELD_WIDTH, FIELD_HEIGHT] at hav
      exact ⟨hav.1, hav.2.1, hav.2.2.1, hav.2.2.2⟩

/-- C1: for every grid configuration, match detection marks exactly the cells
that lie on some straight horizontal or vertical run of four or more
same-colored pieces; concretely, a horizontal run of exactly 4 is marked
entirely and nothing else, while a run of 3 and an L-shaped cluster with no
straight run of length 4 mark nothing. -/
theorem findMatches_marks_exactly_straight_runs :
    (∀ (s : GameState) (q : Int × Int),
      q ∈ findMatches s ↔ onStraightRun s q.1 q.2 = true) ∧
    findMatches (pathState [(2, 15), (3, 15), (4, 15), (5, 15)]) =
      [(2, 15), (3, 15), (4, 15), (5, 15)] ∧
    findMatches (pathState [(2, 15), (3, 15), (4, 15)]) = [] ∧
    findMatches (pathState [(2, 15), (3, 15), (4, 15), (4, 14)]) = [] :=
  ⟨findMatches_iff_onStraightRun, by decide, by decide, by decide⟩

theorem capOK_iff (s : GameState) (k id : Nat) :
    capOK s k id = true ↔
      ∃ cap h1 h2, (id = cap.half1 ∨ id = cap.half2) ∧ CapFacts s k cap h1 h2 := by
  constructor
  · intro h
    rcases hc : s.caps k with _ | cap
    · simp [capOK, hc] at h
    rcases he1 : s.ents cap.half1 with _ | e1 <;>
      rcases he2 : s.ents cap.half2 with _ | e2
    · simp [capOK, hc, he1, he2] at h
    · simp [capOK, hc, he1, he2] at h
    · cases e1 <;> simp [capOK, hc, he1, he2] at h
    · cases e1 with
      | pathogen pe => cases e2 <;> simp [capOK, hc, he1, he2] at h
      | half h1 =>
        cases e2 with
        | pathogen pe => simp [capOK, hc, he1, he2] at h
        | half h2 =>
          simp only [capOK, hc, he1, he2, Bool.and_eq_true, Bool.or_eq_true,
            decide_eq_true_iff] at h
          obtain ⟨⟨hid, hne⟩, ⟨⟨⟨hp1, hp2⟩, hg1⟩, hg2⟩, hgeom⟩ := h
          exact ⟨cap, h1, h2, hid, ⟨hc, hne, he1, he2, hp1, hp2, hg1, hg2, hgeom⟩⟩
  · rintro ⟨cap, h1, h2, hid, hf⟩
    simp only [capOK, hf.caps_eq, hf.ents1, hf.ents2, Bool.and_eq_true, Bool.or_eq_true,
      decide_eq_true_iff]
    exact ⟨⟨hid, hf.hne⟩, ⟨⟨⟨hf.par1, hf.par2⟩, hf.grid1⟩, hf.grid2⟩, hf.geom⟩

theorem cellOK_iff (s : GameState) (p : Int × Int) :
    cellOK s p = true ↔
      ∀ id, GameGrid.get s p.1 p.2 = some id →
        ∃ e, s.ents id = some e ∧ e.gridCol = p.1 ∧ e.gridRow = p.2 ∧
          (∀ hh k, e = Entity.half hh → hh.parentCapsule = some k → capOK s k id = true) := by
  rcases hg : GameGrid.get s p.1 p.2 with _ | id
  · simp [cellOK, hg]
  · constructor
    · intro h id2 hid2
      have hid : id2 = id := (Option.some.inj hid2).symm
      subst hid
      rcases he : s.ents id2 with _ | e
      · simp [cellOK, hg, he] at h
      cases e with
      | pathogen pe =>
        simp only [cellOK, hg, he, Bool.and_eq_true, decide_eq_true_iff] at h
        exact ⟨.pathogen pe, rfl, h.1, h.2, by intro hh k hcontra _; cases hcontra⟩
      | half hh =>
        rcases hp : hh.parentCapsule with _ | k
        · simp only [cellOK, hg, he, hp, Bool.and_eq_true, decide_eq_true_iff, and_true] at h
          refine ⟨.half hh, rfl, h.1, h.2, ?_⟩
          rintro hh2 k2 heq hp2
          cases heq
          rw [hp] at hp2
          cases hp2
        · simp only [cellOK, hg, he, hp, Bool.and_eq_true, decide_eq_true_iff] at h
          refine ⟨.half hh, rfl, h.1.1, h.1.2, ?_⟩
          rintro hh2 k2 heq hp2
          cases heq
          rw [hp] at hp2
          rw [← Option.some.inj hp2]
          exact h.2
    · intro h
      obtain ⟨e, he, hc, hr, hcap⟩ := h id rfl
      cases e with
      | pathogen pe =>
        simp only [cellOK, hg, he, Bool.and_eq_true, decide_eq_true_iff]
        exact ⟨hc, hr⟩
      | half hh =>
        rcases hp : hh.parentCapsule with _ | k
        · simp only [cellOK, hg, he, hp, Bool.and_eq_true, decide_eq_true_iff, and_true]
          exact ⟨hc, hr⟩
        · simp only [cellOK, hg, he, hp, Bool.and_eq_true, decide_eq_true_iff]
          exact ⟨⟨hc, hr⟩, hcap hh k rfl hp⟩

theorem WF_iff (s : GameState) :
    WF s = true ↔
      ∀ (c r : Int) (id : Nat), GameGrid.get s c r = some id →
        ∃ e, s.ents id = some e ∧ e.gridCol = c ∧ e.gridRow = r ∧
          (∀ hh k, e = Entity.half hh → hh.parentCapsule = some k → capOK s k id = true) := by
  unfold WF
  rw [List.all_eq_true]
  constructor
  · intro h c r id hg
    have hv := isValid_of_get_some hg
    have hmem := (isValid_iff_mem_cellList (c, r)).1 hv
    exact (cellOK_iff s (c, r)).1 (h (c, r) hmem) id hg
  · intro h p _
    rw [cellOK_iff]
    intro id hg
    exact h p.1 p.2 id hg

theorem WF_unique {s : GameState} (hWF : WF s = true) {c r c2 r2 : Int} {id : Nat}
    (h1 : GameGrid.get s c r = some id) (h2 : GameGrid.get s c2 r2 = some id) :
    c = c2 ∧ r = r2 := by
  obtain ⟨e, he, hc, hr, _⟩ := (WF_iff s).1 hWF c r id h1
  obtain ⟨e2, he2, hc2, hr2, _⟩ := (WF_iff s).1 hWF c2 r2 id h2
  rw [he] at he2
  cases Option.some.inj he2
  exact ⟨hc ▸ hc2 ▸ rfl, hr ▸ hr2 ▸ rfl⟩

/- Counting lemmas. -/

theorem cellList_nodup : cellList.Nodup := by decide

theorem countP_congr_mem {α : Type} (l : List α) (f g : α → Bool)
    (h : ∀ a ∈ l, f a = g a) : l.countP f = l.countP g := by
  induction l with
  | nil => simp
  | cons x t ih =>
    rw [List.countP_cons, List.countP_cons, h x (by simp),
      ih (fun a ha => h a (by simp [ha]))]

theorem countP_update_false {α : Type} [DecidableEq α] :
    ∀ (l : List α) (f g : α → Bool) (a : α), l.Nodup → a ∈ l →
      f a = true → g a = false → (∀ b ∈ l, b ≠ a → f b = g b) →
      l.countP g + 1 = l.countP f := by
  intro l
  induction l with
  | nil => intro f g a _ ha; cases ha
  | cons x t ih =>
    intro f g a hnd ha hfa hga hother
    rw [List.countP_cons, List.countP_cons]
    rcases List.mem_cons.1 ha with rfl | hat
    · rw [hfa, hga]
      have hrest : t.countP g = t.countP f := by
        apply countP_congr_mem
        intro b hb
        have : b ≠ a := by
          intro heq
          subst heq
          exact (List.nodup_cons.1 hnd).1 hb
        exact (hother b (by simp [hb]) this).symm
      simp [hrest]
    · have hx : x ≠ a := by
        intro heq
        subst heq
        exact (List.nodup_cons.1 hnd).1 hat
      rw [hother x (by simp) hx]
      have := ih f g a (List.nodup_cons.1 hnd).2 hat hfa hga
        (fun b hb hne => hother b (by simp [hb]) hne)
      omega

theorem countP_update_le {α : Type} [DecidableEq α] :
    ∀ (l : List α) (f g : α → Bool) (a : α), l.Nodup →
      (∀ b ∈ l, b ≠ a → f b = g b) →
      l.countP g ≤ l.countP f + 1 := by
  intro l
  induction l with
  | nil => intro f g a _ _; simp
  | cons x t ih =>
    intro f g a hnd hother
    rw [List.countP_cons, List.countP_cons]
    by_cases hx : x = a
    · subst hx
      have hrest : t.countP g = t.countP f := by
        apply countP_congr_mem
        intro b hb
        have : b ≠ x := by
          intro heq
          subst heq
          exact (List.nodup_cons.1 hnd).1 hb
        exact (hother b (by simp [hb]) this).symm
      cases hgx : g x <;> cases hfx : f x <;> simp [hgx, hfx, hrest] <;> omega
    · rw [hother x (by simp) hx]
      have := ih f g a (List.nodup_cons.1 hnd).2
        (fun b hb hne => hother b (by simp [hb]) hne)
      omega

theorem pieceCount_remove_succ {s : GameState} {c r : Int} {id : Nat}
    (h : GameGrid.get s c r = some id) :
    pieceCount (GameGrid.remove s c r).2 + 1 = pieceCount s := by
  have hv := isValid_of_get_some h
  apply countP_update_false cellList _ _ (c, r) cellList_nodup
    ((isValid_iff_mem_cellList (c, r)).1 hv)
  · simp [h]
  · simp [get_remove]
  · intro b hb hne
    have : ¬(b.1 = c ∧ b.2 = r) := by
      intro ⟨hb1, hb2⟩
      exact hne (Prod.ext hb1 hb2)
    simp [get_remove, this]

theorem pieceCount_remove_le (s : GameState) (c r : Int) :
    pieceCount (GameGrid.remove s c r).2 ≤ pieceCount s := by
  apply List.countP_mono_left
  intro b _ hb
  rw [get_remove] at hb
  revert hb
  split
  · simp
  · exact fun h => h

theorem pieceCount_set_le (s : GameState) (c r : Int) (v : Option Nat) :
    pieceCount (GameGrid.set s c r v).2 ≤ pieceCount s + 1 := by
  by_cases hv : GameGrid.isValid c r = true
  · apply countP_update_le cellList _ _ (c, r) cellList_nodup
    intro b _ hne
    have : ¬(b.1 = c ∧ b.2 = r) := by
      intro ⟨hb1, hb2⟩
      exact hne (Prod.ext hb1 hb2)
    simp [get_set s v hv, this]
  · have : GameGrid.isValid c r = false := by
      cases hb : GameGrid.isValid c r
      · rfl
      · exact absurd hb hv
    rw [set_invalid s c r v this]
    exact Nat.le_succ _

/-- Cells are unchanged by setEntPos. -/
theorem get_setEntPos (s : GameState) (id : Nat) (col row : Int) (c r : Int) :
    GameGrid.get (setEntPos s id col row) c r = GameGrid.get s c r := by
  simp [setEntPos, GameGrid.get]

/-- Cells are unchanged by writeBackCapsule. -/
theorem get_writeBackCapsule (s : GameState) (k : Nat) (cap : CapsuleEnt)
    (cs : CapsuleState) (c r : Int) :
    GameGrid.get (writeBackCapsule s k cap cs) c r = GameGrid.get s c r := by
  simp [writeBackCapsule, setEntPos, GameGrid.get]

theorem pieceCount_writeBackCapsule (s : GameState) (k : Nat) (cap : CapsuleEnt)
    (cs : CapsuleState) :
    pieceCount (writeBackCapsule s k cap cs) = pieceCount s := by
  apply countP_congr_mem
  intro a _
  rw [get_writeBackCapsule]

/- Lemmas about capsule separation. -/

theorem cells_setParentNone (t : GameState) (id : Nat) (c r : Int) :
    GameGrid.get (setParentNone t id) c r = GameGrid.get t c r := by
  simp [setParentNone, GameGrid.get]

theorem caps_setParentNone (t : GameState) (id : Nat) :
    (setParentNone t id).caps = t.caps := by
  simp [setParentNone]

theorem ents_setParentNone_other (t : GameState) (id j : Nat) (h : j ≠ id) :
    (setParentNone t id).ents j = t.ents j := by
  simp [setParentNone, h]

theorem ents_setParentNone (t : GameState) (id j : Nat) :
    (setParentNone t id).ents j = t.ents j ∨
      ∃ hh, t.ents j = some (.half hh) ∧
        (setParentNone t id).ents j = some (.half { hh with parentCapsule := none }) := by
  by_cases h : j = id
  · subst h
    rcases he : t.ents j with _ | e
    · left; simp [setParentNone, he]
    · cases e with
      | pathogen pe => left; simp [setParentNone, he]
      | half hh => right; exact ⟨hh, rfl, by simp [setParentNone, he]⟩
  · left; exact ents_setParentNone_other t id j h

theorem ents_setParentNone_self_half (t : GameState) (id : Nat) (hh : HalfEnt)
    (he : t.ents id = some (.half hh)) :
    (setParentNone t id).ents id = some (.half { hh with parentCapsule := none }) := by
  simp [setParentNone, he]

theorem get_separateCapsule (t : GameState) (k : Nat) (c r : Int) :
    GameGrid.get (separateCapsule t k) c r = GameGrid.get t c r := by
  rcases hc : t.caps k with _ | cap
  · simp [separateCapsule, hc]
  · simp [separateCapsule, hc, GameGrid.get, setParentNone]

theorem caps_separateCapsule (t : GameState) (k k2 : Nat) :
    (separateCapsule t k).caps k2 = if k2 = k then none else t.caps k2 := by
  rcases hc : t.caps k with _ | cap
  · by_cases h : k2 = k
    · subst h; simp [separateCapsule, hc]
    · simp [separateCapsule, hc, h]
  · by_cases h : k2 = k
    · subst h; simp [separateCapsule, hc]
    · simp [separateCapsule, hc, h, setParentNone]

theorem ents_setParentNone_self (t : GameState) (id : Nat) :
    (setParentNone t id).ents id =
      match t.ents id with
      | some (Entity.half h) => some (Entity.half { h with parentCapsule := none })
      | e => e := by
  simp [setParentNone]

theorem ents_separateCapsule (t : GameState) (k j : Nat) :
    (separateCapsule t k).ents j = t.ents j ∨
      ((∃ cap, t.caps k = some cap ∧ (j = cap.half1 ∨ j = cap.half2)) ∧
        ∃ hh, t.ents j = some (.half hh) ∧
          (separateCapsule t k).ents j = some (.half { hh with parentCapsule := none })) := by
  rcases hc : t.caps k with _ | cap
  · left; simp [separateCapsule, hc]
  have hstep : ∀ i, (separateCapsule t k).ents i =
      (setParentNone (setParentNone t cap.half1) cap.half2).ents i := by
    intro i; simp [separateCapsule, hc]
  by_cases hj2 : j = cap.half2
  · rcases he : t.ents j with _ | e
    · left
      rw [hstep]
      have ht1 : (setParentNone t cap.half1).ents j = none := by
        by_cases hj1 : j = cap.half1
        · subst hj1; rw [ents_setParentNone_self, he]
        · rw [ents_setParentNone_other t cap.half1 j hj1, he]
      subst hj2
      rw [ents_setParentNone_self, ht1]
    · cases e with
      | pathogen pe =>
        left
        rw [hstep]
        have ht1 : (setParentNone t cap.half1).ents j = some (.pathogen pe) := by
          by_cases hj1 : j = cap.half1
          · subst hj1; rw [ents_setParentNone_self, he]
          · rw [ents_setParentNone_other t cap.half1 j hj1, he]
        subst hj2
        rw [ents_setParentNone_self, ht1]
      | half hh =>
        right
        refine ⟨⟨cap, rfl, Or.inr hj2⟩, hh, rfl, ?_⟩
        rw [hstep]
        have ht1 : (setParentNone t cap.half1).ents j = some (.half hh) ∨
            (setParentNone t cap.half1).ents j =
              some (.half { hh with parentCapsule := none }) := by
          by_cases hj1 : j = cap.half1
          · subst hj1; right; rw [ents_setParentNone_self, he]
          · left; rw [ents_setParentNone_other t cap.half1 j hj1, he]
        subst hj2
        rw [ents_setParentNone_self]
        rcases ht1 with h | h <;> rw [h]
  · by_cases hj1 : j = cap.half1
    · rcases he : t.ents j with _ | e
      · left
        rw [hstep, ents_setParentNone_other _ cap.half2 j hj2]
        subst hj1
        rw [ents_setParentNone_self, he]
      · cases e with
        | pathogen pe =>
          left
          rw [hstep, ents_setParentNone_other _ cap.half2 j hj2]
          subst hj1
          rw [ents_setParentNone_self, he]
        | half hh =>
          right
          refine ⟨⟨cap, rfl, Or.inl hj1⟩, hh, rfl, ?_⟩
          rw [hstep, ents_setParentNone_other _ cap.half2 j hj2]
          subst hj1
          rw [ents_setParentNone_self, he]
    · left
      rw [hstep, ents_setParentNone_other _ cap.half2 j hj2,
        ents_setParentNone_other _ cap.half1 j hj1]

theorem sepFold_cells : ∀ (ks : List Nat) (t : GameState) (c r : Int),
    GameGrid.get (ks.foldl separateCapsule t) c r = GameGrid.get t c r := by
  intro ks
  induction ks with
  | nil => intro t c r; rfl
  | cons k rest ih =>
    intro t c r
    rw [List.foldl_cons, ih, get_separateCapsule]

theorem sepFold_caps : ∀ (ks : List Nat) (t : GameState) (k : Nat),
    (ks.foldl separateCapsule t).caps k = if k ∈ ks then none else t.caps k := by
  intro ks
  induction ks with
  | nil => intro t k; simp
  | cons k0 rest ih =>
    intro t k
    rw [List.foldl_cons, ih]
    by_cases hk : k ∈ rest
    · simp [hk]
    · by_cases hk0 : k = k0
      · subst hk0
        simp [hk, caps_separateCapsule]
      · simp [hk, hk0, caps_separateCapsule]

theorem sepFold_ents : ∀ (ks : List Nat) (t : GameState) (j : Nat),
    (ks.foldl separateCapsule t).ents j = t.ents j ∨
      ∃ hh, t.ents j = some (.half hh) ∧
        (ks.foldl separateCapsule t).ents j = some (.half { hh with parentCapsule := none }) := by
  intro ks
  induction ks with
  | nil => intro t j; left; rfl
  | cons k rest ih =>
    intro t j
    rw [List.foldl_cons]
    rcases ents_separateCapsule t k j with h1 | ⟨_, hh, hh1, hh2⟩
    · rcases ih (separateCapsule t k) j with h2 | ⟨hh, hh1, hh2⟩
      · left; rw [h2, h1]
      · right; exact ⟨hh, h1 ▸ hh1, hh2⟩
    · rcases ih (separateCapsule t k) j with h2 | ⟨hh3, hh31, hh32⟩
      · right; exact ⟨hh, hh1, h2 ▸ hh2⟩
      · right
        rw [hh2] at hh31
        have : hh3 = { hh with parentCapsule := none } :=
          (Entity.half.inj (Option.some.inj hh31)).symm
        subst this
        exact ⟨hh, hh1, hh32⟩

/-- An entity changed by the separation pass belongs to a capsule that was
registered, at the start of the pass, under one of the separated ids. -/
theorem sepFold_changed : ∀ (ks : List Nat) (t : GameState) (j : Nat),
    (ks.foldl separateCapsule t).ents j ≠ t.ents j →
      ∃ k ∈ ks, ∃ cap, t.caps k = some cap ∧ (j = cap.half1 ∨ j = cap.half2) := by
  intro ks
  induction ks with
  | nil => intro t j h; exact absurd rfl h
  | cons k rest ih =>
    intro t j h
    rw [List.foldl_cons] at h
    by_cases h1 : (separateCapsule t k).ents j = t.ents j
    · have h2 : (rest.foldl separateCapsule (separateCapsule t k)).ents j ≠
          (separateCapsule t k).ents j := by
        rw [h1]; exact h
      obtain ⟨k2, hk2, cap2, hcap2, hhalves⟩ := ih (separateCapsule t k) j h2
      by_cases hkk : k2 = k
      · subst hkk
        rw [caps_separateCapsule] at hcap2
        simp at hcap2
      · rw [caps_separateCapsule, if_neg hkk] at hcap2
        exact ⟨k2, by simp [hk2], cap2, hcap2, hhalves⟩
    · rcases ents_separateCapsule t k j with hcontra | ⟨⟨cap, hcap, hhalves⟩, _⟩
      · exact absurd hcontra h1
      · exact ⟨k, by simp, cap, hcap, hhalves⟩

/-- Once an entity is not a linked half, the separation pass keeps it so. -/
theorem sepFold_parent_stable : ∀ (ks : List Nat) (t : GameState) (j : Nat),
    (∀ hh, t.ents j = some (.half hh) → hh.parentCapsule = none) →
    ∀ hh, (ks.foldl separateCapsule t).ents j = some (.half hh) →
      hh.parentCapsule = none := by
  intro ks t j hstable hh hfin
  rcases sepFold_ents ks t j with h | ⟨hh0, hh01, hh02⟩
  · exact hstable hh (h ▸ hfin)
  · rw [hfin] at hh02
    have : hh = { hh0 with parentCapsule := none } :=
      Entity.half.inj (Option.some.inj hh02)
    rw [this]

/-- Every capsule in the separation list has both its halves detached by the
separation pass. -/
theorem sepFold_detaches : ∀ (ks : List Nat) (t : GameState) (k : Nat) (cap : CapsuleEnt),
    k ∈ ks → t.caps k = some cap →
    ∀ id, (id = cap.half1 ∨ id = cap.half2) →
      ∀ hh, (ks.foldl separateCapsule t).ents id = some (.half hh) →
        hh.parentCapsule = none := by
  intro ks
  induction ks with
  | nil => intro t k cap hk; cases hk
  | cons k0 rest ih =>
    intro t k cap hk hcap id hid hh hfin
    rw [List.foldl_cons] at hfin
    by_cases hkk : k = k0
    · subst hkk
      have hdet : ∀ hh2, (separateCapsule t k).ents id = some (.half hh2) →
          hh2.parentCapsule = none := by
        intro hh2 he2
        have hclear : (separateCapsule t k).ents id =
            (setParentNone (setParentNone t cap.half1) cap.half2).ents id := by
          simp [separateCapsule, hcap]
        rcases hid with rfl | rfl
        · by_cases hsame : cap.half1 = cap.half2
          · rw [hclear, hsame, ents_setParentNone_self] at he2
            rcases hinner : (setParentNone t cap.half2).ents cap.half2 with _ | e
            · rw [hinner] at he2; exact absurd he2 (by simp)
            · rw [hinner] at he2
              cases e with
              | pathogen pe => exact absurd he2 (by simp)
              | half hh3 =>
                have he3 : some (Entity.half { hh3 with parentCapsule := none }) =
                    some (Entity.half hh2) := he2
                have hfin2 : hh2 = { hh3 with parentCapsule := none } :=
                  (Entity.half.inj (Option.some.inj he3)).symm
                rw [hfin2]
          · rw [hclear, ents_setParentNone_other _ cap.half2 cap.half1
              (fun hx => hsame hx)] at he2
            rcases hinner : t.ents cap.half1 with _ | e
            · rw [ents_setParentNone_self, hinner] at he2; exact absurd he2 (by simp)
            · rw [ents_setParentNone_self, hinner] at he2
              cases e with
              | pathogen pe => exact absurd he2 (by simp)
              | half hh3 =>
                have he3 : some (Entity.half { hh3 with parentCapsule := none }) =
                    some (Entity.half hh2) := he2
                have hfin2 : hh2 = { hh3 with parentCapsule := none } :=
                  (Entity.half.inj (Option.some.inj he3)).symm
                rw [hfin2]
        · rw [hclear, ents_setParentNone_self] at he2
          rcases hinner : (setParentNone t cap.half1).ents cap.half2 with _ | e
          · rw [hinner] at he2; exact absurd he2 (by simp)
          · rw [hinner] at he2
            cases e with
            | pathogen pe => exact absurd he2 (by simp)
            | half hh3 =>
              have he3 : some (Entity.half { hh3 with parentCapsule := none }) =
                  some (Entity.half hh2) := he2
              have hfin2 : hh2 = { hh3 with parentCapsule := none } :=
                (Entity.half.inj (Option.some.inj he3)).symm
              rw [hfin2]
      exact sepFold_parent_stable rest (separateCapsule t k) id hdet hh hfin
    · rcases List.mem_cons.1 hk with h | h
      · exact absurd h hkk
      · have hcap2 : (separateCapsule t k0).caps k = some cap := by
          rw [caps_separateCapsule, if_neg hkk, hcap]
        exact ih (separateCapsule t k0) k cap h hcap2 id hid hh hfin

theorem mem_addCapToSep (l : List Nat) (k j : Nat) :
    j ∈ addCapToSep l k ↔ j ∈ l ∨ j = k := by
  by_cases h : k ∈ l
  · simp [addCapToSep, h]
    intro hj; subst hj; exact h
  · simp [addCapToSep, h]

theorem clearCell_step (s : GameState) (hWF : WF s = true)
    (t : GameState) (n : Nat) (sep : List Nat) (p : Int × Int)
    (hrel : ClearRel s t sep) (hsep : SepOK s sep) :
    ClearRel s (clearCell (t, n, sep) p).1 (clearCell (t, n, sep) p).2.2 ∧
    SepOK s (clearCell (t, n, sep) p).2.2 ∧
    (∀ k ∈ sep, k ∈ (clearCell (t, n, sep) p).2.2) := by
  obtain ⟨hents, hcaps, hcells⟩ := hrel
  rcases hg : GameGrid.get t p.1 p.2 with _ | id
  · simp only [clearCell, hg]
    exact ⟨⟨hents, hcaps, hcells⟩, hsep, fun k hk => hk⟩
  · have hgs : GameGrid.get s p.1 p.2 = some id := by
      rcases hcells p.1 p.2 with h | ⟨h, _⟩
      · rw [← h]; exact hg
      · rw [h] at hg; cases hg
    have hents2 : t.ents id = s.ents id := by rw [hents]
    -- the separation list computed by the step
    have hsep2 : ∀ sep2, sep2 = (clearCell (t, n, sep) p).2.2 →
        (∀ k ∈ sep, k ∈ sep2) ∧ SepOK s sep2 ∧
        (∀ hh k, s.ents id = some (.half hh) → hh.parentCapsule = some k → k ∈ sep2) := by
      intro sep2 hsep2
      rcases he : s.ents id with _ | e
      · have : sep2 = sep := by
          rw [hsep2]; simp only [clearCell, hg, hents2, he]
        subst this
        exact ⟨fun k hk => hk, hsep, by intro hh k h1 _; exact absurd h1 (by simp)⟩
      · cases e with
        | pathogen pe =>
          have : sep2 = sep := by
            rw [hsep2]; simp only [clearCell, hg, hents2, he]
          subst this
          exact ⟨fun k hk => hk, hsep, by intro hh k h1 _; exact absurd h1 (by simp)⟩
        | half hh =>
          rcases hp : hh.parentCapsule with _ | k0
          · have : sep2 = sep := by
              rw [hsep2]; simp only [clearCell, hg, hents2, he, hp]
            subst this
            refine ⟨fun k hk => hk, hsep, ?_⟩
            intro hh2 k h1 h2
            have hhh : hh2 = hh := (Entity.half.inj (Option.some.inj h1)).symm
            subst hhh
            rw [hp] at h2
            cases h2
          · have : sep2 = addCapToSep sep k0 := by
              rw [hsep2]; simp only [clearCell, hg, hents2, he, hp]
            subst this
            refine ⟨fun k hk => (mem_addCapToSep sep k0 k).2 (Or.inl hk), ?_, ?_⟩
            · intro k hk
              rcases (mem_addCapToSep sep k0 k).1 hk with h | rfl
              · exact hsep k h
              · refine ⟨id, ?_⟩
                obtain ⟨e2, he2, _, _, hcap⟩ := (WF_iff s).1 hWF p.1 p.2 id hgs
                rw [he] at he2
                cases Option.some.inj he2
                exact hcap hh k rfl hp
            · intro hh2 k h1 h2
              have hhh : hh2 = hh := (Entity.half.inj (Option.some.inj h1)).symm
              subst hhh
              rw [hp] at h2
              cases Option.some.inj h2
              exact (mem_addCapToSep sep k0 k0).2 (Or.inr rfl)
    obtain ⟨hmono, hsepok, hrec⟩ := hsep2 _ rfl
    refine ⟨⟨?_, ?_, ?_⟩, hsepok, hmono⟩
    · have : (clearCell (t, n, sep) p).1 = (GameGrid.remove t p.1 p.2).2 := by
        simp only [clearCell, hg]
      rw [this, ents_remove, hents]
    · have : (clearCell (t, n, sep) p).1 = (GameGrid.remove t p.1 p.2).2 := by
        simp only [clearCell, hg]
      rw [this, caps_remove, hcaps]
    · intro c r
      have hstate : (clearCell (t, n, sep) p).1 = (GameGrid.remove t p.1 p.2).2 := by
        simp only [clearCell, hg]
      rw [hstate, get_remove]
      by_cases hcr : c = p.1 ∧ r = p.2
      · obtain ⟨rfl, rfl⟩ := hcr
        right
        refine ⟨by simp, ?_⟩
        intro id2 hh k h1 h2 h3
        rw [hgs] at h1
        cases Option.some.inj h1
        exact hrec hh k h2 h3
      · rw [if_neg hcr]
        rcases hcells c r with h | ⟨h1, h2⟩
        · left; exact h
        · right
          exact ⟨h1, fun id2 hh k a b c2 => hmono k (h2 id2 hh k a b c2)⟩

theorem clearFold_spec (s : GameState) (hWF : WF s = true) :
    ∀ (cells : List (Int × Int)) (t : GameState) (n : Nat) (sep : List Nat),
      ClearRel s t sep → SepOK s sep →
      ClearRel s (cells.foldl clearCell (t, n, sep)).1
        (cells.foldl clearCell (t, n, sep)).2.2 ∧
      SepOK s (cells.foldl clearCell (t, n, sep)).2.2 := by
  intro cells
  induction cells with
  | nil => intro t n sep h1 h2; exact ⟨h1, h2⟩
  | cons p rest ih =>
    intro t n sep h1 h2
    rw [List.foldl_cons]
    obtain ⟨h3, h4, _⟩ := clearCell_step s hWF t n sep p h1 h2
    have : clearCell (t, n, sep) p =
        ((clearCell (t, n, sep) p).1, (clearCell (t, n, sep) p).2.1,
          (clearCell (t, n, sep) p).2.2) := rfl
    rw [this]
    exact ih _ _ _ h3 h4

theorem clearFold_count_le : ∀ (cells : List (Int × Int)) (acc : GameState × Nat × List Nat),
    pieceCount (cells.foldl clearCell acc).1 ≤ pieceCount acc.1 := by
  intro cells
  induction cells with
  | nil => intro acc; exact le_rfl
  | cons p rest ih =>
    intro acc
    rw [List.foldl_cons]
    refine le_trans (ih _) ?_
    rcases hg : GameGrid.get acc.1 p.1 p.2 with _ | id
    · simp only [clearCell, hg]
      exact le_rfl
    · have : (clearCell acc p).1 = (GameGrid.remove acc.1 p.1 p.2).2 := by
        simp only [clearCell, hg]
      rw [this]
      exact pieceCount_remove_le _ _ _

/-- A half linked to a capsule that is not separated keeps its entity record
through the separation pass. -/
theorem sepFold_keep_ent (s tmid : GameState) (sep : List Nat)
    (hents : tmid.ents = s.ents) (hcaps : tmid.caps = s.caps)
    (hsepok : SepOK s sep) {k : Nat} (hknot : k ∉ sep)
    {j : Nat} {hj : HalfEnt} (hje : s.ents j = some (.half hj))
    (hjp : hj.parentCapsule = some k) :
    (sep.foldl separateCapsule tmid).ents j = some (.half hj) := by
  by_cases hchg : (sep.foldl separateCapsule tmid).ents j = tmid.ents j
  · rw [hchg, hents]; exact hje
  · exfalso
    obtain ⟨k2, hk2, cap2, hcap2, hhal⟩ := sepFold_changed sep tmid j hchg
    rw [hcaps] at hcap2
    obtain ⟨id2, hok2⟩ := hsepok k2 hk2
    obtain ⟨cap2b, h1b, h2b, hid2, hfb⟩ := (capOK_iff s k2 id2).1 hok2
    have hceq : cap2b = cap2 := by
      have hx := hfb.caps_eq
      rw [hcap2] at hx
      exact (Option.some.inj hx).symm
    subst hceq
    rcases hhal with h | h
    · rw [h] at hje
      have hx := hfb.ents1
      rw [hje] at hx
      have hinj : hj = h1b := Entity.half.inj (Option.some.inj hx)
      subst hinj
      have hp2 := hfb.par1
      rw [hjp] at hp2
      cases Option.some.inj hp2
      exact hknot hk2
    · rw [h] at hje
      have hx := hfb.ents2
      rw [hje] at hx
      have hinj : hj = h2b := Entity.half.inj (Option.some.inj hx)
      subst hinj
      have hp2 := hfb.par2
      rw [hjp] at hp2
      cases Option.some.inj hp2
      exact hknot hk2

/-- The clear phase preserves well-formedness. -/
theorem clearMatches_WF (s : GameState) (hWF : WF s = true) (cells : List (Int × Int)) :
    WF (clearMatches s cells).1 = true := by
  obtain ⟨hrel, hsepok⟩ := clearFold_spec s hWF cells s 0 []
    ⟨rfl, rfl, fun c r => Or.inl rfl⟩ (fun k hk => absurd hk (List.not_mem_nil k))
  show WF ((cells.foldl clearCell (s, 0, [])).2.2.foldl separateCapsule
    (cells.foldl clearCell (s, 0, [])).1) = true
  revert hrel hsepok
  generalize cells.foldl clearCell (s, 0, []) = F
  obtain ⟨tmid, n, sep⟩ := F
  intro hrel hsepok
  obtain ⟨hents, hcaps, hcells⟩ := hrel
  apply (WF_iff _).2
  intro c r id hg
  have hgt : GameGrid.get tmid c r = some id := by
    rw [← sepFold_cells sep tmid c r]
    exact hg
  have hgs : GameGrid.get s c r = some id := by
    rcases hcells c r with h | ⟨h, _⟩
    · rw [← h]; exact hgt
    · rw [h] at hgt; cases hgt
  obtain ⟨e, he, hec, her, hcap⟩ := (WF_iff s).1 hWF c r id hgs
  have htm : tmid.ents id = s.ents id := by rw [hents]
  rcases sepFold_ents sep tmid id with hfid | ⟨hh, hh1, hh2⟩
  · cases e with
    | pathogen pe =>
      refine ⟨.pathogen pe, by rw [hfid, htm, he], hec, her, ?_⟩
      intro hh k heq hpk
      cases heq
    | half hh =>
      refine ⟨.half hh, by rw [hfid, htm, he], hec, her, ?_⟩
      intro hh2 k heq hpk
      have hinj : hh2 = hh := (Entity.half.inj heq).symm
      subst hinj
      have hcapS : capOK s k id = true := hcap hh2 k rfl hpk
      obtain ⟨cap, h1e, h2e, hid, hf⟩ := (capOK_iff s k id).1 hcapS
      have hfin2 : (sep.foldl separateCapsule tmid).ents id = some (.half hh2) := by
        rw [hfid, htm, he]
      have hknot : k ∉ sep := by
        intro hkin
        have hdet := sepFold_detaches sep tmid k cap hkin
          (by rw [hcaps]; exact hf.caps_eq) id hid hh2 hfin2
        rw [hdet] at hpk
        cases hpk
      apply (capOK_iff _ k id).2
      refine ⟨cap, h1e, h2e, hid, ?_⟩
      have hent1 : (sep.foldl separateCapsule tmid).ents cap.half1 = some (.half h1e) :=
        sepFold_keep_ent s tmid sep hents hcaps hsepok hknot hf.ents1 hf.par1
      have hent2 : (sep.foldl separateCapsule tmid).ents cap.half2 = some (.half h2e) :=
        sepFold_keep_ent s tmid sep hents hcaps hsepok hknot hf.ents2 hf.par2
      have hgrid1 : GameGrid.get (sep.foldl separateCapsule tmid)
          h1e.gridCol h1e.gridRow = some cap.half1 := by
        rw [sepFold_cells]
        rcases hcells h1e.gridCol h1e.gridRow with h | ⟨_, hobl⟩
        · rw [h]; exact hf.grid1
        · exact absurd (hobl cap.half1 h1e k hf.grid1 hf.ents1 hf.par1) hknot
      have hgrid2 : GameGrid.get (sep.foldl separateCapsule tmid)
          h2e.gridCol h2e.gridRow = some cap.half2 := by
        rw [sepFold_cells]
        rcases hcells h2e.gridCol h2e.gridRow with h | ⟨_, hobl⟩
        · rw [h]; exact hf.grid2
        · exact absurd (hobl cap.half2 h2e k hf.grid2 hf.ents2 hf.par2) hknot
      exact ⟨by rw [sepFold_caps, if_neg hknot, hcaps]; exact hf.caps_eq,
        hf.hne, hent1, hent2, hf.par1, hf.par2, hgrid1, hgrid2, hf.geom⟩
  · have he2 : s.ents id = some (.half hh) := by rw [← htm]; exact hh1
    rw [he2] at he
    have hinj : e = .half hh := (Option.some.inj he).symm
    subst hinj
    refine ⟨.half { hh with parentCapsule := none }, hh2, hec, her, ?_⟩
    intro hh2x k heq hpk
    have hinj2 : hh2x = { hh with parentCapsule := none } := (Entity.half.inj heq).symm
    subst hinj2
    exact absurd hpk (by simp)

/- Gravity lemmas. -/

theorem pieceCount_sepFold (ks : List Nat) (t : GameState) :
    pieceCount (ks.foldl separateCapsule t) = pieceCount t := by
  apply countP_congr_mem
  intro a _
  rw [sepFold_cells]

theorem findMatches_occupied {s : GameState} {q : Int × Int} (h : q ∈ findMatches s) :
    ∃ id, GameGrid.get s q.1 q.2 = some id := by
  have h2 := (findMatches_iff_onStraightRun s q).1 h
  rcases hc : colorAt s q.1 q.2 with _ | col
  · simp only [onStraightRun, hc] at h2
    exact absurd h2 (by simp)
  · exact get_isSome_of_colorAt_some hc

theorem clearMatches_count_lt (s : GameState) {cells : List (Int × Int)}
    (hne : cells ≠ []) (hocc : ∃ id, GameGrid.get s (cells.headI).1 (cells.headI).2 = some id) :
    pieceCount (clearMatches s cells).1 < pieceCount s := by
  rcases cells with _ | ⟨p, rest⟩
  · exact absurd rfl hne
  obtain ⟨id, hid⟩ := hocc
  simp only [List.headI] at hid
  have hA : pieceCount (clearMatches s (p :: rest)).1 =
      pieceCount (((p :: rest).foldl clearCell (s, 0, [])).1) := by
    exact pieceCount_sepFold _ _
  have hB : pieceCount (((p :: rest).foldl clearCell (s, 0, [])).1) ≤
      pieceCount (clearCell (s, 0, []) p).1 := by
    rw [List.foldl_cons]
    exact clearFold_count_le rest _
  have h1 : (clearCell (s, 0, []) p).1 = (GameGrid.remove s p.1 p.2).2 := by
    simp only [clearCell, hid]
  have hC : pieceCount (clearCell (s, 0, []) p).1 + 1 = pieceCount s := by
    rw [h1]
    exact pieceCount_remove_succ hid
  omega

/-- Transport of capsule consistency between states that agree on the capsule
record, its halves' entities, and the cells that hold its halves. -/
theorem capOK_transport {t s2 : GameState} {k j : Nat}
    (hok : capOK t k j = true)
    (hcaps : s2.caps k = t.caps k)
    (hents : ∀ i hi, t.ents i = some (Entity.half hi) → hi.parentCapsule = some k →
      s2.ents i = t.ents i)
    (hcells : ∀ x y i, GameGrid.get t x y = some i →
      (∃ hi, t.ents i = some (Entity.half hi) ∧ hi.parentCapsule = some k) →
      GameGrid.get s2 x y = GameGrid.get t x y) :
    capOK s2 k j = true := by
  obtain ⟨cap, h1, h2, hid, hf⟩ := (capOK_iff t k j).1 hok
  apply (capOK_iff s2 k j).2
  refine ⟨cap, h1, h2, hid, ?_⟩
  have he1 : s2.ents cap.half1 = some (.half h1) := by
    rw [hents cap.half1 h1 hf.ents1 hf.par1]
    exact hf.ents1
  have he2 : s2.ents cap.half2 = some (.half h2) := by
    rw [hents cap.half2 h2 hf.ents2 hf.par2]
    exact hf.ents2
  have hg1 : GameGrid.get s2 h1.gridCol h1.gridRow = some cap.half1 := by
    rw [hcells h1.gridCol h1.gridRow cap.half1 hf.grid1 ⟨h1, hf.ents1, hf.par1⟩]
    exact hf.grid1
  have hg2 : GameGrid.get s2 h2.gridCol h2.gridRow = some cap.half2 := by
    rw [hcells h2.gridCol h2.gridRow cap.half2 hf.grid2 ⟨h2, hf.ents2, hf.par2⟩]
    exact hf.grid2
  exact ⟨by rw [hcaps]; exact hf.caps_eq, hf.hne, he1, he2, hf.par1, hf.par2, hg1, hg2, hf.geom⟩

theorem ents_writeBackCapsule_other (t : GameState) (k : Nat) (cap : CapsuleEnt)
    (cs : CapsuleState) (j : Nat) (hj1 : j ≠ cap.half1) (hj2 : j ≠ cap.half2) :
    (writeBackCapsule t k cap cs).ents j = t.ents j := by
  simp [writeBackCapsule, setEntPos, hj1, hj2]

theorem ents_writeBackCapsule_half1 (t : GameState) (k : Nat) (cap : CapsuleEnt)
    (cs : CapsuleState) (hne : cap.half1 ≠ cap.half2) :
    (writeBackCapsule t k cap cs).ents cap.half1 =
      (t.ents cap.half1).map (fun e => entSetPos e cs.half1Col cs.half1Row) := by
  simp [writeBackCapsule, setEntPos, hne]

theorem ents_writeBackCapsule_half2 (t : GameState) (k : Nat) (cap : CapsuleEnt)
    (cs : CapsuleState) (hne : cap.half1 ≠ cap.half2) :
    (writeBackCapsule t k cap cs).ents cap.half2 =
      (t.ents cap.half2).map (fun e => entSetPos e cs.half2Col cs.half2Row) := by
  simp [writeBackCapsule, setEntPos, hne.symm]

theorem caps_writeBackCapsule (t : GameState) (k : Nat) (cap : CapsuleEnt)
    (cs : CapsuleState) (k2 : Nat) :
    (writeBackCapsule t k cap cs).caps k2 =
      if k2 = k then
        some { cap with orientation := cs.orientation,
                        half1IsFirst := cs.half1IsFirst,
                        gridCol := cs.gridCol,
                        gridRow := cs.gridRow }
      else t.caps k2 := by
  simp [writeBackCapsule, setEntPos]

theorem customOcc_false {t : GameState} {cap : CapsuleEnt} {x y : Int}
    (h : customOcc t cap x y = false) :
    GameGrid.get t x y = none ∨
      GameGrid.get t x y = some cap.half1 ∨ GameGrid.get t x y = some cap.half2 := by
  rcases hg : GameGrid.get t x y with _ | i
  · exact Or.inl rfl
  · rcases he : t.ents i with _ | e
    · simp [customOcc, hg, he, GameGrid.isOccupied] at h
    · cases e with
      | pathogen pe => simp [customOcc, hg, he, GameGrid.isOccupied] at h
      | half hh =>
        by_cases hi : i = cap.half1 ∨ i = cap.half2
        · rcases hi with rfl | rfl
          · exact Or.inr (Or.inl rfl)
          · exact Or.inr (Or.inr rfl)
        · simp [customOcc, hg, he, hi, GameGrid.isOccupied] at h

theorem isEmpty_iff_get_none (s : GameState) (c r : Int) :
    GameGrid.isEmpty s c r = true ↔ GameGrid.get s c r = none := by
  simp [GameGrid.isEmpty, Option.isNone_iff_eq_none]

theorem dropDistAux_le (s : GameState) (c : Int) :
    ∀ l : List Int, dropDistAux s c l ≤ l.length := by
  intro l
  induction l with
  | nil => simp [dropDistAux]
  | cons row rest ih =>
    simp only [dropDistAux, List.length_cons]
    split
    · omega
    · omega

theorem dropDistAux_empty (s : GameState) (c : Int) :
    ∀ (l : List Int) (j : Nat), j < dropDistAux s c l →
      ∃ row, l[j]? = some row ∧ GameGrid.isEmpty s c row = true := by
  intro l
  induction l with
  | nil => intro j h; simp [dropDistAux] at h
  | cons row rest ih =>
    intro j h
    simp only [dropDistAux] at h
    by_cases he : GameGrid.isEmpty s c row = true
    · rw [if_pos he] at h
      cases j with
      | zero => exact ⟨row, by simp, he⟩
      | succ j2 =>
        obtain ⟨r2, hr2, hr3⟩ := ih j2 (by omega)
        exact ⟨r2, by simpa using hr2, hr3⟩
    · rw [if_neg he] at h
      omega

theorem dropDistAux_stop (s : GameState) (c : Int) :
    ∀ l : List Int, dropDistAux s c l < l.length →
      ∃ row, l[dropDistAux s c l]? = some row ∧ GameGrid.isEmpty s c row = false := by
  intro l
  induction l with
  | nil => intro h; simp [dropDistAux] at h
  | cons row rest ih =>
    intro h
    simp only [dropDistAux, List.length_cons] at h ⊢
    by_cases he : GameGrid.isEmpty s c row = true
    · rw [if_pos he] at h ⊢
      obtain ⟨r2, hr2, hr3⟩ := ih (by omega)
      refine ⟨r2, ?_, hr3⟩
      rw [Nat.add_comm]
      simpa using hr2
    · rw [if_neg he] at h ⊢
      refine ⟨row, by simp, ?_⟩
      cases hb : GameGrid.isEmpty s c row
      · rfl
      · exact absurd hb he

theorem rowsBelow_length (r : Int) :
    (rowsBelow r).length = (FIELD_HEIGHT - (r + 1)).toNat := by
  rw [rowsBelow, List.length_map, List.length_range]

theorem rowsBelow_get (r : Int) (j : Nat) (hj : (j : Int) < 15 - r) :
    (rowsBelow r)[j]? = some (r + 1 + (j : Int)) := by
  have hlt : j < (FIELD_HEIGHT - (r + 1)).toNat := by
    simp only [FIELD_HEIGHT]
    omega
  rw [rowsBelow, List.getElem?_map, List.getElem?_range hlt]
  rfl

theorem dropDist_le (s : GameState) (c r : Int) :
    ((dropDist s c r : Nat) : Int) ≤ 15 - r ∨ dropDist s c r = 0 := by
  have h1 := dropDistAux_le s c (rowsBelow r)
  rw [rowsBelow_length] at h1
  simp only [FIELD_HEIGHT] at h1
  by_cases h : (0 : Int) ≤ 15 - r
  · left
    rw [dropDist]
    omega
  · right
    rw [dropDist]
    omega

theorem dropDist_cells_empty {s : GameState} {c r : Int} :
    ∀ i : Int, 1 ≤ i → i ≤ (dropDist s c r : Int) →
      GameGrid.isEmpty s c (r + i) = true := by
  intro i h1 h2
  have hlt : (i - 1).toNat < dropDist s c r := by omega
  obtain ⟨row, hrow, hemp⟩ := dropDistAux_empty s c (rowsBelow r) (i - 1).toNat hlt
  have hd_le := dropDistAux_le s c (rowsBelow r)
  rw [rowsBelow_length] at hd_le
  simp only [FIELD_HEIGHT] at hd_le
  have hrange : (((i - 1).toNat : Nat) : Int) < 15 - r := by
    rw [dropDist] at hlt
    omega
  rw [rowsBelow_get r _ hrange] at hrow
  have hroweq : row = r + i := by
    have := Option.some.inj hrow
    omega
  rw [← hroweq]
  exact hemp

theorem dropDist_maximal {s : GameState} {c r : Int} (hr1 : r ≤ 15) :
    r + (dropDist s c r : Int) = 15 ∨
      GameGrid.isEmpty s c (r + (dropDist s c r : Int) + 1) = false := by
  by_cases h : dropDist s c r < (rowsBelow r).length
  · right
    obtain ⟨row, hrow, hne⟩ := dropDistAux_stop s c (rowsBelow r) h
    rw [rowsBelow_length] at h
    simp only [FIELD_HEIGHT] at h
    have hrange : ((dropDist s c r : Nat) : Int) < 15 - r := by omega
    rw [show dropDistAux s c (rowsBelow r) = dropDist s c r from rfl] at hrow
    rw [rowsBelow_get r _ hrange] at hrow
    have hroweq : row = r + (dropDist s c r : Int) + 1 := by
      have := Option.some.inj hrow
      omega
    rw [← hroweq]
    exact hne
  · left
    have h1 := dropDistAux_le s c (rowsBelow r)
    rw [rowsBelow_length] at h1
    have h2 : dropDist s c r = (rowsBelow r).length := by
      rw [rowsBelow_length]
      rw [dropDist] at h ⊢
      rw [rowsBelow_length] at h
      omega
    rw [h2, rowsBelow_length]
    simp only [FIELD_HEIGHT]
    omega

theorem entPos_remove (s : GameState) (c r : Int) (j : Nat) :
    entPos (GameGrid.remove s c r).2 j = entPos s j := by
  unfold entPos
  rw [ents_remove]

theorem entPos_set_other (s : GameState) {c r : Int} {id : Nat}
    (hv : GameGrid.isValid c r = true) (j : Nat) (h : j ≠ id) :
    entPos (GameGrid.set s c r (some id)).2 j = entPos s j := by
  unfold entPos
  rw [ents_set_some s id hv j, if_neg h]

theorem entPos_writeBack_half1 (t : GameState) (k : Nat) (cap : CapsuleEnt)
    (cs : CapsuleState) {h1 : HalfEnt} (hne : cap.half1 ≠ cap.half2)
    (he : t.ents cap.half1 = some (.half h1)) :
    entPos (writeBackCapsule t k cap cs) cap.half1 = (cs.half1Col, cs.half1Row) := by
  unfold entPos
  rw [ents_writeBackCapsule_half1 t k cap cs hne, he]
  rfl

theorem entPos_writeBack_half2 (t : GameState) (k : Nat) (cap : CapsuleEnt)
    (cs : CapsuleState) {h2 : HalfEnt} (hne : cap.half1 ≠ cap.half2)
    (he : t.ents cap.half2 = some (.half h2)) :
    entPos (writeBackCapsule t k cap cs) cap.half2 = (cs.half2Col, cs.half2Row) := by
  unfold entPos
  rw [ents_writeBackCapsule_half2 t k cap cs hne, he]
  rfl

theorem capsuleShiftState_eq (t : GameState) (k : Nat) (cap : CapsuleEnt)
    (cs1 : CapsuleState) {h1 h2 : HalfEnt}
    (hne : cap.half1 ≠ cap.half2)
    (he1 : t.ents cap.half1 = some (.half h1))
    (he2 : t.ents cap.half2 = some (.half h2))
    (hval1 : GameGrid.isValid cs1.half1Col cs1.half1Row = true) :
    capsuleShiftState t k cap cs1 =
      (GameGrid.set
        (GameGrid.set
          (GameGrid.remove
            (GameGrid.remove (writeBackCapsule t k cap cs1) h1.gridCol h1.gridRow).2
            h2.gridCol h2.gridRow).2
          cs1.half1Col cs1.half1Row (some cap.half1)).2
        cs1.half2Col cs1.half2Row (some cap.half2)).2 := by
  have hpt1 : entPos t cap.half1 = (h1.gridCol, h1.gridRow) := by
    unfold entPos
    rw [he1]
    rfl
  have hpt2 : entPos t cap.half2 = (h2.gridCol, h2.gridRow) := by
    unfold entPos
    rw [he2]
    rfl
  simp only [capsuleShiftState]
  rw [hpt1, hpt2]
  rw [entPos_remove, entPos_remove, entPos_writeBack_half1 t k cap cs1 hne he1]
  rw [entPos_set_other _ hval1 cap.half2 (Ne.symm hne), entPos_remove, entPos_remove,
    entPos_writeBack_half2 t k cap cs1 hne he2]

theorem capsuleShift_WF_count
    (t : GameState) (hWF : WF t = true) (k : Nat) (cap : CapsuleEnt)
    (h1 h2 : HalfEnt) (hf : CapFacts t k cap h1 h2) (cs1 : CapsuleState)
    (hc1 : cs1.half1Col = h1.gridCol) (hr1 : cs1.half1Row = h1.gridRow + 1)
    (hc2 : cs1.half2Col = h2.gridCol) (hr2 : cs1.half2Row = h2.gridRow + 1)
    (hval1 : GameGrid.isValid h1.gridCol (h1.gridRow + 1) = true)
    (hval2 : GameGrid.isValid h2.gridCol (h2.gridRow + 1) = true)
    (hnew1 : GameGrid.get t h1.gridCol (h1.gridRow + 1) = none ∨
      (h1.gridCol = h2.gridCol ∧ h1.gridRow + 1 = h2.gridRow))
    (hnew2 : GameGrid.get t h2.gridCol (h2.gridRow + 1) = none ∨
      (h2.gridCol = h1.gridCol ∧ h2.gridRow + 1 = h1.gridRow))
    (hold_ne : ¬(h1.gridCol = h2.gridCol ∧ h1.gridRow = h2.gridRow))
    (hgeom2 : capGeomB
      { cap with
        orientation := cs1.orientation
        half1IsFirst := cs1.half1IsFirst
        gridCol := cs1.gridCol
        gridRow := cs1.gridRow }
      { h1 with
        gridCol := cs1.half1Col
        gridRow := cs1.half1Row }
      { h2 with
        gridCol := cs1.half2Col
        gridRow := cs1.half2Row } = true) :
    WF (capsuleShiftState t k cap cs1) = true ∧
      pieceCount (capsuleShiftState t k cap cs1) ≤ pieceCount t := by
  have hne := hf.hne
  have he1 := hf.ents1
  have he2 := hf.ents2
  have hpar1 := hf.par1
  have hpar2 := hf.par2
  have hgrid1 := hf.grid1
  have hgrid2 := hf.grid2
  have hcapseq := hf.caps_eq
  rw [hc1, hr1] at hgeom2
  rw [hc2, hr2] at hgeom2
  have hCSS := capsuleShiftState_eq t k cap cs1 hne he1 he2 (by rw [hc1, hr1]; exact hval1)
  rw [hc1, hr1, hc2, hr2] at hCSS
  rw [hCSS]
  have hne21 : ¬(h2.gridCol = h1.gridCol ∧ h2.gridRow = h1.gridRow) := by
    intro hcc
    exact hold_ne ⟨hcc.1.symm, hcc.2.symm⟩
  -- characterization of the cells of the final state
  have hgetE : ∀ x y,
      GameGrid.get
        (GameGrid.set
          (GameGrid.set
            (GameGrid.remove
              (GameGrid.remove (writeBackCapsule t k cap cs1) h1.gridCol h1.gridRow).2
              h2.gridCol h2.gridRow).2
            h1.gridCol (h1.gridRow + 1) (some cap.half1)).2
          h2.gridCol (h2.gridRow + 1) (some cap.half2)).2 x y =
        if x = h2.gridCol ∧ y = h2.gridRow + 1 then some cap.half2
        else if x = h1.gridCol ∧ y = h1.gridRow + 1 then some cap.half1
        else if x = h2.gridCol ∧ y = h2.gridRow then none
        else if x = h1.gridCol ∧ y = h1.gridRow then none
        else GameGrid.get t x y := by
    intro x y
    rw [get_set _ _ hval2, get_set _ _ hval1, get_remove, get_remove, get_writeBackCapsule]
  -- characterization of the entity store of the final state
  have hentsE_other : ∀ j, j ≠ cap.half1 → j ≠ cap.half2 →
      (GameGrid.set
        (GameGrid.set
          (GameGrid.remove
            (GameGrid.remove (writeBackCapsule t k cap cs1) h1.gridCol h1.gridRow).2
            h2.gridCol h2.gridRow).2
          h1.gridCol (h1.gridRow + 1) (some cap.half1)).2
        h2.gridCol (h2.gridRow + 1) (some cap.half2)).2.ents j = t.ents j := by
    intro j hj1 hj2
    rw [ents_set_some _ _ hval2 j, if_neg hj2, ents_set_some _ _ hval1 j, if_neg hj1,
      ents_remove, ents_remove, ents_writeBackCapsule_other t k cap cs1 j hj1 hj2]
  have hentsE_1 :
      (GameGrid.set
        (GameGrid.set
          (GameGrid.remove
            (GameGrid.remove (writeBackCapsule t k cap cs1) h1.gridCol h1.gridRow).2
            h2.gridCol h2.gridRow).2
          h1.gridCol (h1.gridRow + 1) (some cap.half1)).2
        h2.gridCol (h2.gridRow + 1) (some cap.half2)).2.ents cap.half1 =
        some (.half { h1 with gridRow := h1.gridRow + 1 }) := by
    rw [ents_set_some _ _ hval2 cap.half1, if_neg hne, ents_set_some _ _ hval1 cap.half1,
      if_pos rfl, ents_remove, ents_remove, ents_writeBackCapsule_half1 t k cap cs1 hne, he1]
    simp [entSetPos, hc1, hr1]
  have hentsE_2 :
      (GameGrid.set
        (GameGrid.set
          (GameGrid.remove
            (GameGrid.remove (writeBackCapsule t k cap cs1) h1.gridCol h1.gridRow).2
            h2.gridCol h2.gridRow).2
          h1.gridCol (h1.gridRow + 1) (some cap.half1)).2
        h2.gridCol (h2.gridRow + 1) (some cap.half2)).2.ents cap.half2 =
        some (.half { h2 with gridRow := h2.gridRow + 1 }) := by
    rw [ents_set_some _ _ hval2 cap.half2, if_pos rfl, ents_set_some _ _ hval1 cap.half2,
      if_neg (Ne.symm hne), ents_remove, ents_remove,
      ents_writeBackCapsule_half2 t k cap cs1 hne, he2]
    simp [entSetPos, hc2, hr2]
  have hcapsE : ∀ k2,
      (GameGrid.set
        (GameGrid.set
          (GameGrid.remove
            (GameGrid.remove (writeBackCapsule t k cap cs1) h1.gridCol h1.gridRow).2
            h2.gridCol h2.gridRow).2
          h1.gridCol (h1.gridRow + 1) (some cap.half1)).2
        h2.gridCol (h2.gridRow + 1) (some cap.half2)).2.caps k2 =
        if k2 = k then
          some { cap with
            orientation := cs1.orientation
            half1IsFirst := cs1.half1IsFirst
            gridCol := cs1.gridCol
            gridRow := cs1.gridRow }
        else t.caps k2 := by
    intro k2
    rw [caps_set, caps_set, caps_remove, caps_remove, caps_writeBackCapsule]
  -- the moved capsule is consistent in the final state
  have hfactsE : CapFacts
      (GameGrid.set
        (GameGrid.set
          (GameGrid.remove
            (GameGrid.remove (writeBackCapsule t k cap cs1) h1.gridCol h1.gridRow).2
            h2.gridCol h2.gridRow).2
          h1.gridCol (h1.gridRow + 1) (some cap.half1)).2
        h2.gridCol (h2.gridRow + 1) (some cap.half2)).2 k
      { cap with
        orientation := cs1.orientation
        half1IsFirst := cs1.half1IsFirst
        gridCol := cs1.gridCol
        gridRow := cs1.gridRow }
      { h1 with gridRow := h1.gridRow + 1 } { h2 with gridRow := h2.gridRow + 1 } := by
    refine ⟨by rw [hcapsE k, if_pos rfl], hne, hentsE_1, hentsE_2, hpar1, hpar2, ?_, ?_, ?_⟩
    · show GameGrid.get _ h1.gridCol (h1.gridRow + 1) = some cap.half1
      rw [hgetE]
      rw [if_neg (fun hcc => hold_ne ⟨hcc.1, by omega⟩), if_pos ⟨rfl, rfl⟩]
    · show GameGrid.get _ h2.gridCol (h2.gridRow + 1) = some cap.half2
      rw [hgetE]
      rw [if_pos ⟨rfl, rfl⟩]
    · exact hgeom2
  constructor
  · -- well-formedness of the final state
    apply (WF_iff _).2
    intro x y j hj
    rw [hgetE x y] at hj
    split_ifs at hj with hb2 hb1 hbo2 hbo1
    · obtain ⟨rfl, rfl⟩ := hb2
      have hjj : j = cap.half2 := (Option.some.inj hj).symm
      subst hjj
      refine ⟨.half { h2 with gridRow := h2.gridRow + 1 }, hentsE_2, rfl, rfl, ?_⟩
      intro hh k2 heq hpk
      have hinj : hh = { h2 with gridRow := h2.gridRow + 1 } := (Entity.half.inj heq).symm
      subst hinj
      have hk2 : k2 = k := by
        have : h2.parentCapsule = some k2 := hpk
        rw [hpar2] at this
        exact (Option.some.inj this).symm
      subst hk2
      refine (capOK_iff _ _ _).2 ⟨_, _, _, ?_, hfactsE⟩
      exact Or.inr rfl
    · obtain ⟨rfl, rfl⟩ := hb1
      have hjj : j = cap.half1 := (Option.some.inj hj).symm
      subst hjj
      refine ⟨.half { h1 with gridRow := h1.gridRow + 1 }, hentsE_1, rfl, rfl, ?_⟩
      intro hh k2 heq hpk
      have hinj : hh = { h1 with gridRow := h1.gridRow + 1 } := (Entity.half.inj heq).symm
      subst hinj
      have hk2 : k2 = k := by
        have : h1.parentCapsule = some k2 := hpk
        rw [hpar1] at this
        exact (Option.some.inj this).symm
      subst hk2
      refine (capOK_iff _ _ _).2 ⟨_, _, _, ?_, hfactsE⟩
      exact Or.inl rfl
    · -- an untouched cell
      have hjne1 : j ≠ cap.half1 := by
        rintro rfl
        obtain ⟨hx, hy⟩ := WF_unique hWF hj hgrid1
        exact hbo1 ⟨hx, hy⟩
      have hjne2 : j ≠ cap.half2 := by
        rintro rfl
        obtain ⟨hx, hy⟩ := WF_unique hWF hj hgrid2
        exact hbo2 ⟨hx, hy⟩
      obtain ⟨e, he, hec, her, hcap⟩ := (WF_iff t).1 hWF x y j hj
      refine ⟨e, by rw [hentsE_other j hjne1 hjne2]; exact he, hec, her, ?_⟩
      intro hh k2 heq hpk
      have hok := hcap hh k2 heq hpk
      have hk2 : k2 ≠ k := by
        rintro rfl
        obtain ⟨cap0, h10, h20, hid0, hf0⟩ := (capOK_iff t k2 j).1 hok
        have hcapeq0 : cap0 = cap := by
          have hx := hf0.caps_eq
          rw [hcapseq] at hx
          exact (Option.some.inj hx).symm
        subst hcapeq0
        rcases hid0 with rfl | rfl
        · exact hjne1 rfl
        · exact hjne2 rfl
      apply capOK_transport hok
      · rw [hcapsE k2, if_neg hk2]
      · intro i hi hie hip
        have hine1 : i ≠ cap.half1 := by
          rintro rfl
          rw [he1] at hie
          have : hi = h1 := (Entity.half.inj (Option.some.inj hie)).symm
          subst this
          rw [hpar1] at hip
          exact hk2 (Option.some.inj hip).symm
        have hine2 : i ≠ cap.half2 := by
          rintro rfl
          rw [he2] at hie
          have : hi = h2 := (Entity.half.inj (Option.some.inj hie)).symm
          subst this
          rw [hpar2] at hip
          exact hk2 (Option.some.inj hip).symm
        exact hentsE_other i hine1 hine2
      · rintro a b i hgi ⟨hi, hie, hip⟩
        have hine1 : i ≠ cap.half1 := by
          rintro rfl
          rw [he1] at hie
          have : hi = h1 := (Entity.half.inj (Option.some.inj hie)).symm
          subst this
          rw [hpar1] at hip
          exact hk2 (Option.some.inj hip).symm
        have hine2 : i ≠ cap.half2 := by
          rintro rfl
          rw [he2] at hie
          have : hi = h2 := (Entity.half.inj (Option.some.inj hie)).symm
          subst this
          rw [hpar2] at hip
          exact hk2 (Option.some.inj hip).symm
        have hcellne1 : ¬(a = h1.gridCol ∧ b = h1.gridRow) := by
          rintro ⟨rfl, rfl⟩
          rw [hgi] at hgrid1
          exact hine1 (Option.some.inj hgrid1)
        have hcellne2 : ¬(a = h2.gridCol ∧ b = h2.gridRow) := by
          rintro ⟨rfl, rfl⟩
          rw [hgi] at hgrid2
          exact hine2 (Option.some.inj hgrid2)
        have hcellnn1 : ¬(a = h1.gridCol ∧ b = h1.gridRow + 1) := by
          rintro ⟨rfl, rfl⟩
          rcases hnew1 with hemp | ⟨hcc, hrr⟩
          · rw [hgi] at hemp; cases hemp
          · rw [hcc, hrr] at hgi
            rw [hgi] at hgrid2
            exact hine2 (Option.some.inj hgrid2)
        have hcellnn2 : ¬(a = h2.gridCol ∧ b = h2.gridRow + 1) := by
          rintro ⟨rfl, rfl⟩
          rcases hnew2 with hemp | ⟨hcc, hrr⟩
          · rw [hgi] at hemp; cases hemp
          · rw [hcc, hrr] at hgi
            rw [hgi] at hgrid1
            exact hine1 (Option.some.inj hgrid1)
        rw [hgetE a b, if_neg hcellnn2, if_neg hcellnn1, if_neg hcellne2, if_neg hcellne1]
  · -- the piece count does not increase
    have h1c : pieceCount (writeBackCapsule t k cap cs1) = pieceCount t :=
      pieceCount_writeBackCapsule t k cap cs1
    have hg1 : GameGrid.get (writeBackCapsule t k cap cs1) h1.gridCol h1.gridRow =
        some cap.half1 := by
      rw [get_writeBackCapsule]
      exact hgrid1
    have h2c : pieceCount
        (GameGrid.remove (writeBackCapsule t k cap cs1) h1.gridCol h1.gridRow).2 + 1 =
        pieceCount (writeBackCapsule t k cap cs1) := pieceCount_remove_succ hg1
    have hg2 : GameGrid.get
        (GameGrid.remove (writeBackCapsule t k cap cs1) h1.gridCol h1.gridRow).2
        h2.gridCol h2.gridRow = some cap.half2 := by
      rw [get_remove, if_neg hne21, get_writeBackCapsule]
      exact hgrid2
    have h3c : pieceCount
        (GameGrid.remove
          (GameGrid.remove (writeBackCapsule t k cap cs1) h1.gridCol h1.gridRow).2
          h2.gridCol h2.gridRow).2 + 1 =
        pieceCount
          (GameGrid.remove (writeBackCapsule t k cap cs1) h1.gridCol h1.gridRow).2 :=
      pieceCount_remove_succ hg2
    have h4c := pieceCount_set_le
      (GameGrid.remove
        (GameGrid.remove (writeBackCapsule t k cap cs1) h1.gridCol h1.gridRow).2
        h2.gridCol h2.gridRow).2
      h1.gridCol (h1.gridRow + 1) (some cap.half1)
    have h5c := pieceCount_set_le
      (GameGrid.set
        (GameGrid.remove
          (GameGrid.remove (writeBackCapsule t k cap cs1) h1.gridCol h1.gridRow).2
          h2.gridCol h2.gridRow).2
        h1.gridCol (h1.gridRow + 1) (some cap.half1)).2
      h2.gridCol (h2.gridRow + 1) (some cap.half2)
    omega

theorem detachedDrop_WF_count (t : GameState) (hWF : WF t = true) (c r : Int) (id : Nat)
    (hg : GameGrid.get t c r = some id) (hh : HalfEnt)
    (he : t.ents id = some (.half hh)) (hpar : hh.parentCapsule = none)
    (d : Nat) (hd : 0 < d)
    (htgt : GameGrid.get t c (r + (d : Int)) = none)
    (hvt : GameGrid.isValid c (r + (d : Int)) = true) :
    WF (GameGrid.set (GameGrid.remove t c r).2 c (r + (d : Int)) (some id)).2 = true ∧
      pieceCount (GameGrid.set (GameGrid.remove t c r).2 c (r + (d : Int)) (some id)).2 ≤
        pieceCount t := by
  have hrne : r ≠ r + (d : Int) := by omega
  have hgetN : ∀ x y,
      GameGrid.get (GameGrid.set (GameGrid.remove t c r).2 c (r + (d : Int)) (some id)).2 x y =
        if x = c ∧ y = r + (d : Int) then some id
        else if x = c ∧ y = r then none
        else GameGrid.get t x y := by
    intro x y
    rw [get_set _ _ hvt, get_remove]
  have hentsN_other : ∀ j, j ≠ id →
      (GameGrid.set (GameGrid.remove t c r).2 c (r + (d : Int)) (some id)).2.ents j =
        t.ents j := by
    intro j hj
    rw [ents_set_some _ _ hvt j, if_neg hj, ents_remove]
  have hentsN_id :
      (GameGrid.set (GameGrid.remove t c r).2 c (r + (d : Int)) (some id)).2.ents id =
        some (.half { hh with gridCol := c, gridRow := r + (d : Int) }) := by
    rw [ents_set_some _ _ hvt id, if_pos rfl, ents_remove, he]
    simp [entSetPos]
  have hcapsN :
      (GameGrid.set (GameGrid.remove t c r).2 c (r + (d : Int)) (some id)).2.caps = t.caps := by
    rw [caps_set, caps_remove]
  constructor
  · apply (WF_iff _).2
    intro x y j hj
    rw [hgetN x y] at hj
    split_ifs at hj with hb1 hb2
    · rcases hb1 with ⟨hbx, hby⟩
      have hjj : j = id := (Option.some.inj hj).symm
      subst hjj
      refine ⟨.half { hh with gridCol := c, gridRow := r + (d : Int) }, hentsN_id,
        hbx.symm, hby.symm, ?_⟩
      rintro hh2 k2 heq hpk
      have hinj : hh2 = { hh with gridCol := c, gridRow := r + (d : Int) } :=
        (Entity.half.inj heq).symm
      subst hinj
      have hpk2 : hh.parentCapsule = some k2 := hpk
      rw [hpar] at hpk2
      cases hpk2
    · -- the vacated cell is empty
      have hjid : j ≠ id := by
        rintro rfl
        obtain ⟨hx, hy⟩ := WF_unique hWF hj hg
        exact hb2 ⟨hx, hy⟩
      obtain ⟨e, he2, hec, her, hcap⟩ := (WF_iff t).1 hWF x y j hj
      refine ⟨e, by rw [hentsN_other j hjid]; exact he2, hec, her, ?_⟩
      intro hh2 k2 heq hpk
      have hok := hcap hh2 k2 heq hpk
      apply capOK_transport hok
      · rw [hcapsN]
      · intro i hi hie hip
        have hiid : i ≠ id := by
          rintro rfl
          rw [he] at hie
          have : hi = hh := (Entity.half.inj (Option.some.inj hie)).symm
          subst this
          rw [hpar] at hip
          cases hip
        exact hentsN_other i hiid
      · rintro a b i hgi ⟨hi, hie, hip⟩
        have hiid : i ≠ id := by
          rintro rfl
          rw [he] at hie
          have : hi = hh := (Entity.half.inj (Option.some.inj hie)).symm
          subst this
          rw [hpar] at hip
          cases hip
        have hcell1 : ¬(a = c ∧ b = r + (d : Int)) := by
          rintro ⟨rfl, rfl⟩
          rw [hgi] at htgt
          cases htgt
        have hcell2 : ¬(a = c ∧ b = r) := by
          rintro ⟨rfl, rfl⟩
          rw [hgi] at hg
          exact hiid (Option.some.inj hg)
        rw [hgetN a b, if_neg hcell1, if_neg hcell2]
  · have h1c : pieceCount (GameGrid.remove t c r).2 + 1 = pieceCount t :=
      pieceCount_remove_succ hg
    have h2c := pieceCount_set_le (GameGrid.remove t c r).2 c (r + (d : Int)) (some id)
    omega

theorem customOcc_below_half1 {t : GameState} (hWF : WF t = true) {k : Nat} {cap : CapsuleEnt}
    {h1 h2 : HalfEnt} (hf : CapFacts t k cap h1 h2)
    (hocc : customOcc t cap h1.gridCol (h1.gridRow + 1) = false) :
    GameGrid.get t h1.gridCol (h1.gridRow + 1) = none ∨
      (h1.gridCol = h2.gridCol ∧ h1.gridRow + 1 = h2.gridRow) := by
  rcases customOcc_false hocc with hn | hx | hx
  · exact Or.inl hn
  · obtain ⟨_, hy⟩ := WF_unique hWF hx hf.grid1
    omega
  · obtain ⟨ha, hb⟩ := WF_unique hWF hx hf.grid2
    exact Or.inr ⟨ha, hb⟩

theorem customOcc_below_half2 {t : GameState} (hWF : WF t = true) {k : Nat} {cap : CapsuleEnt}
    {h1 h2 : HalfEnt} (hf : CapFacts t k cap h1 h2)
    (hocc : customOcc t cap h2.gridCol (h2.gridRow + 1) = false) :
    GameGrid.get t h2.gridCol (h2.gridRow + 1) = none ∨
      (h2.gridCol = h1.gridCol ∧ h2.gridRow + 1 = h1.gridRow) := by
  rcases customOcc_false hocc with hn | hx | hx
  · exact Or.inl hn
  · obtain ⟨ha, hb⟩ := WF_unique hWF hx hf.grid1
    exact Or.inr ⟨ha, hb⟩
  · obtain ⟨_, hy⟩ := WF_unique hWF hx hf.grid2
    omega

theorem canMoveDown_shiftHyps (t : GameState) (hWF : WF t = true) (k : Nat) (cap : CapsuleEnt)
    (h1 h2 : HalfEnt) (hf : CapFacts t k cap h1 h2)
    (hcm : Capsule.canMoveDown (capStateOf t cap) (customOcc t cap) = true) :
    ShiftHyps t cap h1 h2 (Capsule.tryMoveDown (capStateOf t cap) (customOcc t cap)).2 := by
  have hpt1 : entPos t cap.half1 = (h1.gridCol, h1.gridRow) := by
    unfold entPos
    rw [hf.ents1]
    rfl
  have hpt2 : entPos t cap.half2 = (h2.gridCol, h2.gridRow) := by
    unfold entPos
    rw [hf.ents2]
    rfl
  have hcs : capStateOf t cap =
      { half1Col := h1.gridCol, half1Row := h1.gridRow,
        half2Col := h2.gridCol, half2Row := h2.gridRow,
        orientation := cap.orientation, half1IsFirst := cap.half1IsFirst,
        gridCol := cap.gridCol, gridRow := cap.gridRow } := by
    simp [capStateOf, hpt1, hpt2]
  rw [hcs] at hcm ⊢
  have htm : (Capsule.tryMoveDown
      { half1Col := h1.gridCol, half1Row := h1.gridRow,
        half2Col := h2.gridCol, half2Row := h2.gridRow,
        orientation := cap.orientation, half1IsFirst := cap.half1IsFirst,
        gridCol := cap.gridCol, gridRow := cap.gridRow } (customOcc t cap)).2 =
      Capsule.updateHalfPositions
        { half1Col := h1.gridCol, half1Row := h1.gridRow,
          half2Col := h2.gridCol, half2Row := h2.gridRow,
          orientation := cap.orientation, half1IsFirst := cap.half1IsFirst,
          gridCol := cap.gridCol, gridRow := cap.gridRow + 1 } := by
    rw [Capsule.tryMoveDown, if_pos hcm]
    rfl
  rw [htm]
  have hb1v := (isValid_iff _ _).1 (isValid_of_get_some hf.grid1)
  have hb2v := (isValid_iff _ _).1 (isValid_of_get_some hf.grid2)
  simp only [FIELD_WIDTH, FIELD_HEIGHT] at hb1v hb2v
  have hgeo := hf.geom
  cases hfst : cap.half1IsFirst <;> cases hor : cap.orientation <;>
    rw [hfst, hor] at hcm <;>
    simp [capGeomB, hfst, hor, Bool.and_eq_true, decide_eq_true_iff, and_assoc] at hgeo
  · -- half2 first, horizontal: h2 at the base, h1 one column right
    obtain ⟨hg21, hg22, hg11, hg12⟩ := hgeo
    simp only [Capsule.canMoveDown, Bool.not_true, Bool.not_false, Bool.false_eq_true,
      Bool.true_eq_false, if_true, if_false] at hcm
    by_cases hbot : (h1.gridRow ≥ FIELD_HEIGHT - 1)
    · rw [if_pos hbot] at hcm
      cases hcm
    rw [if_neg hbot] at hcm
    simp only [FIELD_HEIGHT] at hbot
    rw [Bool.and_eq_true, Bool.not_eq_true', Bool.not_eq_true'] at hcm
    have hocc1 : customOcc t cap h1.gridCol (h1.gridRow + 1) = false := hcm.1
    have hocc2 : customOcc t cap h2.gridCol (h2.gridRow + 1) = false := hcm.2
    exact ⟨
      (show cap.gridCol + 1 = h1.gridCol by omega),
      (show cap.gridRow + 1 = h1.gridRow + 1 by omega),
      (show cap.gridCol = h2.gridCol by omega),
      (show cap.gridRow + 1 = h2.gridRow + 1 by omega),
      (by rw [isValid_iff]; simp only [FIELD_WIDTH, FIELD_HEIGHT]; omega),
      (by rw [isValid_iff]; simp only [FIELD_WIDTH, FIELD_HEIGHT]; omega),
      (customOcc_below_half1 hWF hf hocc1),
      (customOcc_below_half2 hWF hf hocc2),
      (by rintro ⟨ha, _⟩; omega),
      (by simp [capGeomB, Capsule.updateHalfPositions])⟩
  · -- half2 first, vertical: h2 at the base, h1 one row below
    obtain ⟨hg21, hg22, hg11, hg12⟩ := hgeo
    simp only [Capsule.canMoveDown, Bool.not_true, Bool.not_false, Bool.false_eq_true,
      Bool.true_eq_false, if_true, if_false] at hcm
    by_cases hbot : (h1.gridRow ≥ FIELD_HEIGHT - 1)
    · rw [if_pos hbot] at hcm
      cases hcm
    rw [if_neg hbot] at hcm
    simp only [FIELD_HEIGHT] at hbot
    rw [Bool.not_eq_true'] at hcm
    have hocc1 : customOcc t cap h1.gridCol (h1.gridRow + 1) = false := hcm
    exact ⟨
      (show cap.gridCol = h1.gridCol by omega),
      (show cap.gridRow + 1 + 1 = h1.gridRow + 1 by omega),
      (show cap.gridCol = h2.gridCol by omega),
      (show cap.gridRow + 1 = h2.gridRow + 1 by omega),
      (by rw [isValid_iff]; simp only [FIELD_WIDTH, FIELD_HEIGHT]; omega),
      (by rw [isValid_iff]; simp only [FIELD_WIDTH, FIELD_HEIGHT]; omega),
      (customOcc_below_half1 hWF hf hocc1),
      (Or.inr ⟨by omega, by omega⟩),
      (by rintro ⟨_, hb⟩; omega),
      (by simp [capGeomB, Capsule.updateHalfPositions])⟩
  · -- half1 first, horizontal: h1 at the base, h2 one column right
    obtain ⟨hg11, hg12, hg21, hg22⟩ := hgeo
    simp only [Capsule.canMoveDown, Bool.not_true, Bool.not_false, Bool.false_eq_true,
      Bool.true_eq_false, if_true, if_false] at hcm
    by_cases hbot : (h1.gridRow ≥ FIELD_HEIGHT - 1)
    · rw [if_pos hbot] at hcm
      cases hcm
    rw [if_neg hbot] at hcm
    simp only [FIELD_HEIGHT] at hbot
    rw [Bool.and_eq_true, Bool.not_eq_true', Bool.not_eq_true'] at hcm
    have hocc1 : customOcc t cap h1.gridCol (h1.gridRow + 1) = false := hcm.1
    have hocc2 : customOcc t cap h2.gridCol (h2.gridRow + 1) = false := hcm.2
    exact ⟨
      (show cap.gridCol = h1.gridCol by omega),
      (show cap.gridRow + 1 = h1.gridRow + 1 by omega),
      (show cap.gridCol + 1 = h2.gridCol by omega),
      (show cap.gridRow + 1 = h2.gridRow + 1 by omega),
      (by rw [isValid_iff]; simp only [FIELD_WIDTH, FIELD_HEIGHT]; omega),
      (by rw [isValid_iff]; simp only [FIELD_WIDTH, FIELD_HEIGHT]; omega),
      (customOcc_below_half1 hWF hf hocc1),
      (customOcc_below_half2 hWF hf hocc2),
      (by rintro ⟨ha, _⟩; omega),
      (by simp [capGeomB, Capsule.updateHalfPositions])⟩
  · -- half1 first, vertical: h1 at the base, h2 one row below
    obtain ⟨hg11, hg12, hg21, hg22⟩ := hgeo
    simp only [Capsule.canMoveDown, Bool.not_true, Bool.not_false, Bool.false_eq_true,
      Bool.true_eq_false, if_true, if_false] at hcm
    by_cases hbot : (h2.gridRow ≥ FIELD_HEIGHT - 1)
    · rw [if_pos hbot] at hcm
      cases hcm
    rw [if_neg hbot] at hcm
    simp only [FIELD_HEIGHT] at hbot
    rw [Bool.not_eq_true'] at hcm
    have hocc2 : customOcc t cap h2.gridCol (h2.gridRow + 1) = false := hcm
    exact ⟨
      (show cap.gridCol = h1.gridCol by omega),
      (show cap.gridRow + 1 = h1.gridRow + 1 by omega),
      (show cap.gridCol = h2.gridCol by omega),
      (show cap.gridRow + 1 + 1 = h2.gridRow + 1 by omega),
      (by rw [isValid_iff]; simp only [FIELD_WIDTH, FIELD_HEIGHT]; omega),
      (by rw [isValid_iff]; simp only [FIELD_WIDTH, FIELD_HEIGHT]; omega),
      (Or.inr ⟨by omega, by omega⟩),
      (customOcc_below_half2 hWF hf hocc2),
      (by rintro ⟨_, hb⟩; omega),
      (by simp [capGeomB, Capsule.updateHalfPositions])⟩

theorem capsuleDown_WF_count (t : GameState) (hWF : WF t = true) (k : Nat) (cap : CapsuleEnt)
    (h1 h2 : HalfEnt) (hf : CapFacts t k cap h1 h2)
    (hcm : Capsule.canMoveDown (capStateOf t cap) (customOcc t cap) = true) :
    WF (capsuleShiftState t k cap
        (Capsule.tryMoveDown (capStateOf t cap) (customOcc t cap)).2) = true ∧
      pieceCount (capsuleShiftState t k cap
        (Capsule.tryMoveDown (capStateOf t cap) (customOcc t cap)).2) ≤ pieceCount t := by
  obtain ⟨hc1, hr1, hc2, hr2, hval1, hval2, hnew1, hnew2, hold_ne, hgeom2⟩ :=
    canMoveDown_shiftHyps t hWF k cap h1 h2 hf hcm
  exact capsuleShift_WF_count t hWF k cap h1 h2 hf _ hc1 hr1 hc2 hr2 hval1 hval2
    hnew1 hnew2 hold_ne hgeom2

theorem gravityStep_WF_count (t : GameState) (hWF : WF t = true) (n : Nat) (ks : List Nat)
    (p : Int × Int) :
    WF (gravityStep (t, n, ks) p).1 = true ∧
      pieceCount (gravityStep (t, n, ks) p).1 ≤ pieceCount t := by
  rcases hg : GameGrid.get t p.1 p.2 with _ | id
  · simp only [gravityStep, hg]
    exact ⟨hWF, le_refl _⟩
  rcases he : t.ents id with _ | e
  · simp only [gravityStep, hg, he]
    exact ⟨hWF, le_refl _⟩
  cases e with
  | pathogen pe =>
    simp only [gravityStep, hg, he]
    exact ⟨hWF, le_refl _⟩
  | half hh =>
    rcases hp : hh.parentCapsule with _ | k
    · -- a detached half: a positive drop distance moves it; otherwise no change
      simp only [gravityStep, hg, he, hp]
      by_cases hd : 0 < dropDist t p.1 p.2
      · rw [if_pos hd]
        have hvp := (isValid_iff _ _).1 (isValid_of_get_some hg)
        simp only [FIELD_WIDTH, FIELD_HEIGHT] at hvp
        have hdle := dropDist_le t p.1 p.2
        have htgt : GameGrid.get t p.1 (p.2 + (dropDist t p.1 p.2 : Int)) = none := by
          rw [← isEmpty_iff_get_none]
          exact dropDist_cells_empty (dropDist t p.1 p.2 : Int) (by omega) (by omega)
        have hvt : GameGrid.isValid p.1 (p.2 + (dropDist t p.1 p.2 : Int)) = true := by
          rw [isValid_iff]
          simp only [FIELD_WIDTH, FIELD_HEIGHT]
          omega
        exact detachedDrop_WF_count t hWF p.1 p.2 id hg hh he hp _ hd htgt hvt
      · rw [if_neg hd]
        exact ⟨hWF, le_refl _⟩
    · -- a linked half
      simp only [gravityStep, hg, he, hp]
      by_cases hk : k ∈ ks
      · rw [if_pos hk]
        exact ⟨hWF, le_refl _⟩
      rw [if_neg hk]
      rcases hcap : t.caps k with _ | cap
      · simp only [hcap]
        exact ⟨hWF, le_refl _⟩
      simp only [hcap]
      by_cases hcm : Capsule.canMoveDown (capStateOf t cap) (customOcc t cap) = true
      · rw [if_pos hcm]
        -- recover the capsule facts from well-formedness
        obtain ⟨e, he2, _, _, hclause⟩ := (WF_iff t).1 hWF p.1 p.2 id hg
        rw [he] at he2
        have hee : e = .half hh := (Option.some.inj he2).symm
        subst hee
        have hok := hclause hh k rfl hp
        obtain ⟨cap0, h1, h2, _, hf⟩ := (capOK_iff t k id).1 hok
        have hcap0 : cap0 = cap := by
          have hx := hf.caps_eq
          rw [hcap] at hx
          exact (Option.some.inj hx).symm
        subst hcap0
        exact capsuleDown_WF_count t hWF k cap0 h1 h2 hf hcm
      · rw [if_neg hcm]
        exact ⟨hWF, le_refl _⟩

theorem gravityFold_WF_count :
    ∀ (l : List (Int × Int)) (t : GameState) (n : Nat) (ks : List Nat), WF t = true →
      WF (l.foldl gravityStep (t, n, ks)).1 = true ∧
        pieceCount (l.foldl gravityStep (t, n, ks)).1 ≤ pieceCount t := by
  intro l
  induction l with
  | nil =>
    intro t n ks h
    exact ⟨h, le_refl _⟩
  | cons p rest ih =>
    intro t n ks h
    simp only [List.foldl_cons]
    obtain ⟨hWF2, hle⟩ := gravityStep_WF_count t h n ks p
    have hr := ih (gravityStep (t, n, ks) p).1 (gravityStep (t, n, ks) p).2.1
      (gravityStep (t, n, ks) p).2.2 hWF2
    exact ⟨hr.1, le_trans hr.2 hle⟩

theorem applyGravity_WF_count (s : GameState) (h : WF s = true) :
    WF (applyGravity s).1 = true ∧ pieceCount (applyGravity s).1 ≤ pieceCount s := by
  unfold applyGravity
  exact gravityFold_WF_count gravityOrder s 0 [] h

theorem iteration_WF_count_lt (s : GameState) (hWF : WF s = true)
    (hne : findMatches s ≠ []) :
    WF (applyGravity (clearMatches s (findMatches s)).1).1 = true ∧
      pieceCount (applyGravity (clearMatches s (findMatches s)).1).1 < pieceCount s := by
  have hocc : ∃ id,
      GameGrid.get s ((findMatches s).headI).1 ((findMatches s).headI).2 = some id := by
    rcases hfm : findMatches s with _ | ⟨q, rest⟩
    · exact absurd hfm hne
    · simp only [List.headI]
      exact findMatches_occupied (by rw [hfm]; exact List.mem_cons_self q rest)
  have hWFc := clearMatches_WF s hWF (findMatches s)
  have hcnt := clearMatches_count_lt s hne hocc
  obtain ⟨hWFg, hcg⟩ := applyGravity_WF_count (clearMatches s (findMatches s)).1 hWFc
  exact ⟨hWFg, by omega⟩

theorem processMatchesAux_fuel_indep :
    ∀ (n : Nat) (s : GameState), WF s = true → pieceCount s ≤ n →
      ∀ f1 f2, pieceCount s < f1 → pieceCount s < f2 →
        processMatchesAux f1 s = processMatchesAux f2 s := by
  intro n
  induction n with
  | zero =>
    intro s hWF hle f1 f2 h1 h2
    obtain ⟨g1, rfl⟩ : ∃ g, f1 = g + 1 := ⟨f1 - 1, by omega⟩
    obtain ⟨g2, rfl⟩ : ∃ g, f2 = g + 1 := ⟨f2 - 1, by omega⟩
    simp only [processMatchesAux]
    by_cases hm : (findMatches s).isEmpty
    · rw [if_pos hm, if_pos hm]
    · exfalso
      have hne : findMatches s ≠ [] := by
        intro hx
        rw [hx] at hm
        exact hm rfl
      have := (iteration_WF_count_lt s hWF hne).2
      omega
  | succ n ih =>
    intro s hWF hle f1 f2 h1 h2
    obtain ⟨g1, rfl⟩ : ∃ g, f1 = g + 1 := ⟨f1 - 1, by omega⟩
    obtain ⟨g2, rfl⟩ : ∃ g, f2 = g + 1 := ⟨f2 - 1, by omega⟩
    simp only [processMatchesAux]
    by_cases hm : (findMatches s).isEmpty
    · rw [if_pos hm, if_pos hm]
    · rw [if_neg hm, if_neg hm]
      have hne : findMatches s ≠ [] := by
        intro hx
        rw [hx] at hm
        exact hm rfl
      obtain ⟨hWF2, hlt⟩ := iteration_WF_count_lt s hWF hne
      have hrec := ih (applyGravity (clearMatches s (findMatches s)).1).1 hWF2
        (by omega) g1 g2 (by omega) (by omega)
      rw [hrec]

theorem processMatchesAux_WF :
    ∀ (n : Nat) (s : GameState), WF s = true → pieceCount s ≤ n →
      ∀ fuel, WF (processMatchesAux fuel s).1 = true := by
  intro n
  induction n with
  | zero =>
    intro s hWF hle fuel
    cases fuel with
    | zero => exact hWF
    | succ g =>
      simp only [processMatchesAux]
      by_cases hm : (findMatches s).isEmpty
      · rw [if_pos hm]
        exact hWF
      · exfalso
        have hne : findMatches s ≠ [] := by
          intro hx
          rw [hx] at hm
          exact hm rfl
        have := (iteration_WF_count_lt s hWF hne).2
        omega
  | succ n ih =>
    intro s hWF hle fuel
    cases fuel with
    | zero => exact hWF
    | succ g =>
      simp only [processMatchesAux]
      by_cases hm : (findMatches s).isEmpty
      · rw [if_pos hm]
        exact hWF
      · rw [if_neg hm]
        have hne : findMatches s ≠ [] := by
          intro hx
          rw [hx] at hm
          exact hm rfl
        obtain ⟨hWF2, hlt⟩ := iteration_WF_count_lt s hWF hne
        exact ih (applyGravity (clearMatches s (findMatches s)).1).1 hWF2 (by omega) g

theorem processMatches_WF (s : GameState) (hWF : WF s = true) :
    WF (processMatches s).1 = true :=
  processMatchesAux_WF (pieceCount s) s hWF (le_refl _) (pieceCount s + 1)

/-- C2: on every well-formed state the detect-clear-gravity-recheck loop of
processMatches terminates: an iteration that finds no matches exits immediately
with zero totals; an iteration that finds matches strictly decreases the finite
piece population (so no iteration clears zero pieces and continues); and the
loop's value is already stable at the fuel processMatches uses — any fuel
beyond the piece count gives the same result, so the recursion reaches
quiescence within pieceCount iterations. -/
theorem resolve_loop_terminates (s : GameState) (hWF : WF s = true) :
    (findMatches s = [] → processMatches s = (s, 0, 0)) ∧
    (findMatches s ≠ [] →
      pieceCount (applyGravity (clearMatches s (findMatches s)).1).1 < pieceCount s) ∧
    (∀ fuel, pieceCount s < fuel → processMatchesAux fuel s = processMatches s) := by
  refine ⟨?_, ?_, ?_⟩
  · intro hfm
    unfold processMatches
    simp only [processMatchesAux]
    rw [if_pos (by rw [hfm]; rfl)]
  · intro hne
    exact (iteration_WF_count_lt s hWF hne).2
  · intro fuel hf
    exact processMatchesAux_fuel_indep (pieceCount s) s hWF (le_refl _) fuel
      (pieceCount s + 1) hf (by omega)

theorem resolve_loop_terminates_witness :
    WF (pathState [(2, 15), (3, 15), (4, 15), (5, 15)]) = true ∧
      findMatches (pathState [(2, 15), (3, 15), (4, 15), (5, 15)]) ≠ [] ∧
      pieceCount (applyGravity (clearMatches (pathState [(2, 15), (3, 15), (4, 15), (5, 15)])
          (findMatches (pathState [(2, 15), (3, 15), (4, 15), (5, 15)]))).1).1 <
        pieceCount (pathState [(2, 15), (3, 15), (4, 15), (5, 15)]) :=
  ⟨by decide, by decide,
    (resolve_loop_terminates (pathState [(2, 15), (3, 15), (4, 15), (5, 15)])
      (by decide)).2.1 (by decide)⟩

/-- C3: resolve (processMatches) on a state whose grid contains no straight
horizontal or vertical run of four or more same-colored pieces returns the
totals (0, 0) immediately with the state — in particular every grid cell —
unchanged. -/
theorem resolve_noop_when_no_runs (s : GameState)
    (h : ∀ p ∈ cellList, onStraightRun s p.1 p.2 = false) :
    processMatches s = (s, 0, 0) := by
  have hfm : findMatches s = [] := by
    rcases hfm2 : findMatches s with _ | ⟨q, rest⟩
    · rfl
    · exfalso
      have hq : q ∈ findMatches s := by rw [hfm2]; exact List.mem_cons_self q rest
      have hrun := (findMatches_iff_onStraightRun s q).1 hq
      obtain ⟨id, hid⟩ := findMatches_occupied hq
      have hmem := (isValid_iff_mem_cellList q).1 (isValid_of_get_some hid)
      rw [h q hmem] at hrun
      cases hrun
  unfold processMatches
  simp only [processMatchesAux]
  rw [if_pos (by rw [hfm]; rfl)]

theorem resolve_noop_when_no_runs_witness :
    (∀ p ∈ cellList, onStraightRun demoState p.1 p.2 = false) ∧
      processMatches demoState = (demoState, 0, 0) :=
  ⟨by decide, resolve_noop_when_no_runs demoState (by decide)⟩

theorem posInv_of_WF (s : GameState) (h : WF s = true) : posInv s = true := by
  unfold posInv
  rw [List.all_eq_true]
  intro p _
  rcases hg : GameGrid.get s p.1 p.2 with _ | id
  · simp only [hg]
  · obtain ⟨e, he, hc, hr, _⟩ := (WF_iff s).1 h p.1 p.2 id hg
    simp [hg, he, hc, hr]

theorem posInv_remove (s : GameState) (c r : Int) (h : posInv s = true) :
    posInv (GameGrid.remove s c r).2 = true := by
  unfold posInv at h ⊢
  rw [List.all_eq_true] at h ⊢
  intro p hp
  have hh := h p hp
  rcases hg : GameGrid.get (GameGrid.remove s c r).2 p.1 p.2 with _ | id
  · simp only [hg]
  · simp only [hg]
    rw [ents_remove]
    have hg2 : GameGrid.get s p.1 p.2 = some id := by
      rw [get_remove] at hg
      split_ifs at hg with hcc
      exact hg
    simp only [hg2] at hh
    exact hh

theorem posInv_set_none (s : GameState) (c r : Int) (h : posInv s = true) :
    posInv (GameGrid.set s c r none).2 = true := by
  cases hv : GameGrid.isValid c r with
  | false =>
    rw [set_invalid s c r none hv]
    exact h
  | true =>
    unfold posInv at h ⊢
    rw [List.all_eq_true] at h ⊢
    intro p hp
    have hh := h p hp
    rcases hg : GameGrid.get (GameGrid.set s c r none).2 p.1 p.2 with _ | id
    · simp only [hg]
    · simp only [hg]
      rw [ents_set_none]
      have hg2 : GameGrid.get s p.1 p.2 = some id := by
        rw [get_set _ _ hv] at hg
        split_ifs at hg with hcc
        exact hg
      simp only [hg2] at hh
      exact hh

theorem posInv_set_fresh (s : GameState) (c r : Int) (id : Nat) (h : posInv s = true)
    (hfresh : ∀ x y, GameGrid.get s x y ≠ some id) :
    posInv (GameGrid.set s c r (some id)).2 = true := by
  cases hv : GameGrid.isValid c r with
  | false =>
    rw [set_invalid s c r (some id) hv]
    exact h
  | true =>
    unfold posInv at h ⊢
    rw [List.all_eq_true] at h ⊢
    intro p hp
    have hh := h p hp
    rcases hg : GameGrid.get (GameGrid.set s c r (some id)).2 p.1 p.2 with _ | j
    · simp only [hg]
    · simp only [hg]
      rw [get_set _ _ hv] at hg
      split_ifs at hg with hcc
      · have hj : j = id := (Option.some.inj hg).symm
        subst hj
        obtain ⟨hc1, hr1⟩ := hcc
        rw [ents_set_some _ _ hv, if_pos rfl]
        rcases he : s.ents j with _ | e
        · simp [he]
        · cases e <;> simp [he, entSetPos, Entity.gridCol, Entity.gridRow, hc1, hr1]
      · have hjid : j ≠ id := by
          rintro rfl
          exact hfresh p.1 p.2 hg
        rw [ents_set_some _ _ hv, if_neg hjid]
        simp only [hg] at hh
        exact hh

/-- C4 counterexample: on a state satisfying the position/content invariant,
set of a piece that is still referenced by another grid cell breaks the
invariant — the old cell keeps referencing the piece while the piece's stored
coordinates are rewritten to the new cell.  The spec's claim that the
invariant is preserved by every set is therefore too strong. -/
theorem set_gridded_piece_breaks_position_invariant :
    posInv demoState = true ∧
      GameGrid.get demoState 2 3 = some 0 ∧
      posInv (GameGrid.set demoState 1 1 (some 0)).2 = false := by decide

/-- C4 (amended): the position/content invariant — every grid cell referencing
a piece equals that piece's stored coordinates — holds on every well-formed
state, is preserved by remove, by set of empty content, and by set of a piece
no grid cell references (the fresh-piece discipline the game follows), and
holds again after a whole resolve on a well-formed state.  An unrestricted
set of an already-gridded piece does not preserve it (see the counterexample
theorem). -/
theorem position_invariant_scope (s : GameState) :
    (WF s = true → posInv s = true) ∧
    (∀ c r, posInv s = true → posInv (GameGrid.remove s c r).2 = true) ∧
    (∀ c r, posInv s = true → posInv (GameGrid.set s c r none).2 = true) ∧
    (∀ c r id, posInv s = true → (∀ x y, GameGrid.get s x y ≠ some id) →
      posInv (GameGrid.set s c r (some id)).2 = true) ∧
    (WF s = true → posInv (processMatches s).1 = true) :=
  ⟨posInv_of_WF s,
   fun c r h => posInv_remove s c r h,
   fun c r h => posInv_set_none s c r h,
   fun c r id h hf => posInv_set_fresh s c r id h hf,
   fun hWF => posInv_of_WF _ (processMatches_WF s hWF)⟩

theorem position_invariant_scope_witness :
    WF demoState = true ∧ posInv (processMatches demoState).1 = true :=
  ⟨by decide, (position_invariant_scope demoState).2.2.2.2 (by decide)⟩

/- Cell and store characterizations of the two moving branches of gravityStep. -/

theorem capsuleShift_get (t : GameState) (k : Nat) (cap : CapsuleEnt) (cs1 : CapsuleState)
    {h1 h2 : HalfEnt} (hne : cap.half1 ≠ cap.half2)
    (he1 : t.ents cap.half1 = some (.half h1)) (he2 : t.ents cap.half2 = some (.half h2))
    (hc1 : cs1.half1Col = h1.gridCol) (hr1 : cs1.half1Row = h1.gridRow + 1)
    (hc2 : cs1.half2Col = h2.gridCol) (hr2 : cs1.half2Row = h2.gridRow + 1)
    (hval1 : GameGrid.isValid h1.gridCol (h1.gridRow + 1) = true)
    (hval2 : GameGrid.isValid h2.gridCol (h2.gridRow + 1) = true) (x y : Int) :
    GameGrid.get (capsuleShiftState t k cap cs1) x y =
      if x = h2.gridCol ∧ y = h2.gridRow + 1 then some cap.half2
      else if x = h1.gridCol ∧ y = h1.gridRow + 1 then some cap.half1
      else if x = h2.gridCol ∧ y = h2.gridRow then none
      else if x = h1.gridCol ∧ y = h1.gridRow then none
      else GameGrid.get t x y := by
  have hCSS := capsuleShiftState_eq t k cap cs1 hne he1 he2 (by rw [hc1, hr1]; exact hval1)
  rw [hc1, hr1, hc2, hr2] at hCSS
  rw [hCSS, get_set _ _ hval2, get_set _ _ hval1, get_remove, get_remove,
    get_writeBackCapsule]

theorem capsuleShift_ents_half1 (t : GameState) (k : Nat) (cap : CapsuleEnt)
    (cs1 : CapsuleState) {h1 h2 : HalfEnt} (hne : cap.half1 ≠ cap.half2)
    (he1 : t.ents cap.half1 = some (.half h1)) (he2 : t.ents cap.half2 = some (.half h2))
    (hc1 : cs1.half1Col = h1.gridCol) (hr1 : cs1.half1Row = h1.gridRow + 1)
    (hc2 : cs1.half2Col = h2.gridCol) (hr2 : cs1.half2Row = h2.gridRow + 1)
    (hval1 : GameGrid.isValid h1.gridCol (h1.gridRow + 1) = true)
    (hval2 : GameGrid.isValid h2.gridCol (h2.gridRow + 1) = true) :
    (capsuleShiftState t k cap cs1).ents cap.half1 =
      some (.half { h1 with gridRow := h1.gridRow + 1 }) := by
  have hCSS := capsuleShiftState_eq t k cap cs1 hne he1 he2 (by rw [hc1, hr1]; exact hval1)
  rw [hc1, hr1, hc2, hr2] at hCSS
  rw [hCSS, ents_set_some _ _ hval2 cap.half1, if_neg hne,
    ents_set_some _ _ hval1 cap.half1, if_pos rfl, ents_remove, ents_remove,
    ents_writeBackCapsule_half1 t k cap cs1 hne, he1]
  simp [entSetPos, hc1, hr1]

theorem capsuleShift_ents_half2 (t : GameState) (k : Nat) (cap : CapsuleEnt)
    (cs1 : CapsuleState) {h1 h2 : HalfEnt} (hne : cap.half1 ≠ cap.half2)
    (he1 : t.ents cap.half1 = some (.half h1)) (he2 : t.ents cap.half2 = some (.half h2))
    (hc1 : cs1.half1Col = h1.gridCol) (hr1 : cs1.half1Row = h1.gridRow + 1)
    (hc2 : cs1.half2Col = h2.gridCol) (hr2 : cs1.half2Row = h2.gridRow + 1)
    (hval1 : GameGrid.isValid h1.gridCol (h1.gridRow + 1) = true)
    (hval2 : GameGrid.isValid h2.gridCol (h2.gridRow + 1) = true) :
    (capsuleShiftState t k cap cs1).ents cap.half2 =
      some (.half { h2 with gridRow := h2.gridRow + 1 }) := by
  have hCSS := capsuleShiftState_eq t k cap cs1 hne he1 he2 (by rw [hc1, hr1]; exact hval1)
  rw [hc1, hr1, hc2, hr2] at hCSS
  rw [hCSS, ents_set_some _ _ hval2 cap.half2, if_pos rfl,
    ents_set_some _ _ hval1 cap.half2, if_neg (Ne.symm hne), ents_remove, ents_remove,
    ents_writeBackCapsule_half2 t k cap cs1 hne, he2]
  simp [entSetPos, hc2, hr2]

theorem capsuleShift_ents_other (t : GameState) (k : Nat) (cap : CapsuleEnt)
    (cs1 : CapsuleState) {h1 h2 : HalfEnt} (hne : cap.half1 ≠ cap.half2)
    (he1 : t.ents cap.half1 = some (.half h1)) (he2 : t.ents cap.half2 = some (.half h2))
    (hc1 : cs1.half1Col = h1.gridCol) (hr1 : cs1.half1Row = h1.gridRow + 1)
    (hc2 : cs1.half2Col = h2.gridCol) (hr2 : cs1.half2Row = h2.gridRow + 1)
    (hval1 : GameGrid.isValid h1.gridCol (h1.gridRow + 1) = true)
    (hval2 : GameGrid.isValid h2.gridCol (h2.gridRow + 1) = true)
    (j : Nat) (hj1 : j ≠ cap.half1) (hj2 : j ≠ cap.half2) :
    (capsuleShiftState t k cap cs1).ents j = t.ents j := by
  have hCSS := capsuleShiftState_eq t k cap cs1 hne he1 he2 (by rw [hc1, hr1]; exact hval1)
  rw [hc1, hr1, hc2, hr2] at hCSS
  rw [hCSS, ents_set_some _ _ hval2 j, if_neg hj2, ents_set_some _ _ hval1 j, if_neg hj1,
    ents_remove, ents_remove, ents_writeBackCapsule_other t k cap cs1 j hj1 hj2]

/- The value of one gravityStep in each branch. -/

theorem gravityStep_cell_empty {t : GameState} {p : Int × Int} (n : Nat) (ks : List Nat)
    (hg : GameGrid.get t p.1 p.2 = none) : gravityStep (t, n, ks) p = (t, n, ks) := by
  simp only [gravityStep, hg]

theorem gravityStep_cell_dangling {t : GameState} {p : Int × Int} {id : Nat}
    (n : Nat) (ks : List Nat) (hg : GameGrid.get t p.1 p.2 = some id)
    (he : t.ents id = none) : gravityStep (t, n, ks) p = (t, n, ks) := by
  simp only [gravityStep, hg, he]

theorem gravityStep_cell_pathogen {t : GameState} {p : Int × Int} {id : Nat} {pe : PathogenEnt}
    (n : Nat) (ks : List Nat) (hg : GameGrid.get t p.1 p.2 = some id)
    (he : t.ents id = some (.pathogen pe)) : gravityStep (t, n, ks) p = (t, n, ks) := by
  simp only [gravityStep, hg, he]

theorem gravityStep_detached_zero {t : GameState} {p : Int × Int} {id : Nat} {hh : HalfEnt}
    (n : Nat) (ks : List Nat) (hg : GameGrid.get t p.1 p.2 = some id)
    (he : t.ents id = some (.half hh)) (hp : hh.parentCapsule = none)
    (hd : dropDist t p.1 p.2 = 0) : gravityStep (t, n, ks) p = (t, n, ks) := by
  simp only [gravityStep, hg, he, hp]
  rw [if_neg (by omega)]

theorem gravityStep_detached_pos {t : GameState} {p : Int × Int} {id : Nat} {hh : HalfEnt}
    (n : Nat) (ks : List Nat) (hg : GameGrid.get t p.1 p.2 = some id)
    (he : t.ents id = some (.half hh)) (hp : hh.parentCapsule = none)
    (hd : 0 < dropDist t p.1 p.2) :
    gravityStep (t, n, ks) p =
      ((GameGrid.set (GameGrid.remove t p.1 p.2).2 p.1
        (p.2 + (dropDist t p.1 p.2 : Int)) (some id)).2, n + 1, ks) := by
  simp only [gravityStep, hg, he, hp]
  rw [if_pos hd]

theorem gravityStep_capsule_seen {t : GameState} {p : Int × Int} {id k : Nat} {hh : HalfEnt}
    (n : Nat) (ks : List Nat) (hg : GameGrid.get t p.1 p.2 = some id)
    (he : t.ents id = some (.half hh)) (hp : hh.parentCapsule = some k)
    (hk : k ∈ ks) : gravityStep (t, n, ks) p = (t, n, ks) := by
  simp only [gravityStep, hg, he, hp]
  rw [if_pos hk]

theorem gravityStep_capsule_missing {t : GameState} {p : Int × Int} {id k : Nat} {hh : HalfEnt}
    (n : Nat) (ks : List Nat) (hg : GameGrid.get t p.1 p.2 = some id)
    (he : t.ents id = some (.half hh)) (hp : hh.parentCapsule = some k)
    (hk : k ∉ ks) (hcap : t.caps k = none) :
    gravityStep (t, n, ks) p = (t, n, k :: ks) := by
  simp only [gravityStep, hg, he, hp]
  rw [if_neg hk]
  simp only [hcap]

theorem gravityStep_capsule_move {t : GameState} {p : Int × Int} {id k : Nat} {hh : HalfEnt}
    {cap : CapsuleEnt} (n : Nat) (ks : List Nat) (hg : GameGrid.get t p.1 p.2 = some id)
    (he : t.ents id = some (.half hh)) (hp : hh.parentCapsule = some k)
    (hk : k ∉ ks) (hcap : t.caps k = some cap)
    (hcm : Capsule.canMoveDown (capStateOf t cap) (customOcc t cap) = true) :
    gravityStep (t, n, ks) p =
      (capsuleShiftState t k cap
        (Capsule.tryMoveDown (capStateOf t cap) (customOcc t cap)).2, n + 2, k :: ks) := by
  simp only [gravityStep, hg, he, hp]
  rw [if_neg hk]
  simp only [hcap]
  rw [if_pos hcm]
  rfl

theorem gravityStep_capsule_stuck {t : GameState} {p : Int × Int} {id k : Nat} {hh : HalfEnt}
    {cap : CapsuleEnt} (n : Nat) (ks : List Nat) (hg : GameGrid.get t p.1 p.2 = some id)
    (he : t.ents id = some (.half hh)) (hp : hh.parentCapsule = some k)
    (hk : k ∉ ks) (hcap : t.caps k = some cap)
    (hcm : Capsule.canMoveDown (capStateOf t cap) (customOcc t cap) = false) :
    gravityStep (t, n, ks) p = (t, n, k :: ks) := by
  simp only [gravityStep, hg, he, hp]
  rw [if_neg hk]
  simp only [hcap]
  rw [if_neg (by rw [hcm]; exact Bool.false_ne_true)]

theorem gravityStep_pathogen_frame (t : GameState) (hWF : WF t = true) (n : Nat)
    (ks : List Nat) (p : Int × Int) {j : Nat} {pe : PathogenEnt}
    (hj : t.ents j = some (.pathogen pe)) :
    (gravityStep (t, n, ks) p).1.ents j = t.ents j ∧
      ∀ c r, (GameGrid.get (gravityStep (t, n, ks) p).1 c r = some j ↔
        GameGrid.get t c r = some j) := by
  rcases hg : GameGrid.get t p.1 p.2 with _ | id
  · rw [gravityStep_cell_empty n ks hg]
    exact ⟨rfl, fun c r => Iff.rfl⟩
  rcases he : t.ents id with _ | e
  · rw [gravityStep_cell_dangling n ks hg he]
    exact ⟨rfl, fun c r => Iff.rfl⟩
  cases e with
  | pathogen pe2 =>
    rw [gravityStep_cell_pathogen n ks hg he]
    exact ⟨rfl, fun c r => Iff.rfl⟩
  | half hh =>
    have hjid : j ≠ id := by
      rintro rfl
      rw [hj] at he
      exact Entity.noConfusion (Option.some.inj he)
    rcases hp : hh.parentCapsule with _ | k
    · by_cases hd : 0 < dropDist t p.1 p.2
      case neg =>
        rw [gravityStep_detached_zero n ks hg he hp (by omega)]
        exact ⟨rfl, fun c r => Iff.rfl⟩
      case pos =>
        rw [gravityStep_detached_pos n ks hg he hp hd]
        have hvp := (isValid_iff _ _).1 (isValid_of_get_some hg)
        simp only [FIELD_WIDTH, FIELD_HEIGHT] at hvp
        have hdle := dropDist_le t p.1 p.2
        have htgt : GameGrid.get t p.1 (p.2 + (dropDist t p.1 p.2 : Int)) = none := by
          rw [← isEmpty_iff_get_none]
          exact dropDist_cells_empty (dropDist t p.1 p.2 : Int) (by omega) (by omega)
        have hvt : GameGrid.isValid p.1 (p.2 + (dropDist t p.1 p.2 : Int)) = true := by
          rw [isValid_iff]
          simp only [FIELD_WIDTH, FIELD_HEIGHT]
          omega
        constructor
        · show (GameGrid.set (GameGrid.remove t p.1 p.2).2 p.1
            (p.2 + (dropDist t p.1 p.2 : Int)) (some id)).2.ents j = t.ents j
          rw [ents_set_some _ _ hvt j, if_neg hjid, ents_remove]
        · intro c r
          show GameGrid.get (GameGrid.set (GameGrid.remove t p.1 p.2).2 p.1
            (p.2 + (dropDist t p.1 p.2 : Int)) (some id)).2 c r = some j ↔ _
          rw [get_set _ _ hvt, get_remove]
          split_ifs with hcc1 hcc2
          · constructor
            · intro hx
              exact absurd (Option.some.inj hx).symm hjid
            · intro hx
              obtain ⟨rfl, rfl⟩ := hcc1
              rw [htgt] at hx
              cases hx
          · constructor
            · intro hx
              cases hx
            · intro hx
              obtain ⟨rfl, rfl⟩ := hcc2
              rw [hg] at hx
              exact absurd (Option.some.inj hx).symm hjid
          · exact Iff.rfl
    · by_cases hk : k ∈ ks
      · rw [gravityStep_capsule_seen n ks hg he hp hk]
        exact ⟨rfl, fun c r => Iff.rfl⟩
      rcases hcap : t.caps k with _ | cap
      · rw [gravityStep_capsule_missing n ks hg he hp hk hcap]
        exact ⟨rfl, fun c r => Iff.rfl⟩
      by_cases hcm : Capsule.canMoveDown (capStateOf t cap) (customOcc t cap) = true
      case neg =>
        rw [gravityStep_capsule_stuck n ks hg he hp hk hcap
          (by simp only [Bool.not_eq_true] at hcm; exact hcm)]
        exact ⟨rfl, fun c r => Iff.rfl⟩
      case pos =>
        rw [gravityStep_capsule_move n ks hg he hp hk hcap hcm]
        obtain ⟨e, he2, _, _, hclause⟩ := (WF_iff t).1 hWF p.1 p.2 id hg
        rw [he] at he2
        have hee : e = .half hh := (Option.some.inj he2).symm
        subst hee
        have hok := hclause hh k rfl hp
        obtain ⟨cap0, h1, h2, _, hf⟩ := (capOK_iff t k id).1 hok
        have hcap0 : cap0 = cap := by
          have hx := hf.caps_eq
          rw [hcap] at hx
          exact (Option.some.inj hx).symm
        subst hcap0
        obtain ⟨hc1, hr1, hc2, hr2, hval1, hval2, hnew1, hnew2, hold_ne, hgeom2⟩ :=
          canMoveDown_shiftHyps t hWF k cap0 h1 h2 hf hcm
        have hj1 : j ≠ cap0.half1 := by
          rintro rfl
          rw [hf.ents1] at hj
          exact Entity.noConfusion (Option.some.inj hj)
        have hj2 : j ≠ cap0.half2 := by
          rintro rfl
          rw [hf.ents2] at hj
          exact Entity.noConfusion (Option.some.inj hj)
        constructor
        · exact capsuleShift_ents_other t k cap0 _ hf.hne hf.ents1 hf.ents2
            hc1 hr1 hc2 hr2 hval1 hval2 j hj1 hj2
        · intro c r
          rw [capsuleShift_get t k cap0 _ hf.hne hf.ents1 hf.ents2
            hc1 hr1 hc2 hr2 hval1 hval2 c r]
          split_ifs with hb2 hb1 hbo2 hbo1
          · constructor
            · intro hx
              exact absurd (Option.some.inj hx).symm hj2
            · intro hx
              obtain ⟨rfl, rfl⟩ := hb2
              rcases hnew2 with hemp | ⟨hcc, hrr⟩
              · rw [hemp] at hx
                cases hx
              · rw [hcc, hrr] at hx
                rw [hf.grid1] at hx
                exact absurd (Option.some.inj hx).symm hj1
          · constructor
            · intro hx
              exact absurd (Option.some.inj hx).symm hj1
            · intro hx
              obtain ⟨rfl, rfl⟩ := hb1
              rcases hnew1 with hemp | ⟨hcc, hrr⟩
              · rw [hemp] at hx
                cases hx
              · rw [hcc, hrr] at hx
                rw [hf.grid2] at hx
                exact absurd (Option.some.inj hx).symm hj2
          · constructor
            · intro hx
              cases hx
            · intro hx
              obtain ⟨rfl, rfl⟩ := hbo2
              rw [hf.grid2] at hx
              exact absurd (Option.some.inj hx).symm hj2
          · constructor
            · intro hx
              cases hx
            · intro hx
              obtain ⟨rfl, rfl⟩ := hbo1
              rw [hf.grid1] at hx
              exact absurd (Option.some.inj hx).symm hj1
          · exact Iff.rfl

theorem gravityFold_pathogen_frame :
    ∀ (l : List (Int × Int)) (t : GameState) (n : Nat) (ks : List Nat), WF t = true →
      ∀ (j : Nat) (pe : PathogenEnt), t.ents j = some (.pathogen pe) →
        (l.foldl gravityStep (t, n, ks)).1.ents j = t.ents j ∧
          ∀ c r, (GameGrid.get (l.foldl gravityStep (t, n, ks)).1 c r = some j ↔
            GameGrid.get t c r = some j) := by
  intro l
  induction l with
  | nil =>
    intro t n ks h j pe hj
    exact ⟨rfl, fun c r => Iff.rfl⟩
  | cons p rest ih =>
    intro t n ks h j pe hj
    simp only [List.foldl_cons]
    obtain ⟨hstep_ents, hstep_get⟩ := gravityStep_pathogen_frame t h n ks p hj
    have hWF2 := (gravityStep_WF_count t h n ks p).1
    have hj2 : (gravityStep (t, n, ks) p).1.ents j = some (.pathogen pe) := by
      rw [hstep_ents]
      exact hj
    have hr := ih (gravityStep (t, n, ks) p).1 (gravityStep (t, n, ks) p).2.1
      (gravityStep (t, n, ks) p).2.2 hWF2 j pe hj2
    exact ⟨by rw [hr.1, hstep_ents], fun c r => (hr.2 c r).trans (hstep_get c r)⟩

theorem applyGravity_pathogen_frame (s : GameState) (hWF : WF s = true)
    (j : Nat) (pe : PathogenEnt) (hj : s.ents j = some (.pathogen pe)) :
    (applyGravity s).1.ents j = s.ents j ∧
      ∀ c r, (GameGrid.get (applyGravity s).1 c r = some j ↔
        GameGrid.get s c r = some j) := by
  unfold applyGravity
  exact gravityFold_pathogen_frame gravityOrder s 0 [] hWF j pe hj

/-- C5: behavior of a single gravity pass on a well-formed state.  At any scan
cell: a pathogen triggers no change; a detached half whose maximal run of
empty cells directly below it is empty stays put; a detached half above a
non-empty maximal run (cells below empty up to exactly the run length) drops
by the full run length in one step — old cell emptied, landing cell written,
stored coordinates rewritten — and the dropped counter increases by exactly 1;
a half still linked to an unprocessed capsule that can move down (occupancy
ignoring its own cells) moves the whole capsule exactly one row — both halves'
old cells removed, both new cells written, both stored positions one row
lower — and the counter increases by exactly 2; a linked capsule that cannot
move changes nothing but the processed set.  Across the whole pass, pathogens
never move: their entities and the cells referencing them are unchanged. -/
theorem gravity_single_pass_behavior (t : GameState) (hWF : WF t = true)
    (n : Nat) (ks : List Nat) (p : Int × Int) :
    (∀ id pe, GameGrid.get t p.1 p.2 = some id → t.ents id = some (.pathogen pe) →
      gravityStep (t, n, ks) p = (t, n, ks)) ∧
    (∀ id hh, GameGrid.get t p.1 p.2 = some id → t.ents id = some (.half hh) →
      hh.parentCapsule = none → dropDist t p.1 p.2 = 0 →
      gravityStep (t, n, ks) p = (t, n, ks)) ∧
    (∀ id hh, GameGrid.get t p.1 p.2 = some id → t.ents id = some (.half hh) →
      hh.parentCapsule = none → 0 < dropDist t p.1 p.2 →
      (∀ i : Int, 1 ≤ i → i ≤ (dropDist t p.1 p.2 : Int) →
        GameGrid.isEmpty t p.1 (p.2 + i) = true) ∧
      (p.2 + (dropDist t p.1 p.2 : Int) = 15 ∨
        GameGrid.isEmpty t p.1 (p.2 + (dropDist t p.1 p.2 : Int) + 1) = false) ∧
      gravityStep (t, n, ks) p =
        ((GameGrid.set (GameGrid.remove t p.1 p.2).2 p.1
          (p.2 + (dropDist t p.1 p.2 : Int)) (some id)).2, n + 1, ks) ∧
      (∀ x y, GameGrid.get (gravityStep (t, n, ks) p).1 x y =
        if x = p.1 ∧ y = p.2 + (dropDist t p.1 p.2 : Int) then some id
        else if x = p.1 ∧ y = p.2 then none
        else GameGrid.get t x y) ∧
      (gravityStep (t, n, ks) p).1.ents id =
        some (.half { hh with
          gridCol := p.1
          gridRow := p.2 + (dropDist t p.1 p.2 : Int) })) ∧
    (∀ id hh k cap h1 h2, GameGrid.get t p.1 p.2 = some id →
      t.ents id = some (.half hh) → hh.parentCapsule = some k → k ∉ ks →
      t.caps k = some cap → CapFacts t k cap h1 h2 →
      Capsule.canMoveDown (capStateOf t cap) (customOcc t cap) = true →
      (gravityStep (t, n, ks) p).2.1 = n + 2 ∧
      (gravityStep (t, n, ks) p).2.2 = k :: ks ∧
      (∀ x y, GameGrid.get (gravityStep (t, n, ks) p).1 x y =
        if x = h2.gridCol ∧ y = h2.gridRow + 1 then some cap.half2
        else if x = h1.gridCol ∧ y = h1.gridRow + 1 then some cap.half1
        else if x = h2.gridCol ∧ y = h2.gridRow then none
        else if x = h1.gridCol ∧ y = h1.gridRow then none
        else GameGrid.get t x y) ∧
      (gravityStep (t, n, ks) p).1.ents cap.half1 =
        some (.half { h1 with gridRow := h1.gridRow + 1 }) ∧
      (gravityStep (t, n, ks) p).1.ents cap.half2 =
        some (.half { h2 with gridRow := h2.gridRow + 1 })) ∧
    (∀ id hh k cap, GameGrid.get t p.1 p.2 = some id → t.ents id = some (.half hh) →
      hh.parentCapsule = some k → k ∉ ks → t.caps k = some cap →
      Capsule.canMoveDown (capStateOf t cap) (customOcc t cap) = false →
      gravityStep (t, n, ks) p = (t, n, k :: ks)) ∧
    (∀ j pe, t.ents j = some (.pathogen pe) →
      (applyGravity t).1.ents j = t.ents j ∧
      ∀ c r, (GameGrid.get (applyGravity t).1 c r = some j ↔
        GameGrid.get t c r = some j)) := by
  refine ⟨?_, ?_, ?_, ?_, ?_, ?_⟩
  · intro id pe hg he
    exact gravityStep_cell_pathogen n ks hg he
  · intro id hh hg he hp hd
    exact gravityStep_detached_zero n ks hg he hp hd
  · intro id hh hg he hp hd
    have hvp := (isValid_iff _ _).1 (isValid_of_get_some hg)
    simp only [FIELD_WIDTH, FIELD_HEIGHT] at hvp
    have hdle := dropDist_le t p.1 p.2
    have hvt : GameGrid.isValid p.1 (p.2 + (dropDist t p.1 p.2 : Int)) = true := by
      rw [isValid_iff]
      simp only [FIELD_WIDTH, FIELD_HEIGHT]
      omega
    refine ⟨fun i h1i h2i => dropDist_cells_empty i h1i h2i,
      dropDist_maximal (by omega),
      gravityStep_detached_pos n ks hg he hp hd, ?_, ?_⟩
    · intro x y
      rw [gravityStep_detached_pos n ks hg he hp hd]
      show GameGrid.get (GameGrid.set (GameGrid.remove t p.1 p.2).2 p.1
        (p.2 + (dropDist t p.1 p.2 : Int)) (some id)).2 x y = _
      rw [get_set _ _ hvt, get_remove]
    · rw [gravityStep_detached_pos n ks hg he hp hd]
      show (GameGrid.set (GameGrid.remove t p.1 p.2).2 p.1
        (p.2 + (dropDist t p.1 p.2 : Int)) (some id)).2.ents id = _
      rw [ents_set_some _ _ hvt id, if_pos rfl, ents_remove, he]
      simp [entSetPos]
  · intro id hh k cap h1 h2 hg he hp hk hcap hf hcm
    obtain ⟨hc1, hr1, hc2, hr2, hval1, hval2, _, _, _, _⟩ :=
      canMoveDown_shiftHyps t hWF k cap h1 h2 hf hcm
    rw [gravityStep_capsule_move n ks hg he hp hk hcap hcm]
    exact ⟨rfl, rfl,
      fun x y => capsuleShift_get t k cap _ hf.hne hf.ents1 hf.ents2
        hc1 hr1 hc2 hr2 hval1 hval2 x y,
      capsuleShift_ents_half1 t k cap _ hf.hne hf.ents1 hf.ents2
        hc1 hr1 hc2 hr2 hval1 hval2,
      capsuleShift_ents_half2 t k cap _ hf.hne hf.ents1 hf.ents2
        hc1 hr1 hc2 hr2 hval1 hval2⟩
  · intro id hh k cap hg he hp hk hcap hcm
    exact gravityStep_capsule_stuck n ks hg he hp hk hcap hcm
  · intro j pe hj
    exact applyGravity_pathogen_frame t hWF j pe hj

theorem gravity_single_pass_behavior_witness :
    WF capState2 = true ∧
      (gravityStep (capState2, 0, []) (3, 6)).2.1 = 0 + 2 ∧
      WF demoState = true ∧
      (∀ c r, (GameGrid.get (applyGravity demoState).1 c r = some 0 ↔
        GameGrid.get demoState c r = some 0)) :=
  ⟨by decide,
   ((gravity_single_pass_behavior capState2 (by decide) 0 [] (3, 6)).2.2.2.1
     1 { colorIndex := 1, parentCapsule := some 0, gridCol := 3, gridRow := 6 }
     0
     { half1 := 0, half2 := 1, orientation := .vertical, half1IsFirst := true,
       gridCol := 3, gridRow := 5 }
     { colorIndex := 0, parentCapsule := some 0, gridCol := 3, gridRow := 5 }
     { colorIndex := 1, parentCapsule := some 0, gridCol := 3, gridRow := 6 }
     (by decide) (by decide) (by decide) (List.not_mem_nil 0) (by decide)
     ⟨by decide, by decide, by decide, by decide, by decide, by decide, by decide,
      by decide, by decide⟩
     (by decide)).1,
   by decide,
   ((gravity_single_pass_behavior demoState (by decide) 0 [] (0, 0)).2.2.2.2.2
     0 { colorIndex := 0, gridCol := 2, gridRow := 3 } (by decide)).2⟩

end ScruffRx
